import Mathlib

/-!
# Native telemetry core: session lifecycle, event journal, metrics aggregator

A shallow embedding of the C++ classes `metrics::SessionManager`,
`metrics::EventDetector`, `metrics::MetricsAggregator` and
`metrics::ImageProcessor`, and of the key decoding of `native-keys.cpp`.

Conventions of the embedding.

* Every method is a function of the object's fields.  A `void` method returns
  the new fields; a method with a result returns the pair (result, new fields),
  also when the method is `const` (the second component is then the input).
* `getCurrentTimeMs()` reads the system clock; each call site receives the
  value read as an explicit argument `now`.
* `float` values are modelled exactly (section on single-precision arithmetic).
* `int64_t` values are mathematical integers (`Int`).  Signed overflow is
  undefined behaviour in the source; the differences `now - pauseTimeMs_` and
  `now - startTimeMs_` of two clock readings stay inside the 64-bit range.
* Every method body runs as one atomic step on the fields; which mutexes a
  body holds at each of its calls is listed apart (section on lock scopes).
-/

namespace metrics

/-! ## SessionManager (session/session_manager.h, session/session_manager.cpp) -/

/-- The enum class `SessionManager::State`. -/
inductive SessionManager.State where
  | IDLE
  | ACTIVE
  | BACKGROUND
  | TERMINATED
deriving DecidableEq, Repr

/-- The data members of `SessionManager` (the mutex apart). -/
structure SessionManager where
  state : SessionManager.State
  sessionId : String
  userId : String
  userEmail : String
  startTimeMs : Int
  pauseTimeMs : Int
  gracePeriodMs : Int
deriving DecidableEq, Repr

namespace SessionManager

open State

/-- The object as its in-class member initialisers leave it:
`state_{State::IDLE}`, empty strings, both times 0, `gracePeriodMs_{5000}`. -/
def init : SessionManager :=
  { state := IDLE, sessionId := "", userId := "", userEmail := "",
    startTimeMs := 0, pauseTimeMs := 0, gracePeriodMs := 5000 }

/-- What `ss << v` appends to a stream put in `std::hex` mode, for a
non-negative `int`: the digits of `v` in base 16, lower case, no padding. -/
def hexInt (v : Nat) : String :=
  String.mk (Nat.toDigits 16 v)

/-- The loop `for (int i = 0; i < count; i++) ss << dis(gen);` where `dis` is
`uniform_int_distribution<>(0, 15)`: the draws number `start`, ..., `start + count - 1`
of the engine, each reduced to the range 0..15 and streamed in hex. -/
def hexRun (rnd : Nat → Nat) (start : Nat) : Nat → String
  | 0 => ""
  | count + 1 => hexRun rnd start count ++ hexInt (rnd (start + count) % 16)

/-- The method `SessionManager::generateUUID`.  `rnd i` is the raw value of the
`i`-th draw from the Mersenne twister seeded by the random device; `dis` maps
a draw into 0..15 and `dis2` into 8..11. -/
def generateUUID (rnd : Nat → Nat) : String :=
  hexRun rnd 0 8 ++ "-"
    ++ hexRun rnd 8 4 ++ "-4"
    ++ hexRun rnd 12 3 ++ "-"
    ++ hexInt (8 + rnd 15 % 4)
    ++ hexRun rnd 16 3 ++ "-"
    ++ hexRun rnd 19 12

/-- The method `SessionManager::startSession`; returns the id it returns. -/
def startSession (rnd : Nat → Nat) (now : Int) (s : SessionManager) :
    String × SessionManager :=
  if s.state = ACTIVE then
    (s.sessionId, s)
  else
    let s1 := { s with sessionId := generateUUID rnd }
    let s2 := { s1 with startTimeMs := now }
    let s3 := { s2 with state := ACTIVE }
    (s3.sessionId, s3)

/-- The method `SessionManager::endSession`.  The duration it computes is only logged. -/
def endSession (_now : Int) (s : SessionManager) : SessionManager :=
  if s.state = IDLE ∨ s.state = TERMINATED then
    s
  else
    { s with state := TERMINATED, sessionId := "", startTimeMs := 0, pauseTimeMs := 0 }

/-- The method `SessionManager::pauseSession`. -/
def pauseSession (now : Int) (s : SessionManager) : SessionManager :=
  if s.state ≠ ACTIVE then
    s
  else
    { s with pauseTimeMs := now, state := BACKGROUND }

/-- The method `SessionManager::resumeSession`. -/
def resumeSession (now : Int) (s : SessionManager) : SessionManager :=
  if s.state ≠ BACKGROUND then
    s
  else
    let pauseDuration := now - s.pauseTimeMs
    if pauseDuration > s.gracePeriodMs then
      { s with state := TERMINATED, sessionId := "" }
    else
      { s with state := ACTIVE, pauseTimeMs := 0 }

/-- The method `SessionManager::getSessionId` (const). -/
def getSessionId (s : SessionManager) : String × SessionManager :=
  (s.sessionId, s)

/-- The method `SessionManager::getState` (const). -/
def getState (s : SessionManager) : State × SessionManager :=
  (s.state, s)

/-- The method `SessionManager::getSessionDurationMs` (const). -/
def getSessionDurationMs (now : Int) (s : SessionManager) : Int × SessionManager :=
  if s.state = IDLE ∨ s.startTimeMs = 0 then
    (0, s)
  else
    (now - s.startTimeMs, s)

/-- The method `SessionManager::isActive` (const). -/
def isActive (s : SessionManager) : Bool × SessionManager :=
  (decide (s.state = ACTIVE), s)

/-- The method `SessionManager::setUserInfo`. -/
def setUserInfo (userId email : String) (s : SessionManager) : SessionManager :=
  { s with userId := userId, userEmail := email }

/-- The method `SessionManager::setGracePeriodMs`. -/
def setGracePeriodMs (gracePeriodMs : Int) (s : SessionManager) : SessionManager :=
  { s with gracePeriodMs := gracePeriodMs }

/-- One call of a state-changing public method of `SessionManager`, with the
clock value it reads and, for `startSession`, the random draws it consumes. -/
inductive Call where
  | startSession (rnd : Nat → Nat) (now : Int)
  | endSession (now : Int)
  | pauseSession (now : Int)
  | resumeSession (now : Int)
  | setUserInfo (userId email : String)
  | setGracePeriodMs (gracePeriodMs : Int)

/-- The effect of one call on the fields. -/
def Call.apply : Call → SessionManager → SessionManager
  | .startSession rnd now, s => (SessionManager.startSession rnd now s).2
  | .endSession now, s => SessionManager.endSession now s
  | .pauseSession now, s => SessionManager.pauseSession now s
  | .resumeSession now, s => SessionManager.resumeSession now s
  | .setUserInfo u e, s => SessionManager.setUserInfo u e s
  | .setGracePeriodMs g, s => SessionManager.setGracePeriodMs g s

/-- The effect of a sequence of calls, first call first. -/
def run (s : SessionManager) (calls : List Call) : SessionManager :=
  calls.foldl (fun acc c => c.apply acc) s

/-- A session started at time 0 on a fresh manager (every random draw 0). -/
def startedAtZero : SessionManager :=
  (startSession (fun _ => 0) 0 init).2

/-- The session `startedAtZero`, paused at time 0 (grace period 5000 ms). -/
def pausedAtZero : SessionManager :=
  pauseSession 0 startedAtZero

end SessionManager

/-! ## EventDetector (events/event_detector.h, events/event_detector.cpp) -/

/-- The enum class `EventDetector::EventType`. -/
inductive EventDetector.EventType where
  | ANR
  | MEMORY_SPIKE
  | CPU_SPIKE
  | CRASH
  | HEAVY_ACTION
  | CUSTOM
deriving DecidableEq, Repr

/-- The struct `EventDetector::Event`. -/
structure EventDetector.Event where
  type : EventDetector.EventType
  name : String
  metadata : String
  timestampMs : Int
  sessionId : String
  screenshotTaken : Bool
deriving DecidableEq, Repr

/-- One invocation of a registered `EventCallback`: which callable ran
(`sink`, the handle under which it was registered) and the event passed to it. -/
structure EventDetector.Delivery where
  sink : Nat
  event : EventDetector.Event
deriving DecidableEq, Repr

/-- The data members of `EventDetector` (the two mutexes apart).
`eventCallback` is `none` for an empty `std::function` and `some h` when the
callable with handle `h` is stored; `watchdogThread` tells whether
`watchdogThread_` is joinable. -/
structure EventDetector where
  events : List EventDetector.Event
  eventCallback : Option Nat
  watchdogRunning : Bool
  lastPingTimeMs : Int
  anrThresholdMs : Int
  watchdogThread : Bool
deriving DecidableEq, Repr

namespace EventDetector

open EventType

/-- The constant `MAX_EVENTS`. -/
def MAX_EVENTS : Nat := 500

/-- The constant `WATCHDOG_CHECK_INTERVAL_MS`. -/
def WATCHDOG_CHECK_INTERVAL_MS : Int := 500

/-- The object as its in-class member initialisers leave it. -/
def init : EventDetector :=
  { events := [], eventCallback := none, watchdogRunning := false,
    lastPingTimeMs := 0, anrThresholdMs := 5000, watchdogThread := false }

/-- The initialiser of the local `Event event{type, name, metadata,
getCurrentTimeMs(), SessionManager::getInstance().getSessionId(), false}` in
`recordEvent`. -/
def mkEvent (sm : SessionManager) (now : Int) (type : EventType)
    (name metadata : String) : Event :=
  { type := type, name := name, metadata := metadata, timestampMs := now,
    sessionId := (SessionManager.getSessionId sm).1, screenshotTaken := false }

/-- The method `EventDetector::recordEvent`.  `sm` is the session manager
singleton as it is when `getSessionId()` is called and `now` the clock value read.
Returns the new fields and the callback invocations the call made. -/
def recordEvent (sm : SessionManager) (now : Int) (type : EventType)
    (name metadata : String) (d : EventDetector) : EventDetector × List Delivery :=
  let event := mkEvent sm now type name metadata
  let pushed := d.events ++ [event]
  let events := if pushed.length > MAX_EVENTS then pushed.tail else pushed
  let d1 := { d with events := events }
  match d.eventCallback with
  | some sink => (d1, [{ sink := sink, event := event }])
  | none => (d1, [])

/-- The method `EventDetector::recordHeavyAction`. -/
def recordHeavyAction (sm : SessionManager) (now : Int) (name metadata : String)
    (d : EventDetector) : EventDetector × List Delivery :=
  recordEvent sm now HEAVY_ACTION name metadata d

/-- The method `EventDetector::recordCrash`. -/
def recordCrash (sm : SessionManager) (now : Int) (stackTrace : String)
    (d : EventDetector) : EventDetector × List Delivery :=
  recordEvent sm now CRASH "AppCrash" stackTrace d

/-- The method `EventDetector::startWatchdog`. -/
def startWatchdog (now : Int) (d : EventDetector) : EventDetector :=
  if d.watchdogRunning then
    d
  else
    { d with watchdogRunning := true, lastPingTimeMs := now, watchdogThread := true }

/-- The method `EventDetector::stopWatchdog`. -/
def stopWatchdog (d : EventDetector) : EventDetector :=
  let d1 := { d with watchdogRunning := false }
  if d1.watchdogThread then { d1 with watchdogThread := false } else d1

/-- The method `EventDetector::pingWatchdog`. -/
def pingWatchdog (now : Int) (d : EventDetector) : EventDetector :=
  { d with lastPingTimeMs := now }

/-- The metadata string built in `watchdogLoop`:
`"{\"blockedDurationMs\":" + std::to_string(elapsed) + "}"`. -/
def anrMetadata (elapsed : Int) : String :=
  "\x7b\"blockedDurationMs\":" ++ toString elapsed ++ "\x7d"

/-- One wake of `EventDetector::watchdogLoop`: the body of the loop from the
return of `sleep_for` on.  `currentTime` is the clock value the loop reads,
`recordTime` the one `recordEvent` reads when an ANR is detected. -/
def watchdogWake (sm : SessionManager) (currentTime recordTime : Int)
    (d : EventDetector) : EventDetector × List Delivery :=
  if !d.watchdogRunning then
    (d, [])
  else
    let lastPing := d.lastPingTimeMs
    let elapsed := currentTime - lastPing
    if elapsed > d.anrThresholdMs then
      recordEvent sm recordTime ANR "MainThreadBlocked" (anrMetadata elapsed) d
    else
      (d, [])

/-- The method `EventDetector::setEventCallback`; `callback` is `none` for an
empty `std::function`. -/
def setEventCallback (callback : Option Nat) (d : EventDetector) : EventDetector :=
  { d with eventCallback := callback }

/-- The method `EventDetector::setAnrThresholdMs`. -/
def setAnrThresholdMs (thresholdMs : Int) (d : EventDetector) : EventDetector :=
  { d with anrThresholdMs := thresholdMs }

/-- The method `EventDetector::getRecentEvents` (const): the whole vector when
`count >= events_.size()`, else the range `[end - count, end)`. -/
def getRecentEvents (count : Nat) (d : EventDetector) : List Event × EventDetector :=
  if count ≥ d.events.length then
    (d.events, d)
  else
    (d.events.drop (d.events.length - count), d)

/-- The method `EventDetector::getEventCount` (const). -/
def getEventCount (d : EventDetector) : Nat × EventDetector :=
  (d.events.length, d)

/-- The method `EventDetector::reset`. -/
def reset (d : EventDetector) : EventDetector :=
  { d with events := [] }

/-- One call of a state-changing method of `EventDetector`, or one wake of its
watchdog loop, with the session manager and clock values it reads. -/
inductive Call where
  | recordEvent (sm : SessionManager) (now : Int) (type : EventType) (name metadata : String)
  | recordHeavyAction (sm : SessionManager) (now : Int) (name metadata : String)
  | recordCrash (sm : SessionManager) (now : Int) (stackTrace : String)
  | watchdogWake (sm : SessionManager) (currentTime recordTime : Int)
  | reset
  | startWatchdog (now : Int)
  | stopWatchdog
  | pingWatchdog (now : Int)
  | setEventCallback (callback : Option Nat)
  | setAnrThresholdMs (thresholdMs : Int)

/-- The effect of one call: the new fields and the callback invocations made. -/
def Call.apply : Call → EventDetector → EventDetector × List Delivery
  | .recordEvent sm now t n m, d => EventDetector.recordEvent sm now t n m d
  | .recordHeavyAction sm now n m, d => EventDetector.recordHeavyAction sm now n m d
  | .recordCrash sm now st, d => EventDetector.recordCrash sm now st d
  | .watchdogWake sm ct rt, d => EventDetector.watchdogWake sm ct rt d
  | .reset, d => (EventDetector.reset d, [])
  | .startWatchdog now, d => (EventDetector.startWatchdog now d, [])
  | .stopWatchdog, d => (EventDetector.stopWatchdog d, [])
  | .pingWatchdog now, d => (EventDetector.pingWatchdog now d, [])
  | .setEventCallback cb, d => (EventDetector.setEventCallback cb d, [])
  | .setAnrThresholdMs t, d => (EventDetector.setAnrThresholdMs t d, [])

/-- The effect of a sequence of calls, first call first: the final fields and
all callback invocations, in the order they were made. -/
def run (d : EventDetector) : List Call → EventDetector × List Delivery
  | [] => (d, [])
  | c :: cs =>
    let r := c.apply d
    let rest := run r.1 cs
    (rest.1, r.2 ++ rest.2)

/-- The arguments of one `recordEvent` call together with the session manager
and the clock value the call reads. -/
structure RecordArgs where
  sm : SessionManager
  now : Int
  type : EventType
  name : String
  metadata : String

/-- The call `recordEvent(type, name, metadata)` with these readings. -/
def RecordArgs.call (r : RecordArgs) : Call :=
  Call.recordEvent r.sm r.now r.type r.name r.metadata

/-- The event that call builds. -/
def RecordArgs.event (r : RecordArgs) : Event :=
  mkEvent r.sm r.now r.type r.name r.metadata

/-- The `i`-th of a series of distinct CUSTOM recordings, made at time `i`
while no session is live. -/
def sampleRecord (i : Nat) : RecordArgs :=
  { sm := SessionManager.init, now := (i : Int), type := CUSTOM,
    name := toString i, metadata := "" }

/-- A detector whose journal is full: the recording `sampleRecord 0` made
`MAX_EVENTS` times. -/
def fullJournal : EventDetector :=
  { init with events := List.replicate MAX_EVENTS (sampleRecord 0).event }

end EventDetector

/-! ## Single-precision arithmetic

The C++ type `float` is IEEE 754 binary32 with round-to-nearest, ties-to-even.
A value is a NaN, an infinity or a finite rational; the sign of a zero is not
tracked (it only shows in a division by zero, which takes the zero as `+0`,
the value an integer 0 converts to). -/

/-- A value of the C++ type `float`. -/
inductive F32 where
  | nan
  | inf (neg : Bool)
  | fin (q : ℚ)
deriving DecidableEq

namespace F32

/-- The number of binary digits of `n` (0 for `n = 0`), by recursion on a
`fuel` that is at least `n`. -/
def bitLenAux : Nat → Nat → Nat
  | 0, _ => 0
  | fuel + 1, n => if n = 0 then 0 else bitLenAux fuel (n / 2) + 1

/-- The number of binary digits of `n`. -/
def bitLen (n : Nat) : Nat :=
  bitLenAux n n

/-- Rounds the positive rational `n / d` to 24 significant bits (or to the
subnormal grid `2 ^ (-149)` below the normal range), nearest with ties to even:
returns `(m, k)` for the rounded magnitude `m * 2 ^ k`.

With `e` the integer such that `2 ^ e ≤ n / d < 2 ^ (e + 1)`: the difference
`bitLen n - bitLen d` is `e` or `e + 1` (`adj` tells which), the last kept bit
has exponent `k = max (e - 23) (-149)`, and `kb = k + 149`. -/
def roundCore (n d : Nat) : Nat × Int :=
  let a := bitLen n
  let b := bitLen d
  let adj := if n * 2 ^ (b - a) < d * 2 ^ (a - b) then 1 else 0
  let kb := a + 126 - b - adj
  let num := n * 2 ^ (149 - kb)
  let den := d * 2 ^ (kb - 149)
  let m := num / den
  let r := num % den
  let m1 := if 2 * r > den ∨ (2 * r = den ∧ m % 2 = 1) then m + 1 else m
  (m1, (kb : Int) - 149)

/-- The `float` nearest to the rational `q`; magnitudes that round to
`2 ^ 128` or more overflow to an infinity. -/
def ofRat (q : ℚ) : F32 :=
  if q = 0 then
    fin 0
  else
    let mk := roundCore q.num.natAbs q.den
    let mag : ℚ := (mk.1 : ℚ) * (2 : ℚ) ^ mk.2
    if mag ≥ 2 ^ 128 then inf (decide (q < 0))
    else fin (if q < 0 then -mag else mag)

/-- The conversion `static_cast<float>(n)` of an integer. -/
def ofInt (n : Int) : F32 :=
  ofRat (n : ℚ)

/-- The `float` product `a * b`. -/
def mul : F32 → F32 → F32
  | nan, _ => nan
  | _, nan => nan
  | inf a, inf b => inf (a != b)
  | inf a, fin y => if y = 0 then nan else inf (a != decide (y < 0))
  | fin x, inf b => if x = 0 then nan else inf (decide (x < 0) != b)
  | fin x, fin y => ofRat (x * y)

/-- The `float` quotient `a / b`. -/
def div : F32 → F32 → F32
  | nan, _ => nan
  | _, nan => nan
  | inf _, inf _ => nan
  | inf a, fin y => inf (a != decide (y < 0))
  | fin _, inf _ => fin 0
  | fin x, fin y =>
    if y = 0 then (if x = 0 then nan else inf (decide (x < 0)))
    else ofRat (x / y)

/-- The comparison `a > b` of two `float`s: false as soon as one is a NaN. -/
def gt : F32 → F32 → Bool
  | nan, _ => false
  | _, nan => false
  | inf a, inf b => !a && b
  | inf a, fin _ => !a
  | fin _, inf b => b
  | fin x, fin y => decide (x > y)

end F32

/-! ## MetricsAggregator (metrics/metrics_aggregator.h, metrics/metrics_aggregator.cpp) -/

/-- The struct `MetricsAggregator::MemoryMetrics`. -/
structure MetricsAggregator.MemoryMetrics where
  totalMemoryMb : Int
  usedMemoryMb : Int
  availableMemoryMb : Int
  usagePercentage : F32
  timestampMs : Int
deriving DecidableEq

/-- The struct `MetricsAggregator::CpuMetrics`. -/
structure MetricsAggregator.CpuMetrics where
  cpuUsagePercentage : F32
  coreCount : Int
  timestampMs : Int
deriving DecidableEq

/-- The data members of `MetricsAggregator` (the mutex apart). -/
structure MetricsAggregator where
  latestMemory : MetricsAggregator.MemoryMetrics
  latestCpu : MetricsAggregator.CpuMetrics
  memoryThreshold : F32
  cpuThreshold : F32
  memoryHistory : List MetricsAggregator.MemoryMetrics
  cpuHistory : List MetricsAggregator.CpuMetrics
deriving DecidableEq

namespace MetricsAggregator

/-- The constant `MAX_HISTORY_SIZE`. -/
def MAX_HISTORY_SIZE : Nat := 100

/-- A value-initialised `MemoryMetrics{}`: every member zero. -/
def MemoryMetrics.zero : MemoryMetrics :=
  { totalMemoryMb := 0, usedMemoryMb := 0, availableMemoryMb := 0,
    usagePercentage := F32.fin 0, timestampMs := 0 }

/-- A value-initialised `CpuMetrics{}`: every member zero. -/
def CpuMetrics.zero : CpuMetrics :=
  { cpuUsagePercentage := F32.fin 0, coreCount := 0, timestampMs := 0 }

/-- The object as its in-class member initialisers leave it:
`latestMemory_{}`, `latestCpu_{}`, `memoryThreshold_{80.0f}`, `cpuThreshold_{90.0f}`. -/
def init : MetricsAggregator :=
  { latestMemory := MemoryMetrics.zero, latestCpu := CpuMetrics.zero,
    memoryThreshold := F32.fin 80, cpuThreshold := F32.fin 90,
    memoryHistory := [], cpuHistory := [] }

/-- The expression
`totalMb > 0 ? (static_cast<float>(usedMb) / totalMb) * 100.0f : 0.0f`
of `recordMemoryMetrics`; `totalMb` is converted to `float` for the division. -/
def memoryUsagePercentage (totalMb usedMb : Int) : F32 :=
  if totalMb > 0 then
    F32.mul (F32.div (F32.ofInt usedMb) (F32.ofInt totalMb)) (F32.fin 100)
  else
    F32.fin 0

/-- The method `MetricsAggregator::recordMemoryMetrics`. -/
def recordMemoryMetrics (now : Int) (totalMb usedMb availableMb : Int)
    (a : MetricsAggregator) : MetricsAggregator :=
  let usagePercentage := memoryUsagePercentage totalMb usedMb
  let latest : MemoryMetrics :=
    { totalMemoryMb := totalMb, usedMemoryMb := usedMb, availableMemoryMb := availableMb,
      usagePercentage := usagePercentage, timestampMs := now }
  let pushed := a.memoryHistory ++ [latest]
  let history := if pushed.length > MAX_HISTORY_SIZE then pushed.tail else pushed
  { a with latestMemory := latest, memoryHistory := history }

/-- The method `MetricsAggregator::recordCpuMetrics`. -/
def recordCpuMetrics (now : Int) (usagePercentage : F32) (coreCount : Int)
    (a : MetricsAggregator) : MetricsAggregator :=
  let latest : CpuMetrics :=
    { cpuUsagePercentage := usagePercentage, coreCount := coreCount, timestampMs := now }
  let pushed := a.cpuHistory ++ [latest]
  let history := if pushed.length > MAX_HISTORY_SIZE then pushed.tail else pushed
  { a with latestCpu := latest, cpuHistory := history }

/-- The method `MetricsAggregator::getLatestMemoryMetrics` (const). -/
def getLatestMemoryMetrics (a : MetricsAggregator) : MemoryMetrics × MetricsAggregator :=
  (a.latestMemory, a)

/-- The method `MetricsAggregator::getLatestCpuMetrics` (const). -/
def getLatestCpuMetrics (a : MetricsAggregator) : CpuMetrics × MetricsAggregator :=
  (a.latestCpu, a)

/-- The method `MetricsAggregator::setMemoryThresholdPercentage`. -/
def setMemoryThresholdPercentage (threshold : F32) (a : MetricsAggregator) :
    MetricsAggregator :=
  { a with memoryThreshold := threshold }

/-- The method `MetricsAggregator::setCpuThresholdPercentage`. -/
def setCpuThresholdPercentage (threshold : F32) (a : MetricsAggregator) :
    MetricsAggregator :=
  { a with cpuThreshold := threshold }

/-- The method `MetricsAggregator::isMemorySpike` (const). -/
def isMemorySpike (a : MetricsAggregator) : Bool × MetricsAggregator :=
  (F32.gt a.latestMemory.usagePercentage a.memoryThreshold, a)

/-- The method `MetricsAggregator::isCpuSpike` (const). -/
def isCpuSpike (a : MetricsAggregator) : Bool × MetricsAggregator :=
  (F32.gt a.latestCpu.cpuUsagePercentage a.cpuThreshold, a)

/-- The method `MetricsAggregator::reset`. -/
def reset (a : MetricsAggregator) : MetricsAggregator :=
  { a with latestMemory := MemoryMetrics.zero, latestCpu := CpuMetrics.zero,
           memoryHistory := [], cpuHistory := [] }

/-- One call of a state-changing public method of `MetricsAggregator`. -/
inductive Call where
  | recordMemoryMetrics (now : Int) (totalMb usedMb availableMb : Int)
  | recordCpuMetrics (now : Int) (usagePercentage : F32) (coreCount : Int)
  | setMemoryThresholdPercentage (threshold : F32)
  | setCpuThresholdPercentage (threshold : F32)
  | reset

/-- The effect of one call on the fields. -/
def Call.apply : Call → MetricsAggregator → MetricsAggregator
  | .recordMemoryMetrics now t u v, a => MetricsAggregator.recordMemoryMetrics now t u v a
  | .recordCpuMetrics now p c, a => MetricsAggregator.recordCpuMetrics now p c a
  | .setMemoryThresholdPercentage t, a => MetricsAggregator.setMemoryThresholdPercentage t a
  | .setCpuThresholdPercentage t, a => MetricsAggregator.setCpuThresholdPercentage t a
  | .reset, a => MetricsAggregator.reset a

/-- The effect of a sequence of calls, first call first. -/
def run (a : MetricsAggregator) (calls : List Call) : MetricsAggregator :=
  calls.foldl (fun acc c => c.apply acc) a

/-- Whether a call is one of the two threshold setters. -/
def Call.setsThreshold : Call → Bool
  | .setMemoryThresholdPercentage _ => true
  | .setCpuThresholdPercentage _ => true
  | _ => false

end MetricsAggregator

/-! ## Further single-precision operations (used by the image processor) -/

namespace F32

/-- The `float` sum `a + b`. -/
def add : F32 → F32 → F32
  | nan, _ => nan
  | _, nan => nan
  | inf a, inf b => if a = b then inf a else nan
  | inf a, fin _ => inf a
  | fin _, inf b => inf b
  | fin x, fin y => ofRat (x + y)

/-- The `float` difference `a - b`. -/
def sub : F32 → F32 → F32
  | nan, _ => nan
  | _, nan => nan
  | inf a, inf b => if a = b then nan else inf a
  | inf a, fin _ => inf a
  | fin _, inf b => inf (!b)
  | fin x, fin y => ofRat (x - y)

/-- The comparison `a < b` of two `float`s: false as soon as one is a NaN. -/
def lt (a b : F32) : Bool :=
  gt b a

/-- The call `std::max(a, b)` on `float`s, that is `(a < b) ? b : a`. -/
def max (a b : F32) : F32 :=
  if lt a b then b else a

/-- The call `std::min(a, b)` on `float`s, that is `(b < a) ? b : a`. -/
def min (a b : F32) : F32 :=
  if lt b a then b else a

/-- The conversion `static_cast<int>(v)`: the value with its fractional part
discarded.  The source's behaviour is undefined when `v` is a NaN or an
infinity (0 here) or when the truncated value does not fit an `int` (not
wrapped here). -/
def toInt : F32 → Int
  | fin q => if q < 0 then -⌊-q⌋ else ⌊q⌋
  | _ => 0

/-- The conversion `static_cast<uint8_t>(v)`: for `v` in `[0, 256)` the value
with its fractional part discarded. -/
def toUInt8 (v : F32) : Fin 256 :=
  Fin.ofNat (toInt v).toNat

end F32

/-! ## ImageProcessor (imaging/image_processor.h, imaging/image_processor.cpp)

An `int` is 32 bits wide: the byte counts and the buffer indices, which the
source computes as `int` expressions, are taken through `wrapInt` (overflow is
undefined in the source and wraps in the compiled code); `uint8_t` is
`Fin 256`; a pointer to a pixel buffer is `none` when null and otherwise the
function from byte offsets to bytes; the file system is a map from paths to
contents together with the set of paths that can be opened for writing, and a
stream that opened accepts every byte written to it. -/

/-- The struct `ImageProcessor::ProcessingConfig`. -/
structure ImageProcessor.ProcessingConfig where
  targetWidth : Int
  targetHeight : Int
  quality : Int
  useWebP : Bool
deriving DecidableEq, Repr

/-- The struct `ImageProcessor::ProcessingResult`. -/
structure ImageProcessor.ProcessingResult where
  success : Bool
  filePath : String
  originalWidth : Int
  originalHeight : Int
  processedWidth : Int
  processedHeight : Int
  originalSizeBytes : Nat
  processedSizeBytes : Nat
  processingTimeMs : Int
  errorMessage : String
deriving DecidableEq, Repr

/-- The data members of `ImageProcessor` (the mutex apart). -/
structure ImageProcessor where
  defaultConfig : ImageProcessor.ProcessingConfig
  storageDirectory : String
  lowMemoryThreshold : Nat
deriving DecidableEq, Repr

/-- The files of the host: the content of each existing file, and which paths
an `std::ofstream` can open for writing. -/
structure FileSystem where
  files : String → Option (List (Fin 256))
  writable : String → Bool

namespace ImageProcessor

/-- The object as its in-class member initialisers leave it:
`defaultConfig_{360, 640, 40, false}`, an empty storage directory and
`lowMemoryThreshold_{50 * 1024 * 1024}`. -/
def init : ImageProcessor :=
  { defaultConfig := { targetWidth := 360, targetHeight := 640, quality := 40, useWebP := false },
    storageDirectory := "", lowMemoryThreshold := 50 * 1024 * 1024 }

/-- A value-initialised `ProcessingResult result{}`. -/
def ProcessingResult.zero : ProcessingResult :=
  { success := false, filePath := "", originalWidth := 0, originalHeight := 0,
    processedWidth := 0, processedHeight := 0, originalSizeBytes := 0,
    processedSizeBytes := 0, processingTimeMs := 0, errorMessage := "" }

/-- The value of an `int` expression whose exact value is `v`: `v` itself when
it is in `[-2 ^ 31, 2 ^ 31)`, and otherwise (a signed overflow, undefined in
the source) the value modulo `2 ^ 32` in that range, which is what the
compiled code computes. -/
def wrapInt (v : Int) : Int :=
  (v + 2 ^ 31) % 2 ^ 32 - 2 ^ 31

/-- The conversion of an `int` to `size_t` (64 bits). -/
def toSizeT (v : Int) : Nat :=
  (v % 2 ^ 64).toNat

/-- The method `ImageProcessor::setDefaultConfig`. -/
def setDefaultConfig (config : ProcessingConfig) (p : ImageProcessor) : ImageProcessor :=
  { p with defaultConfig := config }

/-- The method `ImageProcessor::getDefaultConfig` (const). -/
def getDefaultConfig (p : ImageProcessor) : ProcessingConfig × ImageProcessor :=
  (p.defaultConfig, p)

/-- The method `ImageProcessor::setStorageDirectory`. -/
def setStorageDirectory (directory : String) (p : ImageProcessor) : ImageProcessor :=
  { p with storageDirectory := directory }

/-- The method `ImageProcessor::getStorageDirectory` (const). -/
def getStorageDirectory (p : ImageProcessor) : String × ImageProcessor :=
  (p.storageDirectory, p)

/-- The method `ImageProcessor::isLowMemory` (const). -/
def isLowMemory (p : ImageProcessor) : Bool × ImageProcessor :=
  (false, p)

/-- The method `ImageProcessor::setLowMemoryThreshold`. -/
def setLowMemoryThreshold (thresholdBytes : Nat) (p : ImageProcessor) : ImageProcessor :=
  { p with lowMemoryThreshold := thresholdBytes }

/-- The target dimensions computed in `processAndSaveBitmap` and
`processAndSaveBitmapBuffer`:
`aspectRatio = static_cast<float>(width) / height`,
`targetHeight = static_cast<int>(targetWidth / aspectRatio)`, and when that
exceeds the configured height, `targetHeight = config.targetHeight` and
`targetWidth = static_cast<int>(targetHeight * aspectRatio)`.
Returns `(targetWidth, targetHeight)`. -/
def targetDimensions (config : ProcessingConfig) (width height : Int) : Int × Int :=
  let aspectRatio := F32.div (F32.ofInt width) (F32.ofInt height)
  let targetWidth := config.targetWidth
  let targetHeight := F32.toInt (F32.div (F32.ofInt targetWidth) aspectRatio)
  if targetHeight > config.targetHeight then
    (F32.toInt (F32.mul (F32.ofInt config.targetHeight) aspectRatio), config.targetHeight)
  else
    (targetWidth, targetHeight)

/-- The fractional source coordinate `x * xRatio` of `downscalePixels`, for
`xRatio = static_cast<float>(srcSize) / dstSize` (also used with `y`, heights). -/
def srcCoord (srcSize dstSize x : Int) : F32 :=
  F32.mul (F32.ofInt x) (F32.div (F32.ofInt srcSize) (F32.ofInt dstSize))

/-- The index `x0 = static_cast<int>(srcX)` (also `y0`). -/
def coord0 (srcSize dstSize x : Int) : Int :=
  F32.toInt (srcCoord srcSize dstSize x)

/-- The index `x1 = std::min(x0 + 1, srcWidth - 1)` (also `y1`). -/
def coord1 (srcSize dstSize x : Int) : Int :=
  Min.min (coord0 srcSize dstSize x + 1) (srcSize - 1)

/-- The weight `xFrac = srcX - x0` (also `yFrac`). -/
def coordFrac (srcSize dstSize x : Int) : F32 :=
  F32.sub (srcCoord srcSize dstSize x) (F32.ofInt (coord0 srcSize dstSize x))

/-- The index `yy * srcStride + xx * 4 + c` at which `downscalePixels` reads,
an `int` expression. -/
def readIndex (srcStride xx yy c : Int) : Int :=
  wrapInt (yy * srcStride + xx * 4 + c)

/-- The index `y * dstWidth * 4 + x * 4 + c` at which `downscalePixels` writes,
an `int` expression. -/
def writeIndex (dstWidth x y c : Int) : Int :=
  wrapInt (y * dstWidth * 4 + x * 4 + c)

/-- The store `dstPixels[index] = value` into a buffer of `buf.length` bytes.
A store outside the buffer is undefined in the source; it leaves the buffer as
it is here. -/
def storeByte (buf : List (Fin 256)) (index : Int) (value : Fin 256) : List (Fin 256) :=
  if 0 ≤ index then buf.set index.toNat value else buf

/-- The expression
`(1 - xFrac) * (1 - yFrac) * p00 + xFrac * (1 - yFrac) * p10 +
 (1 - xFrac) * yFrac * p01 + xFrac * yFrac * p11`,
every operation rounded on its own. -/
def blend (xFrac yFrac p00 p10 p01 p11 : F32) : F32 :=
  F32.add
    (F32.add
      (F32.add
        (F32.mul (F32.mul (F32.sub (F32.fin 1) xFrac) (F32.sub (F32.fin 1) yFrac)) p00)
        (F32.mul (F32.mul xFrac (F32.sub (F32.fin 1) yFrac)) p10))
      (F32.mul (F32.mul (F32.sub (F32.fin 1) xFrac) yFrac) p01))
    (F32.mul (F32.mul xFrac yFrac) p11)

/-- The byte `downscalePixels` stores for channel `c` of the destination pixel
`(x, y)`: the four neighbours are read as `float`, blended, clamped with
`std::min(255.0f, std::max(0.0f, value))` and converted to `uint8_t`. -/
def pixelValue (src : Int → Fin 256) (srcWidth srcHeight srcStride dstWidth dstHeight : Int)
    (x y c : Int) : Fin 256 :=
  let x0 := coord0 srcWidth dstWidth x
  let y0 := coord0 srcHeight dstHeight y
  let x1 := coord1 srcWidth dstWidth x
  let y1 := coord1 srcHeight dstHeight y
  let xFrac := coordFrac srcWidth dstWidth x
  let yFrac := coordFrac srcHeight dstHeight y
  let p00 := F32.ofInt ((src (readIndex srcStride x0 y0 c)).val : Int)
  let p10 := F32.ofInt ((src (readIndex srcStride x1 y0 c)).val : Int)
  let p01 := F32.ofInt ((src (readIndex srcStride x0 y1 c)).val : Int)
  let p11 := F32.ofInt ((src (readIndex srcStride x1 y1 c)).val : Int)
  let value := blend xFrac yFrac p00 p10 p01 p11
  F32.toUInt8 (F32.min (F32.fin 255) (F32.max (F32.fin 0) value))

/-- The method `ImageProcessor::downscalePixels`: `false` when a pointer is
null, else the three nested loops over `y`, `x` and `c`, each storing one byte
into the destination buffer at the index `writeIndex`.  Returns the flag and
the destination buffer. -/
def downscalePixels (srcPixels : Option (Int → Fin 256)) (srcWidth srcHeight srcStride : Int)
    (dstPixels : Option (List (Fin 256))) (dstWidth dstHeight : Int) :
    Bool × Option (List (Fin 256)) :=
  match srcPixels, dstPixels with
  | some src, some dst =>
    let out := (List.range dstHeight.toNat).foldl (fun bufY (y : Nat) =>
      (List.range dstWidth.toNat).foldl (fun bufX (x : Nat) =>
        (List.range 4).foldl (fun buf (c : Nat) =>
          storeByte buf (writeIndex dstWidth x y c)
            (pixelValue src srcWidth srcHeight srcStride dstWidth dstHeight x y c)) bufX) bufY) dst
    (true, some out)
  | _, _ => (false, dstPixels)

/-- The four bytes of an `int` in memory, in the byte order of the Android
ABIs (little-endian, two's complement). -/
def encodeInt (v : Int) : List (Fin 256) :=
  let u := (v % 2 ^ 32).toNat
  [Fin.ofNat u, Fin.ofNat (u / 256), Fin.ofNat (u / 65536), Fin.ofNat (u / 16777216)]

/-- The `int` whose four bytes in memory are `bs`. -/
def decodeInt (bs : List (Fin 256)) : Int :=
  let u := (bs.getD 0 0).val + 256 * (bs.getD 1 0).val + 65536 * (bs.getD 2 0).val
    + 16777216 * (bs.getD 3 0).val
  if u < 2 ^ 31 then (u : Int) else (u : Int) - 2 ^ 32

/-- The bytes `writeJpeg` sends to the stream: the three header `int`s
`width`, `height`, `quality`, then `pixelDataSize = width * height * 4` bytes
(an `int` product converted to `size_t`) starting at `pixels`. -/
def artifact (pixels : List (Fin 256)) (width height quality : Int) : List (Fin 256) :=
  let pixelDataSize := toSizeT (wrapInt (width * height * 4))
  encodeInt width ++ encodeInt height ++ encodeInt quality ++ pixels.take pixelDataSize

/-- The file system after a stream opened on `path` (which truncates the file)
received `content` and was closed. -/
def store (fs : FileSystem) (path : String) (content : List (Fin 256)) : FileSystem :=
  { fs with files := fun q => if q = path then some content else fs.files q }

/-- The method `ImageProcessor::writeJpeg`: `false` when the stream does not
open; else the file is replaced by the three header `int`s followed by
`width * height * 4` bytes of `pixels`. -/
def writeJpeg (pixels : List (Fin 256)) (width height quality : Int) (outputPath : String)
    (fs : FileSystem) : Bool × FileSystem :=
  if !fs.writable outputPath then
    (false, fs)
  else
    (true, store fs outputPath (artifact pixels width height quality))

/-- The pointer `scaledPixels.data()` of `std::vector<uint8_t> scaledPixels(size)`
for `size >= 0`: the zero-filled buffer, or null for an empty vector when
`nullOnEmpty`.  The allocation is taken to succeed (memory exhaustion is not
modelled). -/
def vectorData (nullOnEmpty : Bool) (size : Int) : Option (List (Fin 256)) :=
  let scaledPixels : List (Fin 256) := List.replicate size.toNat 0
  if scaledPixels.isEmpty ∧ nullOnEmpty then none else some scaledPixels

/-- The method `ImageProcessor::processAndSaveBitmapBuffer`.  `startTime` and
`endTime` are the two clock values read; `nullOnEmpty` tells whether `data()`
of an empty `std::vector` is the null pointer (the standard allows both).
The byte counts `stride * height` and `targetWidth * targetHeight * 4` are
`int` products.  Returns the result (`none` when the `std::vector` constructor
throws because the requested size is negative), the processor's fields and
the file system. -/
def processAndSaveBitmapBuffer (startTime endTime : Int) (nullOnEmpty : Bool)
    (pixelBuffer : Option (Int → Fin 256)) (width height stride : Int) (outputPath : String)
    (p : ImageProcessor) (fs : FileSystem) :
    Option ProcessingResult × ImageProcessor × FileSystem :=
  let result := ProcessingResult.zero
  if pixelBuffer.isNone ∨ width ≤ 0 ∨ height ≤ 0 then
    (some { result with errorMessage := "Invalid pixel buffer or dimensions" }, p, fs)
  else
    let result := { result with originalWidth := width, originalHeight := height,
                                originalSizeBytes := toSizeT (wrapInt (stride * height)) }
    let config := (getDefaultConfig p).1
    let target := targetDimensions config width height
    let targetWidth := target.1
    let targetHeight := target.2
    let size := wrapInt (targetWidth * targetHeight * 4)
    if size < 0 then
      (none, p, fs)
    else
      let data := vectorData nullOnEmpty size
      let scaled := downscalePixels pixelBuffer width height stride data targetWidth targetHeight
      if !scaled.1 then
        (some { result with errorMessage := "Failed to downscale image" }, p, fs)
      else
        let result := { result with processedWidth := targetWidth,
                                    processedHeight := targetHeight }
        let written := writeJpeg (scaled.2.getD []) targetWidth targetHeight config.quality
          outputPath fs
        if !written.1 then
          (some { result with errorMessage := "Failed to write image file" }, p, fs)
        else
          (some { result with filePath := outputPath, success := true,
                              processingTimeMs := endTime - startTime }, p, written.2)

end ImageProcessor

/-! ## Predicates on runs of the event detector -/

namespace EventDetector

open EventType

/-- Whether a call is a wake of the watchdog loop. -/
def Call.isWake : Call → Bool
  | .watchdogWake _ _ _ => true
  | _ => false

/-- Whether a call is a `recordEvent` whose caller passes the type ANR. -/
def Call.recordsAnr : Call → Bool
  | .recordEvent _ _ t _ _ => decide (t = ANR)
  | _ => false

/-- Every wake of the run reads a clock value at most `anrThresholdMs_` after
the value of `lastPingTimeMs_` at that moment. -/
def timely (d : EventDetector) : List Call → Bool
  | [] => true
  | c :: cs =>
    (match c with
      | .watchdogWake _ currentTime _ =>
        decide (currentTime - d.lastPingTimeMs ≤ d.anrThresholdMs)
      | _ => true) && timely (c.apply d).1 cs

/-- The call with each convenience recorder replaced by the `recordEvent` call
it stands for: `recordHeavyAction(name, metadata)` by
`recordEvent(HEAVY_ACTION, name, metadata)` and `recordCrash(trace)` by
`recordEvent(CRASH, "AppCrash", trace)`. -/
def Call.viaRecordEvent : Call → Call
  | .recordHeavyAction sm now n m => .recordEvent sm now HEAVY_ACTION n m
  | .recordCrash sm now st => .recordEvent sm now CRASH "AppCrash" st
  | c => c

end EventDetector

/-! ## The snapshot and the recording logs of the metrics aggregator -/

/-- The struct `MetricsAggregator::PerformanceSnapshot`. -/
structure MetricsAggregator.PerformanceSnapshot where
  memory : MetricsAggregator.MemoryMetrics
  cpu : MetricsAggregator.CpuMetrics
  sessionDurationMs : Int
  sessionId : String
deriving DecidableEq

namespace MetricsAggregator

/-- The method `MetricsAggregator::getSnapshot` (const).  `sm` is the session
manager singleton and `now` the clock value its `getSessionDurationMs` reads. -/
def getSnapshot (sm : SessionManager) (now : Int) (a : MetricsAggregator) :
    PerformanceSnapshot × MetricsAggregator :=
  ({ memory := a.latestMemory, cpu := a.latestCpu,
     sessionId := (SessionManager.getSessionId sm).1,
     sessionDurationMs := (SessionManager.getSessionDurationMs now sm).1 }, a)

/-- The memory snapshots a run has recorded since its last `reset`, oldest
first, after one more call. -/
def Call.logMemory : Call → List MemoryMetrics → List MemoryMetrics
  | .recordMemoryMetrics now totalMb usedMb availableMb, log =>
    log ++ [{ totalMemoryMb := totalMb, usedMemoryMb := usedMb,
              availableMemoryMb := availableMb,
              usagePercentage := memoryUsagePercentage totalMb usedMb, timestampMs := now }]
  | .reset, _ => []
  | _, log => log

/-- The CPU snapshots a run has recorded since its last `reset`, oldest first,
after one more call. -/
def Call.logCpu : Call → List CpuMetrics → List CpuMetrics
  | .recordCpuMetrics now usagePercentage coreCount, log =>
    log ++ [{ cpuUsagePercentage := usagePercentage, coreCount := coreCount,
              timestampMs := now }]
  | .reset, _ => []
  | _, log => log

/-- The memory snapshots recorded by a run since its last `reset`, oldest first. -/
def memoryLog (calls : List Call) : List MemoryMetrics :=
  calls.foldl (fun log c => c.logMemory log) []

/-- The CPU snapshots recorded by a run since its last `reset`, oldest first. -/
def cpuLog (calls : List Call) : List CpuMetrics :=
  calls.foldl (fun log c => c.logCpu log) []

end MetricsAggregator

/-! ## The bitmap entry point of the image processor -/

namespace ImageProcessor

/-- What the JNI calls of `processAndSaveBitmap` give for a non-null bitmap:
whether `AndroidBitmap_getInfo` succeeds, the members `width`, `height` and
`stride` of the `AndroidBitmapInfo` it fills (each a `uint32_t`), whether
`AndroidBitmap_lockPixels` succeeds, and the address it stores in `pixels`. -/
structure Bitmap where
  infoOk : Bool
  width : Nat
  height : Nat
  stride : Nat
  lockOk : Bool
  pixels : Option (Int → Fin 256)

/-- The conversion `static_cast<int>(v)` of a `uint32_t`. -/
def toInt32 (v : Nat) : Int :=
  if v % 2 ^ 32 < 2 ^ 31 then ((v % 2 ^ 32 : Nat) : Int) else ((v % 2 ^ 32 : Nat) : Int) - 2 ^ 32

/-- The method `ImageProcessor::processAndSaveBitmap`.  `env` tells whether the
JNI environment pointer is non-null and `bitmap` is `none` for a null
`jobject`; `startTime` and `endTime` are the two clock values read,
`nullOnEmpty` tells whether `data()` of an empty `std::vector` is the null
pointer and `readOpens` whether the `std::ifstream` on the written file opens.
The byte count `info.stride * info.height` is a `uint32_t` product and
`targetWidth * targetHeight * 4` an `int` product.  Returns the result (`none`
when the `std::vector` constructor throws because the requested size is
negative), the processor's fields and the file system. -/
def processAndSaveBitmap (startTime endTime : Int) (nullOnEmpty readOpens : Bool)
    (env : Bool) (bitmap : Option Bitmap) (outputPath : String)
    (p : ImageProcessor) (fs : FileSystem) :
    Option ProcessingResult × ImageProcessor × FileSystem :=
  let result := ProcessingResult.zero
  match env, bitmap with
  | true, some info =>
    if !info.infoOk then
      (some { result with errorMessage := "Failed to get bitmap info" }, p, fs)
    else
      let result := { result with originalWidth := toInt32 info.width,
                                  originalHeight := toInt32 info.height,
                                  originalSizeBytes := (info.stride * info.height) % 2 ^ 32 }
      if !info.lockOk then
        (some { result with errorMessage := "Failed to lock bitmap pixels" }, p, fs)
      else
        let config := (getDefaultConfig p).1
        let target := targetDimensions config result.originalWidth result.originalHeight
        let targetWidth := target.1
        let targetHeight := target.2
        let size := wrapInt (targetWidth * targetHeight * 4)
        if size < 0 then
          (none, p, fs)
        else
          let data := vectorData nullOnEmpty size
          let scaled := downscalePixels info.pixels result.originalWidth result.originalHeight
            (toInt32 info.stride) data targetWidth targetHeight
          if !scaled.1 then
            (some { result with errorMessage := "Failed to downscale image" }, p, fs)
          else
            let result := { result with processedWidth := targetWidth,
                                        processedHeight := targetHeight }
            let written := writeJpeg (scaled.2.getD []) targetWidth targetHeight config.quality
              outputPath fs
            if !written.1 then
              (some { result with errorMessage := "Failed to write image file" }, p, fs)
            else
              let result := { result with filePath := outputPath, success := true,
                                          processingTimeMs := endTime - startTime }
              match readOpens, written.2.files outputPath with
              | true, some content =>
                (some { result with processedSizeBytes := content.length }, p, written.2)
              | _, _ => (some result, p, written.2)
  | _, _ =>
    (some { result with errorMessage := "Invalid JNI environment or bitmap" }, p, fs)

end ImageProcessor

/-! ## Lock scopes

Every locking method takes its mutex with a `std::lock_guard` declared on the
first line of the body, so the mutex is held from there to the return.  The
definitions below list, in program order, the lock operations of a method body
together with the calls it makes into another class or into the stored
callback. -/

/-- The mutexes `SessionManager::mutex_`, `EventDetector::mutex_`,
`EventDetector::watchdogMutex_` and `MetricsAggregator::mutex_`. -/
inductive Mutex where
  | session
  | journal
  | watchdog
  | aggregator
deriving DecidableEq, Repr

/-- A step of a method body: the construction of a `std::lock_guard` on a
mutex, its destruction at the end of the scope, or the call
`eventCallback_(event)`. -/
inductive LockOp where
  | lock (m : Mutex)
  | unlock (m : Mutex)
  | callSink (sink : Nat) (event : EventDetector.Event)
deriving DecidableEq, Repr

/-- The mutexes held after a sequence of steps, starting from `held`. -/
def heldAfter (held : List Mutex) : List LockOp → List Mutex
  | [] => held
  | .lock m :: ops => heldAfter (m :: held) ops
  | .unlock m :: ops => heldAfter (held.erase m) ops
  | .callSink _ _ :: ops => heldAfter held ops

/-- Whether some step locks a mutex that is held at that moment (`std::mutex`
is not recursive: the thread then waits for itself). -/
def relocks (held : List Mutex) : List LockOp → Bool
  | [] => false
  | .lock m :: ops => held.contains m || relocks (m :: held) ops
  | .unlock m :: ops => relocks (held.erase m) ops
  | .callSink _ _ :: ops => relocks held ops

/-- The steps of `SessionManager::getSessionId`. -/
def SessionManager.getSessionIdOps : List LockOp :=
  [.lock .session, .unlock .session]

/-- The steps of `SessionManager::getSessionDurationMs`. -/
def SessionManager.getSessionDurationMsOps : List LockOp :=
  [.lock .session, .unlock .session]

/-- The steps of `EventDetector::getEventCount`. -/
def EventDetector.getEventCountOps : List LockOp :=
  [.lock .journal, .unlock .journal]

/-- The steps of `EventDetector::getRecentEvents`. -/
def EventDetector.getRecentEventsOps : List LockOp :=
  [.lock .journal, .unlock .journal]

/-- The steps of `EventDetector::recordEvent`: the guard on `mutex_`, the call
of `SessionManager::getSessionId` in the initialiser of `event`, the call of
the stored callback when there is one (`sinkBody` lists the steps the callable
makes before it returns), and the end of the scope. -/
def EventDetector.recordEventOps (sinkBody : List LockOp) (sm : SessionManager) (now : Int)
    (type : EventDetector.EventType) (name metadata : String) (d : EventDetector) :
    List LockOp :=
  [.lock .journal] ++ SessionManager.getSessionIdOps
    ++ (match d.eventCallback with
        | some sink =>
          .callSink sink (EventDetector.mkEvent sm now type name metadata) :: sinkBody
        | none => [])
    ++ [.unlock .journal]

/-- The steps of `MetricsAggregator::getSnapshot`: the guard on `mutex_`, the
calls of `SessionManager::getSessionId` and
`SessionManager::getSessionDurationMs`, and the end of the scope. -/
def MetricsAggregator.getSnapshotOps : List LockOp :=
  [.lock .aggregator] ++ SessionManager.getSessionIdOps
    ++ SessionManager.getSessionDurationMsOps ++ [.unlock .aggregator]

end metrics

/-! ## Key provider (core/security/src/main/cpp/native-keys.cpp)

A `char` is its value as a byte, a `std::string` the string of the characters
with these codes (all codes met here are below 128). -/

namespace NativeKeys

/-- The constant `XOR_KEY_API`. -/
def XOR_KEY_API : Nat := 0x5A

/-- The constant `XOR_KEY_SECRET`. -/
def XOR_KEY_SECRET : Nat := 0x7F

/-- The vector `API_KEY_ENCODED`. -/
def API_KEY_ENCODED : List Nat :=
  [0x38, 0x31, 0x1a, 0x3c, 0x3f, 0x31, 0x3b, 0x1a,
   0x3f, 0x28, 0x3b, 0x1a, 0x31, 0x3b, 0x29, 0x1a,
   0x6b, 0x6c, 0x6d, 0x6e, 0x6f, 0x1a, 0x3e, 0x3b,
   0x37, 0x35]

/-- The vector `SECRET_KEY_ENCODED`. -/
def SECRET_KEY_ENCODED : List Nat :=
  [0x0c, 0x14, 0x54, 0x19, 0x1e, 0x14, 0x1a, 0x54,
   0x0c, 0x1a, 0x1c, 0x0d, 0x1a, 0x0b, 0x54, 0x14,
   0x1a, 0x08, 0x54, 0x49, 0x48, 0x4f, 0x4e, 0x4d,
   0x54, 0x1b, 0x1a, 0x12, 0x10]

/-- The function `decodeKey`: the loop appends `static_cast<char>(c ^ xorKey)`
for every `c` of `encoded`. -/
def decodeKey (encoded : List Nat) (xorKey : Nat) : String :=
  encoded.foldl (fun decoded c => decoded.push (Char.ofNat ((c ^^^ xorKey) % 256))) ""

/-- The encoding the comment above `API_KEY_ENCODED` documents:
`encoded_char = c ^ XOR_KEY_API` for each character `c` of the key. -/
def encodeKey (key : String) (xorKey : Nat) : List Nat :=
  key.data.map fun c => (c.toNat ^^^ xorKey) % 256

end NativeKeys

/-! # Theorems -/

/-- Appending to a list capped at `cap` entries (dropping the head on overflow)
and then keeping the last `cap` of a longer run is keeping the last `cap` of
everything. -/
theorem push_evict_drop {α : Type} (xs rest : List α) (e : α) (cap : Nat)
    (h : xs.length ≤ cap) :
    ((if (xs ++ [e]).length > cap then (xs ++ [e]).tail else xs ++ [e]) ++ rest).drop
        ((if (xs ++ [e]).length > cap then (xs ++ [e]).tail else xs ++ [e]).length
          + rest.length - cap)
      = (xs ++ e :: rest).drop (xs.length + (rest.length + 1) - cap) := by
  by_cases hc : (xs ++ [e]).length > cap
  · have hlen : xs.length = cap := by
      simp only [List.length_append, List.length_cons, List.length_nil] at hc
      omega
    rw [if_pos hc, ← List.drop_one, ← List.drop_append_of_le_length (by simp), List.drop_drop]
    simp only [List.length_drop, List.length_append, List.length_cons, List.length_nil,
      List.append_assoc, List.singleton_append]
    congr 1
    omega
  · rw [if_neg hc]
    simp only [List.length_append, List.length_cons, List.length_nil,
      List.append_assoc, List.singleton_append]
    congr 1
    omega

namespace metrics

namespace SessionManager

open State

/-! ## Session lifecycle -/

theorem hexInt_of_lt (v : Nat) (h : v < 16) : hexInt v = String.mk [Nat.digitChar v] := by
  have h0 : v / 16 = 0 := Nat.div_eq_of_lt h
  have h1 : v % 16 = v := Nat.mod_eq_of_lt h
  simp [hexInt, Nat.toDigits, Nat.toDigitsCore, h0, h1]

theorem generateUUID_length_pos (rnd : Nat → Nat) : 0 < (generateUUID rnd).length := by
  have h : 8 + rnd 15 % 4 < 16 := by omega
  simp only [generateUUID, String.length_append, hexInt_of_lt _ h, String.length]
  simp

theorem generateUUID_ne_empty (rnd : Nat → Nat) : generateUUID rnd ≠ "" := by
  intro h
  have := generateUUID_length_pos rnd
  rw [h] at this
  simp at this

/-- The session id is non-empty exactly in the states ACTIVE and BACKGROUND:
this is preserved by every call. -/
theorem idLive_apply (c : Call) (s : SessionManager)
    (h : s.sessionId ≠ "" ↔ (s.state = ACTIVE ∨ s.state = BACKGROUND)) :
    (c.apply s).sessionId ≠ "" ↔ ((c.apply s).state = ACTIVE ∨ (c.apply s).state = BACKGROUND) := by
  cases c with
  | startSession rnd now =>
    by_cases ha : s.state = ACTIVE
    · simpa [Call.apply, startSession, ha] using h
    · simp [Call.apply, startSession, ha, generateUUID_ne_empty]
  | endSession now =>
    by_cases hs : s.state = IDLE ∨ s.state = TERMINATED
    · simpa [Call.apply, endSession, hs] using h
    · simp [Call.apply, endSession, hs]
  | pauseSession now =>
    by_cases ha : s.state = ACTIVE
    · have : s.sessionId ≠ "" := h.mpr (Or.inl ha)
      simp [Call.apply, pauseSession, ha, this]
    · simpa [Call.apply, pauseSession, ha] using h
  | resumeSession now =>
    by_cases hb : s.state = BACKGROUND
    · have hid : s.sessionId ≠ "" := h.mpr (Or.inr hb)
      by_cases hg : now - s.pauseTimeMs > s.gracePeriodMs
      · simp [Call.apply, resumeSession, hb, hg]
      · simp [Call.apply, resumeSession, hb, hg, hid]
    · simpa [Call.apply, resumeSession, hb] using h
  | setUserInfo u e => simpa [Call.apply, setUserInfo] using h
  | setGracePeriodMs g => simpa [Call.apply, setGracePeriodMs] using h

theorem idLive_run (calls : List Call) (s : SessionManager)
    (h : s.sessionId ≠ "" ↔ (s.state = ACTIVE ∨ s.state = BACKGROUND)) :
    (run s calls).sessionId ≠ "" ↔ ((run s calls).state = ACTIVE ∨ (run s calls).state = BACKGROUND) := by
  induction calls generalizing s with
  | nil => simpa [run] using h
  | cons c cs ih =>
    have := ih (c.apply s) (idLive_apply c s h)
    simpa [run] using this

/-- C1: `resumeSession` at time `now` in state BACKGROUND: when
`now - pauseTime <= gracePeriodMs` (boundary included) the state becomes ACTIVE,
the session id is unchanged and `pauseTime` is cleared to 0; when
`now - pauseTime > gracePeriodMs` the state becomes TERMINATED and the session
id is empty.  With a grace period of 5000 ms and an active session `a` paused
at t = 0: a resume at t = 4000 gives ACTIVE with the same id, a resume at
t = 6000 gives TERMINATED with an empty id. -/
theorem resumeSession_grace (s a : SessionManager) (now : Int) :
    (s.state = BACKGROUND →
      (now - s.pauseTimeMs ≤ s.gracePeriodMs →
        (resumeSession now s).state = ACTIVE ∧
        (resumeSession now s).sessionId = s.sessionId ∧
        (resumeSession now s).pauseTimeMs = 0) ∧
      (now - s.pauseTimeMs > s.gracePeriodMs →
        (resumeSession now s).state = TERMINATED ∧
        (resumeSession now s).sessionId = "")) ∧
    (a.state = ACTIVE → a.gracePeriodMs = 5000 →
      ((resumeSession 4000 (pauseSession 0 a)).state = ACTIVE ∧
        (resumeSession 4000 (pauseSession 0 a)).sessionId = a.sessionId) ∧
      ((resumeSession 6000 (pauseSession 0 a)).state = TERMINATED ∧
        (resumeSession 6000 (pauseSession 0 a)).sessionId = "")) := by
  constructor
  · intro h
    constructor
    · intro hle
      have hg : ¬ (now - s.pauseTimeMs > s.gracePeriodMs) := not_lt.mpr hle
      simp [resumeSession, h, hg]
    · intro hg
      simp [resumeSession, h, hg]
  · intro ha hgrace
    simp [resumeSession, pauseSession, ha, hgrace]

/-- C1 at concrete inputs: the session `startedAtZero` (grace period 5000 ms)
paused at t = 0 is `pausedAtZero`; a resume at t = 4000 keeps its id and makes
it ACTIVE with `pauseTime` 0, a resume at t = 6000 terminates it and clears
the id. -/
theorem resumeSession_grace_witness :
    (pausedAtZero.state = BACKGROUND ∧ pausedAtZero.gracePeriodMs = 5000 ∧
      pausedAtZero.pauseTimeMs = 0 ∧ pausedAtZero.sessionId ≠ "") ∧
    ((resumeSession 4000 pausedAtZero).state = ACTIVE ∧
      (resumeSession 4000 pausedAtZero).sessionId = pausedAtZero.sessionId ∧
      (resumeSession 4000 pausedAtZero).pauseTimeMs = 0) ∧
    ((resumeSession 6000 pausedAtZero).state = TERMINATED ∧
      (resumeSession 6000 pausedAtZero).sessionId = "") ∧
    (startedAtZero.state = ACTIVE ∧ startedAtZero.gracePeriodMs = 5000 ∧
      (resumeSession 4000 (pauseSession 0 startedAtZero)).sessionId =
        startedAtZero.sessionId ∧
      (resumeSession 6000 (pauseSession 0 startedAtZero)).state = TERMINATED) := by
  have hs : pausedAtZero.state = BACKGROUND := by decide
  have hg : pausedAtZero.gracePeriodMs = 5000 := by decide
  have hp : pausedAtZero.pauseTimeMs = 0 := by decide
  have hid : pausedAtZero.sessionId ≠ "" := by
    simp [pausedAtZero, pauseSession, startedAtZero, startSession, init, generateUUID_ne_empty]
  have ha : startedAtZero.state = ACTIVE := by decide
  have hga : startedAtZero.gracePeriodMs = 5000 := by decide
  refine ⟨⟨hs, hg, hp, hid⟩, ?_, ?_, ha, hga, ?_, ?_⟩
  · exact ((resumeSession_grace pausedAtZero init 4000).1 hs).1 (by rw [hp, hg]; decide)
  · exact ((resumeSession_grace pausedAtZero init 6000).1 hs).2 (by rw [hp, hg]; decide)
  · exact ((resumeSession_grace init startedAtZero 0).2 ha hga).1.2
  · exact ((resumeSession_grace init startedAtZero 0).2 ha hga).2.1

/-- C2: after every finite sequence of `startSession`, `endSession`,
`pauseSession`, `resumeSession`, `setUserInfo` and `setGracePeriodMs` calls on
the initial (IDLE, empty id) manager, at any clock values and for any random
draws, the session id is non-empty if and only if the state is ACTIVE or
BACKGROUND. -/
theorem sessionId_nonempty_iff_live (calls : List Call) :
    (run init calls).sessionId ≠ "" ↔
      ((run init calls).state = ACTIVE ∨ (run init calls).state = BACKGROUND) :=
  idLive_run calls init (by simp [init])

/-- C3: `startSession` in state ACTIVE returns the existing id and changes no
field; in any other state it installs the freshly generated id, sets
`startTime = now` and `state = ACTIVE` and returns the new id; and from any
state, a second `startSession` returns the id the first one returned, changes
nothing, and the state is ACTIVE. -/
theorem startSession_idempotent (s : SessionManager) (rnd rnd2 : Nat → Nat)
    (now now2 : Int) :
    (s.state = ACTIVE → startSession rnd now s = (s.sessionId, s)) ∧
    (s.state ≠ ACTIVE →
      startSession rnd now s =
        (generateUUID rnd,
          { s with sessionId := generateUUID rnd, startTimeMs := now, state := ACTIVE })) ∧
    ((startSession rnd2 now2 (startSession rnd now s).2).1 = (startSession rnd now s).1 ∧
      (startSession rnd2 now2 (startSession rnd now s).2).2 = (startSession rnd now s).2 ∧
      (startSession rnd now s).2.state = ACTIVE ∧
      (startSession rnd now s).2.sessionId = (startSession rnd now s).1) := by
  refine ⟨?_, ?_, ?_⟩
  · intro h
    simp [startSession, h]
  · intro h
    simp [startSession, h]
  · by_cases h : s.state = ACTIVE
    · simp [startSession, h]
    · simp [startSession, h]

/-- C3 at concrete inputs: a start on the fresh (IDLE) manager installs the
generated id with `startTime = 7`; a start on the resulting ACTIVE manager
returns that id and changes nothing. -/
theorem startSession_idempotent_witness :
    (init.state ≠ ACTIVE ∧
      startSession (fun _ => 0) 7 init =
        (generateUUID (fun _ => 0),
          { init with sessionId := generateUUID (fun _ => 0), startTimeMs := 7,
                      state := ACTIVE })) ∧
    (startedAtZero.state = ACTIVE ∧
      startSession (fun _ => 1) 9 startedAtZero = (startedAtZero.sessionId, startedAtZero)) := by
  have h1 : init.state ≠ ACTIVE := by decide
  have h2 : startedAtZero.state = ACTIVE := by decide
  exact ⟨⟨h1, (startSession_idempotent init (fun _ => 0) (fun _ => 0) 7 7).2.1 h1⟩,
    ⟨h2, (startSession_idempotent startedAtZero (fun _ => 1) (fun _ => 1) 9 9).1 h2⟩⟩

/-- C18: `pauseSession` at time `now`: in state ACTIVE it sets `pauseTime = now`
and `state = BACKGROUND` and leaves the session id, `startTime`, user id, user
email and grace period unchanged; in every other state it changes nothing. -/
theorem pauseSession_spec (s : SessionManager) (now : Int) :
    (s.state = ACTIVE →
      pauseSession now s = { s with pauseTimeMs := now, state := BACKGROUND } ∧
      (pauseSession now s).state = BACKGROUND ∧
      (pauseSession now s).pauseTimeMs = now ∧
      (pauseSession now s).sessionId = s.sessionId ∧
      (pauseSession now s).startTimeMs = s.startTimeMs ∧
      (pauseSession now s).userId = s.userId ∧
      (pauseSession now s).userEmail = s.userEmail ∧
      (pauseSession now s).gracePeriodMs = s.gracePeriodMs) ∧
    (s.state ≠ ACTIVE → pauseSession now s = s) := by
  constructor
  · intro h
    simp [pauseSession, h]
  · intro h
    simp [pauseSession, h]

/-- C18 at concrete inputs: pausing the active session `startedAtZero` at
time 5 records 5 and moves to BACKGROUND; pausing the fresh (IDLE) manager and
the already paused session changes nothing. -/
theorem pauseSession_spec_witness :
    (startedAtZero.state = ACTIVE ∧
      (pauseSession 5 startedAtZero).state = BACKGROUND ∧
      (pauseSession 5 startedAtZero).pauseTimeMs = 5 ∧
      (pauseSession 5 startedAtZero).sessionId = startedAtZero.sessionId) ∧
    (init.state ≠ ACTIVE ∧ pauseSession 5 init = init) ∧
    (pausedAtZero.state ≠ ACTIVE ∧ pauseSession 5 pausedAtZero = pausedAtZero) := by
  have h1 : startedAtZero.state = ACTIVE := by decide
  have h2 : init.state ≠ ACTIVE := by decide
  have h3 : pausedAtZero.state ≠ ACTIVE := by decide
  have hp := (pauseSession_spec startedAtZero 5).1 h1
  exact ⟨⟨h1, hp.2.1, hp.2.2.1, hp.2.2.2.1⟩, ⟨h2, (pauseSession_spec init 5).2 h2⟩,
    ⟨h3, (pauseSession_spec pausedAtZero 5).2 h3⟩⟩

/-- C19: `endSession` in state ACTIVE or BACKGROUND sets `state = TERMINATED`
and clears the session id, `startTime` and `pauseTime` (id empty, both times
0), leaving user id, user email and grace period unchanged; in state IDLE or
TERMINATED it changes nothing (IDLE stays IDLE). -/
theorem endSession_spec (s : SessionManager) (now : Int) :
    (s.state = ACTIVE ∨ s.state = BACKGROUND →
      endSession now s =
        { s with state := TERMINATED, sessionId := "", startTimeMs := 0, pauseTimeMs := 0 } ∧
      (endSession now s).state = TERMINATED ∧
      (endSession now s).sessionId = "" ∧
      (endSession now s).startTimeMs = 0 ∧
      (endSession now s).pauseTimeMs = 0 ∧
      (endSession now s).userId = s.userId ∧
      (endSession now s).userEmail = s.userEmail ∧
      (endSession now s).gracePeriodMs = s.gracePeriodMs) ∧
    (s.state = IDLE ∨ s.state = TERMINATED → endSession now s = s) ∧
    (s.state = IDLE → (endSession now s).state = IDLE) := by
  refine ⟨?_, ?_, ?_⟩
  · intro h
    have hn : ¬ (s.state = IDLE ∨ s.state = TERMINATED) := by
      rcases h with h | h <;> simp [h]
    simp [endSession, hn]
  · intro h
    simp [endSession, h]
  · intro h
    simp [endSession, h]

/-- C19 at concrete inputs: ending the active session `startedAtZero` and the
paused session `pausedAtZero` terminates them and clears id and times; ending
the fresh (IDLE) manager changes nothing. -/
theorem endSession_spec_witness :
    ((startedAtZero.state = ACTIVE ∨ startedAtZero.state = BACKGROUND) ∧
      (endSession 9 startedAtZero).state = TERMINATED ∧
      (endSession 9 startedAtZero).sessionId = "" ∧
      (endSession 9 startedAtZero).startTimeMs = 0) ∧
    ((pausedAtZero.state = ACTIVE ∨ pausedAtZero.state = BACKGROUND) ∧
      (endSession 9 pausedAtZero).state = TERMINATED ∧
      (endSession 9 pausedAtZero).pauseTimeMs = 0) ∧
    ((init.state = IDLE ∨ init.state = TERMINATED) ∧ endSession 9 init = init) ∧
    (init.state = IDLE ∧ (endSession 9 init).state = IDLE) := by
  have h1 : startedAtZero.state = ACTIVE ∨ startedAtZero.state = BACKGROUND := by decide
  have h2 : pausedAtZero.state = ACTIVE ∨ pausedAtZero.state = BACKGROUND := by decide
  have h3 : init.state = IDLE ∨ init.state = TERMINATED := by decide
  have h4 : init.state = IDLE := by decide
  have e1 := (endSession_spec startedAtZero 9).1 h1
  have e2 := (endSession_spec pausedAtZero 9).1 h2
  exact ⟨⟨h1, e1.2.1, e1.2.2.1, e1.2.2.2.1⟩, ⟨h2, e2.2.1, e2.2.2.2.2.1⟩,
    ⟨h3, (endSession_spec init 9).2.1 h3⟩, ⟨h4, (endSession_spec init 9).2.2 h4⟩⟩

/-- C20: every state-violating lifecycle call is a no-op on the whole session
state: `startSession` in ACTIVE (which returns the existing id),
`pauseSession` outside ACTIVE, `resumeSession` outside BACKGROUND and
`endSession` in IDLE or TERMINATED each return the fields exactly as they
were; none of them has an error result. -/
theorem violating_calls_noop (s : SessionManager) (rnd : Nat → Nat) (now : Int) :
    (s.state = ACTIVE → startSession rnd now s = (s.sessionId, s)) ∧
    (s.state ≠ ACTIVE → pauseSession now s = s) ∧
    (s.state ≠ BACKGROUND → resumeSession now s = s) ∧
    (s.state = IDLE ∨ s.state = TERMINATED → endSession now s = s) := by
  refine ⟨?_, ?_, ?_, ?_⟩
  · intro h
    simp [startSession, h]
  · intro h
    simp [pauseSession, h]
  · intro h
    simp [resumeSession, h]
  · intro h
    simp [endSession, h]

/-- C20 at concrete inputs: a start on the active session `startedAtZero`, a
pause and a resume and an end on the fresh (IDLE) manager all change nothing. -/
theorem violating_calls_noop_witness :
    (startedAtZero.state = ACTIVE ∧
      startSession (fun _ => 3) 8 startedAtZero = (startedAtZero.sessionId, startedAtZero)) ∧
    (init.state ≠ ACTIVE ∧ pauseSession 8 init = init) ∧
    (init.state ≠ BACKGROUND ∧ resumeSession 8 init = init) ∧
    ((init.state = IDLE ∨ init.state = TERMINATED) ∧ endSession 8 init = init) := by
  have h1 : startedAtZero.state = ACTIVE := by decide
  have h2 : init.state ≠ ACTIVE := by decide
  have h3 : init.state ≠ BACKGROUND := by decide
  have h4 : init.state = IDLE ∨ init.state = TERMINATED := by decide
  exact ⟨⟨h1, (violating_calls_noop startedAtZero (fun _ => 3) 8).1 h1⟩,
    ⟨h2, (violating_calls_noop init (fun _ => 3) 8).2.1 h2⟩,
    ⟨h3, (violating_calls_noop init (fun _ => 3) 8).2.2.1 h3⟩,
    ⟨h4, (violating_calls_noop init (fun _ => 3) 8).2.2.2 h4⟩⟩

end SessionManager

end metrics

namespace metrics

namespace EventDetector

open EventType

/-! ## Event journal -/

theorem recordEvent_events (sm : SessionManager) (now : Int) (type : EventType)
    (name metadata : String) (d : EventDetector) :
    (recordEvent sm now type name metadata d).1.events =
      if d.events.length + 1 > MAX_EVENTS then
        (d.events ++ [mkEvent sm now type name metadata]).tail
      else d.events ++ [mkEvent sm now type name metadata] := by
  unfold recordEvent
  cases d.eventCallback <;> simp

theorem recordEvent_deliveries (sm : SessionManager) (now : Int) (type : EventType)
    (name metadata : String) (d : EventDetector) :
    (recordEvent sm now type name metadata d).2 =
      match d.eventCallback with
      | some sink => [{ sink := sink, event := mkEvent sm now type name metadata }]
      | none => [] := by
  unfold recordEvent
  cases d.eventCallback <;> simp

theorem recordEvent_frame (sm : SessionManager) (now : Int) (type : EventType)
    (name metadata : String) (d : EventDetector) :
    (recordEvent sm now type name metadata d).1 =
      { d with events := (recordEvent sm now type name metadata d).1.events } := by
  unfold recordEvent
  cases d.eventCallback <;> simp

theorem recordEvent_length_le (sm : SessionManager) (now : Int) (type : EventType)
    (name metadata : String) (d : EventDetector) (h : d.events.length ≤ MAX_EVENTS) :
    (recordEvent sm now type name metadata d).1.events.length ≤ MAX_EVENTS := by
  rw [recordEvent_events]
  split
  · simp; omega
  · simp; omega

theorem apply_length_le (c : Call) (d : EventDetector) (h : d.events.length ≤ MAX_EVENTS) :
    (c.apply d).1.events.length ≤ MAX_EVENTS := by
  cases c with
  | recordEvent sm now t n m => exact recordEvent_length_le sm now t n m d h
  | recordHeavyAction sm now n m => exact recordEvent_length_le sm now _ n m d h
  | recordCrash sm now st => exact recordEvent_length_le sm now _ _ st d h
  | watchdogWake sm ct rt =>
    simp only [Call.apply, watchdogWake]
    split
    · exact h
    · split
      · exact recordEvent_length_le sm rt _ _ _ d h
      · exact h
  | reset => simp [Call.apply, reset]
  | startWatchdog now =>
    simp only [Call.apply, startWatchdog]
    split <;> exact h
  | stopWatchdog =>
    simp only [Call.apply, stopWatchdog]
    split <;> exact h
  | pingWatchdog now => exact h
  | setEventCallback cb => exact h
  | setAnrThresholdMs t => exact h

theorem run_length_le (calls : List Call) (d : EventDetector)
    (h : d.events.length ≤ MAX_EVENTS) :
    (run d calls).1.events.length ≤ MAX_EVENTS := by
  induction calls generalizing d with
  | nil => exact h
  | cons c cs ih => exact ih (c.apply d).1 (apply_length_le c d h)

theorem run_append (xs ys : List Call) (d : EventDetector) :
    run d (xs ++ ys) =
      ((run (run d xs).1 ys).1, (run d xs).2 ++ (run (run d xs).1 ys).2) := by
  induction xs generalizing d with
  | nil => simp [run]
  | cons c cs ih => simp [run, ih, List.append_assoc]

/-- The journal after a series of `recordEvent` calls: the old entries followed
by the new events, cut down to the last `MAX_EVENTS`. -/
theorem run_records_events (rs : List RecordArgs) (d : EventDetector)
    (h : d.events.length ≤ MAX_EVENTS) :
    (run d (rs.map RecordArgs.call)).1.events =
      (d.events ++ rs.map RecordArgs.event).drop
        (d.events.length + rs.length - MAX_EVENTS) := by
  induction rs generalizing d with
  | nil =>
    have : d.events.length - MAX_EVENTS = 0 := by omega
    simp [run, this]
  | cons r rs ih =>
    have hle := recordEvent_length_le r.sm r.now r.type r.name r.metadata d h
    have hstep := ih (recordEvent r.sm r.now r.type r.name r.metadata d).1 hle
    simp only [List.map_cons, run, RecordArgs.call, Call.apply] at hstep ⊢
    rw [hstep, recordEvent_events]
    have hpush := push_evict_drop d.events (rs.map RecordArgs.event)
      (mkEvent r.sm r.now r.type r.name r.metadata) MAX_EVENTS h
    simp only [List.length_append, List.length_cons, List.length_nil, List.length_map,
      Nat.zero_add] at hpush
    simpa [RecordArgs.event] using hpush

/-- The callback invocations of a series of `recordEvent` calls. -/
theorem run_records_deliveries (rs : List RecordArgs) (d : EventDetector) :
    (run d (rs.map RecordArgs.call)).2 =
      match d.eventCallback with
      | some sink => rs.map (fun r => { sink := sink, event := r.event })
      | none => [] := by
  induction rs generalizing d with
  | nil => cases d.eventCallback <;> rfl
  | cons r rs ih =>
    have hcb : (recordEvent r.sm r.now r.type r.name r.metadata d).1.eventCallback
        = d.eventCallback := by
      rw [recordEvent_frame]
    have hstep := ih (recordEvent r.sm r.now r.type r.name r.metadata d).1
    simp only [List.map_cons, run, RecordArgs.call, Call.apply] at hstep ⊢
    rw [hstep, hcb, recordEvent_deliveries]
    cases d.eventCallback <;> simp [RecordArgs.event]

/-- C4: the journal never holds more than 500 entries: after every finite
sequence of `recordEvent`, `recordHeavyAction`, `recordCrash`, watchdog wakes,
`reset` and the other state-changing calls applied to the empty journal,
`getEventCount() <= 500`. -/
theorem journal_bounded (calls : List Call) :
    (getEventCount (run init calls).1).1 ≤ 500 :=
  run_length_le calls init (by simp [init])

theorem recordEvent_getLast (sm : SessionManager) (now : Int) (type : EventType)
    (name metadata : String) (d : EventDetector) :
    (recordEvent sm now type name metadata d).1.events.getLast? =
      some (mkEvent sm now type name metadata) := by
  have key : ∀ (xs : List Event) (e : Event),
      (if xs.length + 1 > MAX_EVENTS then (xs ++ [e]).tail else xs ++ [e]).getLast?
        = some e := by
    intro xs e
    split
    · cases xs with
      | nil => simp [MAX_EVENTS] at *
      | cons x xs => simp
    · simp
  rw [recordEvent_events]
  exact key _ _

/-- C5: eviction is FIFO and never alters surviving events: `recordEvent` on a
journal with 500 entries yields that journal without its first entry followed
by the new event, on a journal with fewer than 500 entries the journal followed
by the new event; and after any 501 sequential `recordEvent` calls on the empty
journal `getEventCount() = 500` and the journal is the 2nd to 501st recorded
events in recording order. -/
theorem recordEvent_fifo (sm : SessionManager) (now : Int) (type : EventType)
    (name metadata : String) (d : EventDetector) :
    (d.events.length = 500 →
      (recordEvent sm now type name metadata d).1.events =
        d.events.tail ++ [mkEvent sm now type name metadata]) ∧
    (d.events.length < 500 →
      (recordEvent sm now type name metadata d).1.events =
        d.events ++ [mkEvent sm now type name metadata]) ∧
    (∀ rs : List RecordArgs, rs.length = 501 →
      (getEventCount (run init (rs.map RecordArgs.call)).1).1 = 500 ∧
      (run init (rs.map RecordArgs.call)).1.events = (rs.map RecordArgs.event).tail) := by
  refine ⟨?_, ?_, ?_⟩
  · intro h
    have hne : d.events ≠ [] := by
      intro h0
      rw [h0] at h
      simp at h
    rw [recordEvent_events, if_pos (by simp [MAX_EVENTS, h]),
      List.tail_append_of_ne_nil hne]
  · intro h
    rw [recordEvent_events, if_neg (by simp only [MAX_EVENTS]; omega)]
  · intro rs hrs
    have hev := run_records_events rs init (by simp [init])
    have hdrop : (run init (rs.map RecordArgs.call)).1.events
        = (rs.map RecordArgs.event).tail := by
      rw [hev, hrs]
      simp [init, MAX_EVENTS]
    refine ⟨?_, hdrop⟩
    simp [getEventCount, hdrop, hrs]

/-- C5 at concrete inputs: a recording on the full journal `fullJournal`, a
recording on the empty journal, and the 501 recordings `sampleRecord 0`, ...,
`sampleRecord 500` on the empty journal. -/
theorem recordEvent_fifo_witness :
    (fullJournal.events.length = 500 ∧
      (recordEvent SessionManager.init 9 CUSTOM "x" "" fullJournal).1.events =
        fullJournal.events.tail ++ [mkEvent SessionManager.init 9 CUSTOM "x" ""]) ∧
    (init.events.length < 500 ∧
      (recordEvent SessionManager.init 9 CUSTOM "x" "" init).1.events =
        init.events ++ [mkEvent SessionManager.init 9 CUSTOM "x" ""]) ∧
    (((List.range 501).map sampleRecord).length = 501 ∧
      (getEventCount
        (run init (((List.range 501).map sampleRecord).map RecordArgs.call)).1).1 = 500 ∧
      (run init (((List.range 501).map sampleRecord).map RecordArgs.call)).1.events =
        (((List.range 501).map sampleRecord).map RecordArgs.event).tail) := by
  have h1 : fullJournal.events.length = 500 := by
    show (List.replicate MAX_EVENTS (sampleRecord 0).event).length = 500
    rw [List.length_replicate]
    rfl
  have h2 : init.events.length < 500 := by simp [init]
  have h3 : ((List.range 501).map sampleRecord).length = 501 := by simp
  exact ⟨⟨h1, (recordEvent_fifo SessionManager.init 9 CUSTOM "x" "" fullJournal).1 h1⟩,
    ⟨h2, (recordEvent_fifo SessionManager.init 9 CUSTOM "x" "" init).2.1 h2⟩,
    ⟨h3, (recordEvent_fifo SessionManager.init 9 CUSTOM "x" "" init).2.2 _ h3⟩⟩

/-- C6: for every journal and every `n`, `getRecentEvents(n)` returns the last
`min(n, size)` entries of the journal in their original order and leaves the
detector unchanged; `n = 0` gives the empty list and `n >= size` the whole
journal; after recording A, B, C on the empty journal, `getRecentEvents(2)`
is `[B, C]`. -/
theorem getRecentEvents_spec (d : EventDetector) (n : Nat) (a b c : RecordArgs) :
    (getRecentEvents n d).1 = d.events.drop (d.events.length - min n d.events.length) ∧
    (∃ front, d.events = front ++ (getRecentEvents n d).1) ∧
    (getRecentEvents n d).1.length = min n d.events.length ∧
    (getRecentEvents n d).2 = d ∧
    (getRecentEvents 0 d).1 = [] ∧
    (getRecentEvents (d.events.length + n) d).1 = d.events ∧
    (getRecentEvents 2 (run init [a.call, b.call, c.call]).1).1 = [b.event, c.event] := by
  have hdrop : (getRecentEvents n d).1
      = d.events.drop (d.events.length - min n d.events.length) := by
    unfold getRecentEvents
    split
    · rename_i h
      have : d.events.length - min n d.events.length = 0 := by
        rw [Nat.min_eq_right h]; omega
      simp [this]
    · rename_i h
      have : min n d.events.length = n := Nat.min_eq_left (by omega)
      simp [this]
  refine ⟨hdrop, ?_, ?_, ?_, ?_, ?_, ?_⟩
  · refine ⟨d.events.take (d.events.length - min n d.events.length), ?_⟩
    rw [hdrop, List.take_append_drop]
  · rw [hdrop, List.length_drop]
    omega
  · unfold getRecentEvents
    split <;> rfl
  · unfold getRecentEvents
    split
    · rename_i h
      have : d.events.length = 0 := by omega
      simpa using this
    · simp
  · simp [getRecentEvents]
  · simp [getRecentEvents, run, Call.apply, RecordArgs.call, RecordArgs.event, recordEvent,
      init, MAX_EVENTS]

/-- C7: each `recordEvent` call invokes the registered callback exactly once,
with the very event it appended to the journal; with no callback registered it
invokes nothing and the event is stored all the same; so over any series of
`recordEvent` calls with a fixed callback the invocations are the events
stored, in order. -/
theorem recordEvent_delivers_once (sm : SessionManager) (now : Int) (type : EventType)
    (name metadata : String) (d : EventDetector) :
    (∀ sink, d.eventCallback = some sink →
      (recordEvent sm now type name metadata d).2 =
        [{ sink := sink, event := mkEvent sm now type name metadata }]) ∧
    (d.eventCallback = none → (recordEvent sm now type name metadata d).2 = []) ∧
    (recordEvent sm now type name metadata d).1.events.getLast? =
      some (mkEvent sm now type name metadata) ∧
    (∀ (rs : List RecordArgs) (sink : Nat), d.eventCallback = some sink →
      (run d (rs.map RecordArgs.call)).2 =
        rs.map (fun r => { sink := sink, event := r.event }) ∧
      ((run d (rs.map RecordArgs.call)).2.map Delivery.event) = rs.map RecordArgs.event) := by
  refine ⟨?_, ?_, recordEvent_getLast sm now type name metadata d, ?_⟩
  · intro sink h
    rw [recordEvent_deliveries, h]
  · intro h
    rw [recordEvent_deliveries, h]
  · intro rs sink h
    have hd := run_records_deliveries rs d
    rw [h] at hd
    refine ⟨hd, ?_⟩
    rw [hd, List.map_map]
    rfl

/-- C7 at concrete inputs: with callback 7 registered the recording is
delivered once to callback 7; on the fresh detector (no callback) nothing is
delivered; three recordings with callback 7 registered give three invocations
in order. -/
theorem recordEvent_delivers_once_witness :
    ((setEventCallback (some 7) init).eventCallback = some 7 ∧
      (recordEvent SessionManager.init 9 CUSTOM "x" "" (setEventCallback (some 7) init)).2 =
        [{ sink := 7, event := mkEvent SessionManager.init 9 CUSTOM "x" "" }]) ∧
    (init.eventCallback = none ∧
      (recordEvent SessionManager.init 9 CUSTOM "x" "" init).2 = []) ∧
    ((run (setEventCallback (some 7) init)
        ([sampleRecord 0, sampleRecord 1, sampleRecord 2].map RecordArgs.call)).2.map
          Delivery.event =
      [sampleRecord 0, sampleRecord 1, sampleRecord 2].map RecordArgs.event) := by
  have h1 : (setEventCallback (some 7) init).eventCallback = some 7 := rfl
  have h2 : init.eventCallback = none := rfl
  exact ⟨⟨h1, (recordEvent_delivers_once SessionManager.init 9 CUSTOM "x" ""
      (setEventCallback (some 7) init)).1 7 h1⟩,
    ⟨h2, (recordEvent_delivers_once SessionManager.init 9 CUSTOM "x" "" init).2.1 h2⟩,
    ((recordEvent_delivers_once SessionManager.init 9 CUSTOM "x" ""
      (setEventCallback (some 7) init)).2.2.2 _ 7 h1).2⟩

/-- C8: `recordEvent(type, name, metadata)` at time `now` stores, as the last
journal entry, an event with exactly the given type, name and metadata,
`timestampMs = now`, `sessionId` the id the session manager holds at the call,
and `screenshotTaken = false`; when the session manager (in any state its calls
can reach) has no live session, that id is the empty string. -/
theorem recordEvent_stamps (sm : SessionManager) (now : Int) (type : EventType)
    (name metadata : String) (d : EventDetector) (calls : List SessionManager.Call) :
    (recordEvent sm now type name metadata d).1.events.getLast? =
      some { type := type, name := name, metadata := metadata, timestampMs := now,
             sessionId := sm.sessionId, screenshotTaken := false } ∧
    ((SessionManager.run SessionManager.init calls).state ≠ SessionManager.State.ACTIVE →
      (SessionManager.run SessionManager.init calls).state ≠ SessionManager.State.BACKGROUND →
      (recordEvent (SessionManager.run SessionManager.init calls) now type name metadata
          d).1.events.getLast? =
        some { type := type, name := name, metadata := metadata, timestampMs := now,
               sessionId := "", screenshotTaken := false }) := by
  constructor
  · rw [recordEvent_getLast]
    rfl
  · intro ha hb
    have hinv := SessionManager.idLive_run calls SessionManager.init
      (by simp [SessionManager.init])
    have hid : (SessionManager.run SessionManager.init calls).sessionId = "" := by
      by_contra hne
      rcases hinv.mp hne with h | h
      · exact ha h
      · exact hb h
    rw [recordEvent_getLast]
    simp [mkEvent, SessionManager.getSessionId, hid]

/-- C8 at concrete inputs: a recording made when a session was started and then
ended carries the empty session id. -/
theorem recordEvent_stamps_witness :
    (SessionManager.run SessionManager.init
        [SessionManager.Call.startSession (fun _ => 0) 1,
         SessionManager.Call.endSession 2]).state ≠ SessionManager.State.ACTIVE ∧
    (SessionManager.run SessionManager.init
        [SessionManager.Call.startSession (fun _ => 0) 1,
         SessionManager.Call.endSession 2]).state ≠ SessionManager.State.BACKGROUND ∧
    (recordEvent (SessionManager.run SessionManager.init
        [SessionManager.Call.startSession (fun _ => 0) 1,
         SessionManager.Call.endSession 2]) 3 CUSTOM "x" "y" init).1.events.getLast? =
      some { type := CUSTOM, name := "x", metadata := "y", timestampMs := 3,
             sessionId := "", screenshotTaken := false } := by
  have ha : (SessionManager.run SessionManager.init
        [SessionManager.Call.startSession (fun _ => 0) 1,
         SessionManager.Call.endSession 2]).state ≠ SessionManager.State.ACTIVE := by decide
  have hb : (SessionManager.run SessionManager.init
        [SessionManager.Call.startSession (fun _ => 0) 1,
         SessionManager.Call.endSession 2]).state ≠ SessionManager.State.BACKGROUND := by decide
  exact ⟨ha, hb, (recordEvent_stamps SessionManager.init 3 CUSTOM "x" "y" init _).2 ha hb⟩

end EventDetector

end metrics

namespace metrics

namespace F32

/-! ## Single-precision arithmetic -/

theorem bitLenAux_zero (fuel : Nat) : bitLenAux fuel 0 = 0 := by
  cases fuel <;> simp [bitLenAux]

theorem bitLenAux_spec (fuel : Nat) : ∀ n, n ≤ fuel →
    n < 2 ^ bitLenAux fuel n ∧ (0 < n → 2 ^ bitLenAux fuel n ≤ 2 * n) := by
  induction fuel with
  | zero =>
    intro n hn
    have : n = 0 := by omega
    subst this
    simp [bitLenAux]
  | succ fuel ih =>
    intro n hn
    by_cases h0 : n = 0
    · subst h0
      simp [bitLenAux]
    · have hhalf : n / 2 ≤ fuel := by omega
      obtain ⟨h1, h2⟩ := ih (n / 2) hhalf
      simp only [bitLenAux, h0, if_false, pow_succ]
      constructor
      · omega
      · intro _
        by_cases hz : n / 2 = 0
        · rw [hz, bitLenAux_zero]
          simp
          omega
        · have := h2 (by omega)
          omega

theorem bitLen_spec (n : Nat) (hn : 0 < n) : n < 2 ^ bitLen n ∧ 2 ^ bitLen n ≤ 2 * n := by
  have := bitLenAux_spec n n (le_refl n)
  exact ⟨this.1, this.2 hn⟩


/-- Rounding a quotient of naturals to the nearest integer, ties to even, is
off by at most one half. -/
theorem nearest_div (num den : Nat) (hden : 0 < den) :
    |(((if 2 * (num % den) > den ∨ (2 * (num % den) = den ∧ (num / den) % 2 = 1)
        then num / den + 1 else num / den : Nat) : ℚ)) - (num : ℚ) / den| ≤ 1 / 2 := by
  have hdq : (0 : ℚ) < den := by exact_mod_cast hden
  have hsplit : (num : ℚ) = den * (num / den : Nat) + (num % den : Nat) := by
    exact_mod_cast (Nat.div_add_mod num den).symm
  have hr : (num % den : Nat) < den := Nat.mod_lt _ hden
  have hrq : ((num % den : Nat) : ℚ) < den := by exact_mod_cast hr
  have hr0 : (0 : ℚ) ≤ ((num % den : Nat) : ℚ) := by positivity
  have hquot : (num : ℚ) / den = (num / den : Nat) + ((num % den : Nat) : ℚ) / den := by
    rw [hsplit]
    field_simp
    ring
  split
  · rename_i h
    have h2 : (den : ℚ) ≤ 2 * ((num % den : Nat) : ℚ) := by
      rcases h with h | ⟨h, _⟩
      · exact_mod_cast le_of_lt h
      · exact_mod_cast le_of_eq h.symm
    rw [hquot, abs_le]
    push_cast
    constructor
    · have : ((num % den : Nat) : ℚ) / den ≤ 1 := by
        rw [div_le_one hdq]; exact le_of_lt hrq
      linarith
    · have : (1 : ℚ) / 2 ≤ ((num % den : Nat) : ℚ) / den := by
        rw [le_div_iff₀ hdq]; linarith
      linarith
  · rename_i h
    have h2 : 2 * ((num % den : Nat) : ℚ) ≤ den := by
      have : 2 * (num % den) ≤ den := by
        by_contra hc
        exact h (Or.inl (by omega))
      exact_mod_cast this
    have hlo : (0 : ℚ) ≤ ((num % den : Nat) : ℚ) / den := by positivity
    have hhi : ((num % den : Nat) : ℚ) / den ≤ 1 / 2 := by
      rw [div_le_iff₀ hdq]; linarith
    rw [hquot, abs_le]
    constructor <;> linarith


theorem shift_ratio (kb : Nat) :
    ((2 : ℚ) ^ (149 - kb) / (2 : ℚ) ^ (kb - 149)) * (2 : ℚ) ^ ((kb : Int) - 149) = 1 := by
  have h2 : (2 : ℚ) ≠ 0 := by norm_num
  rcases Nat.le_total kb 149 with h | h
  · have hk : ((kb : Int) - 149) = -((149 - kb : Nat) : Int) := by omega
    have h0 : kb - 149 = 0 := by omega
    rw [hk, h0, zpow_neg, zpow_natCast]
    field_simp
  · have hk : ((kb : Int) - 149) = ((kb - 149 : Nat) : Int) := by omega
    have h0 : 149 - kb = 0 := by omega
    rw [hk, h0, zpow_natCast]
    field_simp

/-- The magnitude `roundCore` returns is within half a unit in the last place
of the rational it rounds. -/
theorem roundCore_error (n d : Nat) (hd : 0 < d) :
    |((roundCore n d).1 : ℚ) * (2 : ℚ) ^ (roundCore n d).2 - (n : ℚ) / d|
      ≤ (2 : ℚ) ^ (roundCore n d).2 / 2 := by
  simp only [roundCore]
  generalize (bitLen n + 126 - bitLen d
    - (if n * 2 ^ (bitLen d - bitLen n) < d * 2 ^ (bitLen n - bitLen d) then 1 else 0)) = kb
  have hden : 0 < d * 2 ^ (kb - 149) := Nat.mul_pos hd (by positivity)
  have hnear := nearest_div (n * 2 ^ (149 - kb)) (d * 2 ^ (kb - 149)) hden
  have hpos : (0 : ℚ) < (2 : ℚ) ^ ((kb : Int) - 149) := by positivity
  have hdq : (d : ℚ) ≠ 0 := by exact_mod_cast (Nat.pos_iff_ne_zero.mp hd)
  have hscale : (((n * 2 ^ (149 - kb) : Nat) : ℚ) / ((d * 2 ^ (kb - 149) : Nat) : ℚ))
      * (2 : ℚ) ^ ((kb : Int) - 149) = (n : ℚ) / d := by
    have h := shift_ratio kb
    push_cast
    have h2 : ((2 : ℚ) ^ (kb - 149)) ≠ 0 := by positivity
    calc (n : ℚ) * 2 ^ (149 - kb) / (d * 2 ^ (kb - 149)) * (2 : ℚ) ^ ((kb : Int) - 149)
        = (n : ℚ) / d * (((2 : ℚ) ^ (149 - kb) / (2 : ℚ) ^ (kb - 149))
            * (2 : ℚ) ^ ((kb : Int) - 149)) := by
          field_simp
          ring
      _ = (n : ℚ) / d := by rw [h, mul_one]
  rw [← hscale, ← sub_mul, abs_mul, abs_of_pos hpos]
  calc _ ≤ (1 / 2 : ℚ) * (2 : ℚ) ^ ((kb : Int) - 149) :=
        mul_le_mul_of_nonneg_right hnear (le_of_lt hpos)
    _ = (2 : ℚ) ^ ((kb : Int) - 149) / 2 := by ring


/-- Above the subnormal range the last kept bit is at most `2 ^ (-23)` times
the rational that is rounded. -/
theorem roundCore_ulp_le (n d : Nat) (hn : 0 < n) (hd : 0 < d)
    (hmin : (2 : ℚ) ^ (-126 : Int) ≤ (n : ℚ) / d) :
    (2 : ℚ) ^ ((roundCore n d).2 + 23) ≤ (n : ℚ) / d := by
  have h2 : (2 : ℚ) ≠ 0 := by norm_num
  have hdq : (0 : ℚ) < d := by exact_mod_cast hd
  have hnq : (0 : ℚ) < n := by exact_mod_cast hn
  obtain ⟨hn1, hn2⟩ := bitLen_spec n hn
  obtain ⟨hd1, hd2⟩ := bitLen_spec d hd
  have hn2q : (2 : ℚ) ^ bitLen n ≤ 2 * n := by exact_mod_cast hn2
  have hd1q : (d : ℚ) < 2 ^ bitLen d := by exact_mod_cast hd1
  simp only [roundCore]
  by_cases hadj : n * 2 ^ (bitLen d - bitLen n) < d * 2 ^ (bitLen n - bitLen d)
  · rw [if_pos hadj]
    by_cases htr : bitLen d + 1 ≤ bitLen n + 126
    · have hk : ((bitLen n + 126 - bitLen d - 1 : Nat) : Int) - 149 + 23
          = (bitLen n : Int) - bitLen d - 1 := by omega
      rw [hk, zpow_sub₀ h2, zpow_sub₀ h2, zpow_natCast, zpow_natCast, zpow_one]
      rw [div_div, div_le_div_iff₀ (by positivity) hdq]
      have hstep : (2 : ℚ) ^ bitLen n * d ≤ 2 * n * 2 ^ bitLen d := by
        calc (2 : ℚ) ^ bitLen n * d ≤ 2 * n * d :=
              mul_le_mul_of_nonneg_right hn2q (le_of_lt hdq)
          _ ≤ 2 * n * 2 ^ bitLen d :=
              mul_le_mul_of_nonneg_left (le_of_lt hd1q) (by positivity)
      linarith
    · have hk : ((bitLen n + 126 - bitLen d - 1 : Nat) : Int) - 149 + 23 = -126 := by omega
      rw [hk]
      exact hmin
  · rw [if_neg hadj]
    by_cases htr : bitLen d ≤ bitLen n + 126
    · have hk : ((bitLen n + 126 - bitLen d - 0 : Nat) : Int) - 149 + 23
          = ((bitLen n - bitLen d : Nat) : Int) - ((bitLen d - bitLen n : Nat) : Int) := by
        omega
      have hge : d * 2 ^ (bitLen n - bitLen d) ≤ n * 2 ^ (bitLen d - bitLen n) :=
        Nat.le_of_not_lt hadj
      have hgeq : (d : ℚ) * 2 ^ (bitLen n - bitLen d) ≤ n * 2 ^ (bitLen d - bitLen n) := by
        exact_mod_cast hge
      rw [hk, zpow_sub₀ h2, zpow_natCast, zpow_natCast,
        div_le_div_iff₀ (by positivity) hdq]
      linarith
    · have hk : ((bitLen n + 126 - bitLen d - 0 : Nat) : Int) - 149 + 23 = -126 := by omega
      rw [hk]
      exact hmin


/-- Inside the normal range `ofRat` returns a finite value whose relative
error is at most `2 ^ (-24)`. -/
theorem ofRat_rel (q : ℚ) (hmin : (2 : ℚ) ^ (-126 : Int) ≤ |q|) (hmax : |q| ≤ 2 ^ 127) :
    ∃ r, ofRat q = fin r ∧ |r - q| ≤ |q| / 2 ^ 24 := by
  have hq0 : q ≠ 0 := by
    intro h
    rw [h, abs_zero] at hmin
    have : (0 : ℚ) < (2 : ℚ) ^ (-126 : Int) := by positivity
    linarith
  have hnum : q.num ≠ 0 := Rat.num_ne_zero.mpr hq0
  have hn : 0 < q.num.natAbs := Int.natAbs_pos.mpr hnum
  have hd : 0 < q.den := q.den_pos
  have habs : ((q.num.natAbs : Nat) : ℚ) / q.den = |q| := by
    have h1 : ((q.num.natAbs : Nat) : ℚ) = |(q.num : ℚ)| := by
      rw [Nat.cast_natAbs, Int.cast_abs]
    have h2 : |(q.den : ℚ)| = q.den := abs_of_pos (by exact_mod_cast hd)
    conv_rhs => rw [← Rat.num_div_den q, abs_div, h2]
    rw [h1]
  have herr := roundCore_error q.num.natAbs q.den hd
  have hulp := roundCore_ulp_le q.num.natAbs q.den hn hd (by rw [habs]; exact hmin)
  rw [habs] at herr hulp
  generalize hmk : roundCore q.num.natAbs q.den = mk at herr hulp
  have hhalf : (2 : ℚ) ^ mk.2 / 2 ≤ |q| / 2 ^ 24 := by
    have h2 : (2 : ℚ) ≠ 0 := by norm_num
    have : (2 : ℚ) ^ (mk.2 + 23) = (2 : ℚ) ^ mk.2 * 2 ^ 23 := by
      rw [zpow_add₀ h2]
      norm_num
    rw [this] at hulp
    rw [div_le_div_iff₀ (by norm_num) (by positivity)]
    have hpos : (0 : ℚ) < (2 : ℚ) ^ mk.2 := by positivity
    calc (2 : ℚ) ^ mk.2 * 2 ^ 24 = 2 * ((2 : ℚ) ^ mk.2 * 2 ^ 23) := by ring
      _ ≤ 2 * |q| := by linarith
      _ = |q| * 2 := by ring
  have hmagerr : |(mk.1 : ℚ) * (2 : ℚ) ^ mk.2 - abs q| ≤ |q| / 2 ^ 24 := le_trans herr hhalf
  have hlt : ¬ ((mk.1 : ℚ) * (2 : ℚ) ^ mk.2 ≥ 2 ^ 128) := by
    rw [not_le]
    have h1 := (abs_le.mp hmagerr).2
    have h3 : |q| / 2 ^ 24 ≤ 2 ^ 127 / 2 ^ 24 := by
      apply div_le_div_of_nonneg_right hmax (by positivity)
    have h4 : (2 : ℚ) ^ 127 + 2 ^ 127 / 2 ^ 24 < 2 ^ 128 := by norm_num
    linarith
  by_cases hneg : q < 0
  · refine ⟨-((mk.1 : ℚ) * (2 : ℚ) ^ mk.2), ?_, ?_⟩
    · simp only [ofRat, hq0, if_false, hmk, hlt, hneg, if_true]
    · have : |q| = -q := abs_of_neg hneg
      rw [this] at hmagerr ⊢
      have : -((mk.1 : ℚ) * (2 : ℚ) ^ mk.2) - q = -((mk.1 : ℚ) * (2 : ℚ) ^ mk.2 - -q) := by ring
      rw [this, abs_neg]
      exact hmagerr
  · refine ⟨(mk.1 : ℚ) * (2 : ℚ) ^ mk.2, ?_, ?_⟩
    · simp only [ofRat, hq0, if_false, hmk, hlt, hneg]
    · have : |q| = q := abs_of_nonneg (not_lt.mp hneg)
      rw [this] at hmagerr ⊢
      exact hmagerr


/-- Inside the normal range `ofRat q` is `q * (1 + δ)` for some `δ` of
magnitude at most `2 ^ (-24)`. -/
theorem ofRat_factor (q : ℚ) (hmin : (2 : ℚ) ^ (-126 : Int) ≤ |q|) (hmax : |q| ≤ 2 ^ 127) :
    ∃ δ : ℚ, |δ| ≤ 1 / 2 ^ 24 ∧ ofRat q = fin (q * (1 + δ)) := by
  obtain ⟨r, hr, herr⟩ := ofRat_rel q hmin hmax
  have hq0 : q ≠ 0 := by
    intro h
    rw [h, abs_zero] at hmin
    have : (0 : ℚ) < (2 : ℚ) ^ (-126 : Int) := by positivity
    linarith
  have hqa : 0 < |q| := abs_pos.mpr hq0
  refine ⟨(r - q) / q, ?_, ?_⟩
  · rw [abs_div, div_le_iff₀ hqa]
    calc |r - q| ≤ |q| / 2 ^ 24 := herr
      _ = 1 / 2 ^ 24 * |q| := by ring
  · have hval : q * (1 + (r - q) / q) = r := by
      rw [mul_add, mul_one, mul_div_cancel₀ _ hq0]
      ring
    rw [hr, hval]

theorem abs_one_add_bounds (δ : ℚ) (h : |δ| ≤ 1 / 2 ^ 24) :
    1 / 2 ≤ 1 + δ ∧ 1 + δ ≤ 2 := by
  have := abs_le.mp h
  constructor
  · have : (-(1 / 2 ^ 24) : ℚ) ≥ -(1 / 2) := by norm_num
    linarith
  · have : ((1 / 2 ^ 24) : ℚ) ≤ 1 := by norm_num
    linarith

/-- Four roundings, one of them in a denominator, change a value by a factor
that differs from 1 by at most `2 ^ (-21)`. -/
theorem four_roundings (d1 d2 d3 d4 : ℚ) (h1 : |d1| ≤ 1 / 2 ^ 24) (h2 : |d2| ≤ 1 / 2 ^ 24)
    (h3 : |d3| ≤ 1 / 2 ^ 24) (h4 : |d4| ≤ 1 / 2 ^ 24) :
    |(1 + d1) * (1 + d3) * (1 + d4) / (1 + d2) - 1| ≤ 1 / 2 ^ 21 := by
  have hD := abs_one_add_bounds d2 h2
  have hDpos : (0 : ℚ) < 1 + d2 := by linarith [hD.1]
  have e0 : (0 : ℚ) ≤ 1 / 2 ^ 24 := by positivity
  have p13 : |d1 * d3| ≤ 1 / 2 ^ 24 * (1 / 2 ^ 24) := by
    rw [abs_mul]; exact mul_le_mul h1 h3 (abs_nonneg _) e0
  have p14 : |d1 * d4| ≤ 1 / 2 ^ 24 * (1 / 2 ^ 24) := by
    rw [abs_mul]; exact mul_le_mul h1 h4 (abs_nonneg _) e0
  have p34 : |d3 * d4| ≤ 1 / 2 ^ 24 * (1 / 2 ^ 24) := by
    rw [abs_mul]; exact mul_le_mul h3 h4 (abs_nonneg _) e0
  have p134 : |d1 * d3 * d4| ≤ 1 / 2 ^ 24 * (1 / 2 ^ 24) * (1 / 2 ^ 24) := by
    rw [abs_mul]; exact mul_le_mul p13 h4 (abs_nonneg _) (by positivity)
  have hrew : (1 + d1) * (1 + d3) * (1 + d4) / (1 + d2) - 1
      = (d1 + d3 + d4 - d2 + d1 * d3 + d1 * d4 + d3 * d4 + d1 * d3 * d4) / (1 + d2) := by
    field_simp
    ring
  rw [hrew, abs_div, abs_of_pos hDpos, div_le_iff₀ hDpos]
  have a1 := abs_le.mp h1
  have a2 := abs_le.mp h2
  have a3 := abs_le.mp h3
  have a4 := abs_le.mp h4
  have b13 := abs_le.mp p13
  have b14 := abs_le.mp p14
  have b34 := abs_le.mp p34
  have b134 := abs_le.mp p134
  have hnum : (1 : ℚ) / 2 ^ 24 * (1 / 2 ^ 24) ≤ 1 / 2 ^ 48 := by norm_num
  have hnum3 : (1 : ℚ) / 2 ^ 24 * (1 / 2 ^ 24) * (1 / 2 ^ 24) ≤ 1 / 2 ^ 72 := by norm_num
  have hbound : (4 : ℚ) / 2 ^ 24 + 3 / 2 ^ 48 + 1 / 2 ^ 72 ≤ 1 / 2 ^ 21 * (1 - 1 / 2 ^ 24) := by
    norm_num
  have hD' : (1 : ℚ) / 2 ^ 21 * (1 - 1 / 2 ^ 24) ≤ 1 / 2 ^ 21 * (1 + d2) := by
    apply mul_le_mul_of_nonneg_left _ (by positivity)
    linarith [a2.1]
  rw [abs_le]
  constructor <;> linarith [b13.1, b13.2, b14.1, b14.2, b34.1, b34.2, b134.1, b134.2]


theorem ofRat_zero : ofRat 0 = fin 0 := by
  simp [ofRat]

/-- Bounds on a quotient of two bounded magnitudes that were each rounded. -/
theorem quotient_range (A T w1 w2 : ℚ) (hA1 : 1 ≤ A) (hA2 : A ≤ 2 ^ 63) (hT1 : 1 ≤ T)
    (hT2 : T ≤ 2 ^ 63) (hw1 : 1 / 2 ≤ w1 ∧ w1 ≤ 2) (hw2 : 1 / 2 ≤ w2 ∧ w2 ≤ 2) :
    1 / 2 ^ 65 ≤ A * w1 / (T * w2) ∧ A * w1 / (T * w2) ≤ 2 ^ 65 := by
  have hnum1 : (1 : ℚ) / 2 ≤ A * w1 := by
    calc (1 : ℚ) / 2 = 1 * (1 / 2) := by ring
      _ ≤ A * w1 := mul_le_mul hA1 hw1.1 (by norm_num) (by linarith)
  have hnum2 : A * w1 ≤ 2 ^ 63 * 2 :=
    mul_le_mul hA2 hw1.2 (by linarith [hw1.1]) (by positivity)
  have hden1 : (1 : ℚ) / 2 ≤ T * w2 := by
    calc (1 : ℚ) / 2 = 1 * (1 / 2) := by ring
      _ ≤ T * w2 := mul_le_mul hT1 hw2.1 (by norm_num) (by linarith)
  have hden2 : T * w2 ≤ 2 ^ 63 * 2 :=
    mul_le_mul hT2 hw2.2 (by linarith [hw2.1]) (by positivity)
  have hdpos : (0 : ℚ) < T * w2 := by linarith
  constructor
  · rw [div_le_div_iff₀ (by positivity) hdpos]
    calc (1 : ℚ) * (T * w2) ≤ 1 * (2 ^ 63 * 2) := by linarith
      _ = 1 / 2 * 2 ^ 65 := by norm_num
      _ ≤ A * w1 * 2 ^ 65 := mul_le_mul_of_nonneg_right hnum1 (by positivity)
  · rw [div_le_iff₀ hdpos]
    calc A * w1 ≤ 2 ^ 63 * 2 := hnum2
      _ = 2 ^ 65 * (1 / 2) := by norm_num
      _ ≤ 2 ^ 65 * (T * w2) := mul_le_mul_of_nonneg_left hden1 (by positivity)

/-- Evaluation of `ofRat` at a positive rational whose numerator, denominator
and rounding are known. -/
theorem ofRat_pos_eval (q : ℚ) (n d m : Nat) (k : Int) (hq : 0 < q)
    (hn : q.num.natAbs = n) (hd : q.den = d) (hr : roundCore n d = (m, k))
    (hlt : (m : ℚ) * (2 : ℚ) ^ k < 2 ^ 128) :
    ofRat q = fin ((m : ℚ) * (2 : ℚ) ^ k) := by
  have hq0 : q ≠ 0 := ne_of_gt hq
  have hneg : ¬ q < 0 := not_lt.mpr (le_of_lt hq)
  have hge : ¬ ((m : ℚ) * (2 : ℚ) ^ k ≥ 2 ^ 128) := not_le.mpr hlt
  simp only [ofRat, hq0, hn, hd, hr, if_false, hneg, hge]

theorem ofInt_850 : ofInt 850 = fin 850 := by
  have h := ofRat_pos_eval ((850 : Int) : ℚ) 850 1 13926400 (-14) (by norm_num)
    (by norm_num) (by norm_num) (by decide) (by norm_num)
  rw [ofInt, h]
  norm_num

theorem ofInt_1000 : ofInt 1000 = fin 1000 := by
  have h := ofRat_pos_eval ((1000 : Int) : ℚ) 1000 1 16384000 (-14) (by norm_num)
    (by norm_num) (by norm_num) (by decide) (by norm_num)
  rw [ofInt, h]
  norm_num

/-- The quotient 850.0f / 1000.0f is the `float` 0.85f = 14260634 / 2 ^ 24. -/
theorem div_850_1000 : div (fin 850) (fin 1000) = fin (7130317 / 8388608) := by
  have h := ofRat_pos_eval ((850 : ℚ) / 1000) 17 20 14260634 (-24) (by norm_num)
    (by norm_num) (by norm_num) (by decide) (by norm_num)
  have hne : ¬ ((1000 : ℚ) = 0) := by norm_num
  simp only [div, hne, if_false]
  rw [h]
  norm_num

/-- The product 0.85f * 100.0f rounds to exactly 85.0f. -/
theorem mul_085_100 : mul (fin (7130317 / 8388608)) (fin 100) = fin 85 := by
  have h := ofRat_pos_eval ((7130317 / 8388608 : ℚ) * 100) 178257925 2097152 11141120 (-17)
    (by norm_num) (by norm_num) (by norm_num) (by decide) (by norm_num)
  simp only [mul]
  rw [h]
  norm_num

end F32

end metrics

namespace metrics

namespace MetricsAggregator

/-! ## Metrics aggregator -/

theorem memoryUsagePercentage_1000_850 : memoryUsagePercentage 1000 850 = F32.fin 85 := by
  have hpos : (1000 : Int) > 0 := by decide
  rw [memoryUsagePercentage, if_pos hpos, F32.ofInt_850, F32.ofInt_1000, F32.div_850_1000,
    F32.mul_085_100]

/-- For 64-bit arguments with `totalMb > 0` the stored percentage is finite
and differs from the exact quotient `usedMb / totalMb * 100` by a relative
error of at most `2 ^ (-21)`. -/
theorem memoryUsagePercentage_accuracy (totalMb usedMb : Int) (ht : 0 < totalMb)
    (htmax : totalMb ≤ 2 ^ 63) (hu : |usedMb| ≤ 2 ^ 63) :
    ∃ r : ℚ, memoryUsagePercentage totalMb usedMb = F32.fin r ∧
      |r - (usedMb : ℚ) / totalMb * 100| ≤ |(usedMb : ℚ) / totalMb * 100| / 2 ^ 21 := by
  have hT1 : (1 : ℚ) ≤ (totalMb : ℚ) := by exact_mod_cast ht
  have hT2 : (totalMb : ℚ) ≤ 2 ^ 63 := by exact_mod_cast htmax
  have hTpos : (0 : ℚ) < (totalMb : ℚ) := by linarith
  have hsmall : (2 : ℚ) ^ (-126 : Int) ≤ 1 / 2 ^ 72 := by
    rw [zpow_neg, ← one_div]
    apply one_div_le_one_div_of_le (by positivity)
    norm_cast
  have hbig : (2 : ℚ) ^ 72 ≤ 2 ^ 127 := by norm_num
  obtain ⟨d2, hd2, hfT⟩ := F32.ofRat_factor (totalMb : ℚ)
    (by rw [abs_of_pos hTpos]; exact le_trans hsmall (le_trans (by norm_num) hT1))
    (by rw [abs_of_pos hTpos]; exact le_trans hT2 (by norm_num))
  have hw2 := F32.abs_one_add_bounds d2 hd2
  have htne : (totalMb : ℚ) * (1 + d2) ≠ 0 := by
    have : (0 : ℚ) < (totalMb : ℚ) * (1 + d2) := mul_pos hTpos (by linarith [hw2.1])
    exact ne_of_gt this
  rw [memoryUsagePercentage, if_pos ht]
  by_cases hs : usedMb = 0
  · subst hs
    refine ⟨0, ?_, by simp⟩
    simp only [F32.ofInt, hfT, Int.cast_zero, F32.ofRat_zero, F32.div, htne, if_false,
      zero_div, F32.mul, zero_mul]
  · have hA1 : (1 : ℚ) ≤ |(usedMb : ℚ)| := by
      have : (1 : Int) ≤ |usedMb| := Int.one_le_abs hs
      exact_mod_cast this
    have hA2 : |(usedMb : ℚ)| ≤ 2 ^ 63 := by exact_mod_cast hu
    obtain ⟨d1, hd1, hfS⟩ := F32.ofRat_factor (usedMb : ℚ)
      (le_trans hsmall (le_trans (by norm_num) hA1))
      (le_trans hA2 (by norm_num))
    have hw1 := F32.abs_one_add_bounds d1 hd1
    have hw1pos : (0 : ℚ) < 1 + d1 := by linarith [hw1.1]
    have hw2pos : (0 : ℚ) < 1 + d2 := by linarith [hw2.1]
    have hq := F32.quotient_range |(usedMb : ℚ)| (totalMb : ℚ) (1 + d1) (1 + d2)
      hA1 hA2 hT1 hT2 hw1 hw2
    have habsq : |(usedMb : ℚ) * (1 + d1) / ((totalMb : ℚ) * (1 + d2))|
        = |(usedMb : ℚ)| * (1 + d1) / ((totalMb : ℚ) * (1 + d2)) := by
      rw [abs_div, abs_mul, abs_of_pos hw1pos, abs_of_pos (mul_pos hTpos hw2pos)]
    obtain ⟨d3, hd3, hfQ⟩ := F32.ofRat_factor
      ((usedMb : ℚ) * (1 + d1) / ((totalMb : ℚ) * (1 + d2)))
      (by rw [habsq]
          exact le_trans hsmall (le_trans (by norm_num) hq.1))
      (by rw [habsq]
          exact le_trans hq.2 (by norm_num))
    have hw3 := F32.abs_one_add_bounds d3 hd3
    have hw3pos : (0 : ℚ) < 1 + d3 := by linarith [hw3.1]
    have habsp : |(usedMb : ℚ) * (1 + d1) / ((totalMb : ℚ) * (1 + d2)) * (1 + d3) * 100|
        = |(usedMb : ℚ)| * (1 + d1) / ((totalMb : ℚ) * (1 + d2)) * ((1 + d3) * 100) := by
      rw [mul_assoc, abs_mul, habsq, abs_of_pos (mul_pos hw3pos (by norm_num))]
    have hqpos : (0 : ℚ) < |(usedMb : ℚ)| * (1 + d1) / ((totalMb : ℚ) * (1 + d2)) := by
      have : (0 : ℚ) < 1 / 2 ^ 65 := by positivity
      linarith [hq.1]
    obtain ⟨d4, hd4, hfP⟩ := F32.ofRat_factor
      ((usedMb : ℚ) * (1 + d1) / ((totalMb : ℚ) * (1 + d2)) * (1 + d3) * 100)
      (by rw [habsp]
          have h50 : (50 : ℚ) ≤ (1 + d3) * 100 := by linarith [hw3.1]
          have hlow : (1 : ℚ) / 2 ^ 65 * 50
              ≤ |(usedMb : ℚ)| * (1 + d1) / ((totalMb : ℚ) * (1 + d2)) * ((1 + d3) * 100) :=
            mul_le_mul hq.1 h50 (by norm_num) (le_of_lt hqpos)
          exact le_trans hsmall (le_trans (by norm_num) hlow))
      (by rw [habsp]
          have h200 : (1 + d3) * 100 ≤ (200 : ℚ) := by linarith [hw3.2]
          have hhigh : |(usedMb : ℚ)| * (1 + d1) / ((totalMb : ℚ) * (1 + d2)) * ((1 + d3) * 100)
              ≤ 2 ^ 65 * 200 :=
            mul_le_mul hq.2 h200 (by linarith [hw3.1]) (by positivity)
          exact le_trans hhigh (by norm_num))
    refine ⟨(usedMb : ℚ) * (1 + d1) / ((totalMb : ℚ) * (1 + d2)) * (1 + d3) * 100 * (1 + d4),
      ?_, ?_⟩
    · simp only [F32.ofInt, hfS, hfT, F32.div, htne, if_false, hfQ, F32.mul, hfP]
    · have hfour := F32.four_roundings d1 d2 d3 d4 hd1 hd2 hd3 hd4
      have hrew : (usedMb : ℚ) * (1 + d1) / ((totalMb : ℚ) * (1 + d2)) * (1 + d3) * 100
            * (1 + d4) - (usedMb : ℚ) / totalMb * 100
          = ((usedMb : ℚ) / totalMb * 100)
            * ((1 + d1) * (1 + d3) * (1 + d4) / (1 + d2) - 1) := by
        field_simp
        ring
      rw [hrew, abs_mul]
      calc |(usedMb : ℚ) / totalMb * 100| * |(1 + d1) * (1 + d3) * (1 + d4) / (1 + d2) - 1|
          ≤ |(usedMb : ℚ) / totalMb * 100| * (1 / 2 ^ 21) :=
            mul_le_mul_of_nonneg_left hfour (abs_nonneg _)
        _ = |(usedMb : ℚ) / totalMb * 100| / 2 ^ 21 := by ring

theorem gt_fin (x y : ℚ) : F32.gt (F32.fin x) (F32.fin y) = true ↔ y < x := by
  simp [F32.gt]

theorem gt_self (v : F32) : F32.gt v v = false := by
  cases v with
  | nan => rfl
  | inf neg => cases neg <;> rfl
  | fin q => simp [F32.gt]

theorem apply_thresholds (c : Call) (a : MetricsAggregator) (h : c.setsThreshold = false) :
    (c.apply a).memoryThreshold = a.memoryThreshold ∧
      (c.apply a).cpuThreshold = a.cpuThreshold := by
  cases c <;> simp_all [Call.apply, Call.setsThreshold, recordMemoryMetrics, recordCpuMetrics,
    reset]

theorem run_thresholds (calls : List Call) (a : MetricsAggregator)
    (h : ∀ c ∈ calls, c.setsThreshold = false) :
    (run a calls).memoryThreshold = a.memoryThreshold ∧
      (run a calls).cpuThreshold = a.cpuThreshold := by
  induction calls generalizing a with
  | nil => simp [run]
  | cons c cs ih =>
    have hc := apply_thresholds c a (h c (List.mem_cons_self c cs))
    have hrest := ih (c.apply a) (fun c' hc' => h c' (List.mem_cons_of_mem c hc'))
    simp only [run, List.foldl_cons] at hrest ⊢
    rw [hrest.1, hrest.2, hc.1, hc.2]
    exact ⟨rfl, rfl⟩

/-- C9: `recordMemoryMetrics(totalMb, usedMb, availableMb)` at time `now` sets
the latest memory snapshot to `(totalMb, usedMb, availableMb, usagePercentage,
now)`, where `usagePercentage` is the `float` value of
`usedMb / totalMb * 100` when `totalMb > 0` and 0 when `totalMb <= 0`; for
64-bit arguments that `float` value is finite and within a relative error of
`2 ^ (-21)` of the exact quotient times 100; and
`recordMemoryMetrics(1000, 850, 150)` gives `usagePercentage = 85.0`. -/
theorem recordMemoryMetrics_latest (now totalMb usedMb availableMb : Int)
    (a : MetricsAggregator) :
    (getLatestMemoryMetrics (recordMemoryMetrics now totalMb usedMb availableMb a)).1 =
      { totalMemoryMb := totalMb, usedMemoryMb := usedMb, availableMemoryMb := availableMb,
        usagePercentage := memoryUsagePercentage totalMb usedMb, timestampMs := now } ∧
    (totalMb > 0 →
      (recordMemoryMetrics now totalMb usedMb availableMb a).latestMemory.usagePercentage =
        F32.mul (F32.div (F32.ofInt usedMb) (F32.ofInt totalMb)) (F32.fin 100)) ∧
    (totalMb ≤ 0 →
      (recordMemoryMetrics now totalMb usedMb availableMb a).latestMemory.usagePercentage =
        F32.fin 0) ∧
    (totalMb > 0 → totalMb < 2 ^ 63 → -(2 ^ 63) ≤ usedMb → usedMb < 2 ^ 63 →
      ∃ r : ℚ,
        (recordMemoryMetrics now totalMb usedMb availableMb a).latestMemory.usagePercentage =
          F32.fin r ∧
        |r - (usedMb : ℚ) / totalMb * 100| ≤ |(usedMb : ℚ) / totalMb * 100| / 2 ^ 21) ∧
    (recordMemoryMetrics now 1000 850 150 a).latestMemory.usagePercentage = F32.fin 85 := by
  refine ⟨rfl, ?_, ?_, ?_, ?_⟩
  · intro h
    simp [recordMemoryMetrics, memoryUsagePercentage, h]
  · intro h
    have h' : ¬ totalMb > 0 := not_lt.mpr h
    simp [recordMemoryMetrics, memoryUsagePercentage, h']
  · intro ht htmax hulo huhi
    have hu : |usedMb| ≤ 2 ^ 63 := abs_le.mpr ⟨hulo, le_of_lt huhi⟩
    exact memoryUsagePercentage_accuracy totalMb usedMb ht (le_of_lt htmax) hu
  · simp only [recordMemoryMetrics]
    exact memoryUsagePercentage_1000_850

/-- C9 at concrete inputs: total 1000 (positive) takes the quotient branch,
gives exactly 85.0, which is within the error bound of 850 / 1000 * 100;
totals 0 and -5 take the guard and give 0. -/
theorem recordMemoryMetrics_latest_witness :
    ((1000 : Int) > 0 ∧
      (recordMemoryMetrics 7 1000 850 150 init).latestMemory.usagePercentage =
        F32.mul (F32.div (F32.ofInt 850) (F32.ofInt 1000)) (F32.fin 100) ∧
      (recordMemoryMetrics 7 1000 850 150 init).latestMemory.usagePercentage = F32.fin 85) ∧
    (((1000 : Int) < 2 ^ 63 ∧ -(2 ^ 63) ≤ (850 : Int) ∧ (850 : Int) < 2 ^ 63) ∧
      ∃ r : ℚ,
        (recordMemoryMetrics 7 1000 850 150 init).latestMemory.usagePercentage = F32.fin r ∧
        |r - ((850 : Int) : ℚ) / ((1000 : Int) : ℚ) * 100|
          ≤ |((850 : Int) : ℚ) / ((1000 : Int) : ℚ) * 100| / 2 ^ 21) ∧
    ((0 : Int) ≤ 0 ∧
      (recordMemoryMetrics 7 0 850 150 init).latestMemory.usagePercentage = F32.fin 0) ∧
    ((-5 : Int) ≤ 0 ∧
      (recordMemoryMetrics 7 (-5) 850 150 init).latestMemory.usagePercentage = F32.fin 0) := by
  have h1 : (1000 : Int) > 0 := by decide
  have h2 : (0 : Int) ≤ 0 := by decide
  have h3 : (-5 : Int) ≤ 0 := by decide
  have h4 : (1000 : Int) < 2 ^ 63 := by decide
  have h5 : -(2 ^ 63) ≤ (850 : Int) := by decide
  have h6 : (850 : Int) < 2 ^ 63 := by decide
  exact ⟨⟨h1, (recordMemoryMetrics_latest 7 1000 850 150 init).2.1 h1,
      (recordMemoryMetrics_latest 7 1000 850 150 init).2.2.2.2⟩,
    ⟨⟨h4, h5, h6⟩, (recordMemoryMetrics_latest 7 1000 850 150 init).2.2.2.1 h1 h4 h5 h6⟩,
    ⟨h2, (recordMemoryMetrics_latest 7 0 850 150 init).2.2.1 h2⟩,
    ⟨h3, (recordMemoryMetrics_latest 7 (-5) 850 150 init).2.2.1 h3⟩⟩

/-- C10: `isMemorySpike()` is the `float` comparison `latest usage > memory
threshold` and `isCpuSpike()` the comparison `latest CPU usage > CPU
threshold` (for finite values: true exactly when the usage is strictly greater
than the threshold; a usage equal to the threshold is not a spike); neither
modifies the aggregator; the thresholds are 80 and 90 on a fresh aggregator,
stay so under every call other than the two setters, and a setter installs its
argument; after `recordMemoryMetrics(1000, 850, 150)` with threshold 80,
`isMemorySpike()` is true. -/
theorem spike_predicates (a : MetricsAggregator) (x y : ℚ) (t : F32) (calls : List Call)
    (now : Int) :
    ((isMemorySpike a).1 = F32.gt a.latestMemory.usagePercentage a.memoryThreshold ∧
      (isCpuSpike a).1 = F32.gt a.latestCpu.cpuUsagePercentage a.cpuThreshold) ∧
    (a.latestMemory.usagePercentage = F32.fin x → a.memoryThreshold = F32.fin y →
      ((isMemorySpike a).1 = true ↔ y < x)) ∧
    (a.latestCpu.cpuUsagePercentage = F32.fin x → a.cpuThreshold = F32.fin y →
      ((isCpuSpike a).1 = true ↔ y < x)) ∧
    (a.latestMemory.usagePercentage = a.memoryThreshold → (isMemorySpike a).1 = false) ∧
    (a.latestCpu.cpuUsagePercentage = a.cpuThreshold → (isCpuSpike a).1 = false) ∧
    ((isMemorySpike a).2 = a ∧ (isCpuSpike a).2 = a) ∧
    (init.memoryThreshold = F32.fin 80 ∧ init.cpuThreshold = F32.fin 90) ∧
    ((∀ c ∈ calls, c.setsThreshold = false) →
      (run init calls).memoryThreshold = F32.fin 80 ∧
      (run init calls).cpuThreshold = F32.fin 90) ∧
    ((setMemoryThresholdPercentage t a).memoryThreshold = t ∧
      (setCpuThresholdPercentage t a).cpuThreshold = t) ∧
    (isMemorySpike (recordMemoryMetrics now 1000 850 150 init)).1 = true := by
  refine ⟨⟨rfl, rfl⟩, ?_, ?_, ?_, ?_, ⟨rfl, rfl⟩, ⟨rfl, rfl⟩, ?_, ⟨rfl, rfl⟩, ?_⟩
  · intro hx hy
    simp only [isMemorySpike, hx, hy]
    exact gt_fin x y
  · intro hx hy
    simp only [isCpuSpike, hx, hy]
    exact gt_fin x y
  · intro h
    simp only [isMemorySpike, h]
    exact gt_self _
  · intro h
    simp only [isCpuSpike, h]
    exact gt_self _
  · intro h
    exact run_thresholds calls init h
  · have hu : (recordMemoryMetrics now 1000 850 150 init).latestMemory.usagePercentage
        = F32.fin 85 := memoryUsagePercentage_1000_850
    have ht : (recordMemoryMetrics now 1000 850 150 init).memoryThreshold = F32.fin 80 := rfl
    simp only [isMemorySpike, hu, ht]
    exact (gt_fin 85 80).mpr (by norm_num)

/-- C10 at concrete inputs: memory usage 85 against threshold 80 and CPU usage
95 against threshold 90 are spikes; memory usage 85 against threshold 85 and
CPU usage 90 against threshold 90 are not; recordings and a reset leave the
thresholds at 80 and 90. -/
theorem spike_predicates_witness :
    ((recordMemoryMetrics 7 1000 850 150 init).latestMemory.usagePercentage = F32.fin 85 ∧
      (recordMemoryMetrics 7 1000 850 150 init).memoryThreshold = F32.fin 80 ∧
      ((isMemorySpike (recordMemoryMetrics 7 1000 850 150 init)).1 = true ↔
        (80 : ℚ) < 85)) ∧
    ((recordCpuMetrics 7 (F32.fin 95) 8 init).latestCpu.cpuUsagePercentage = F32.fin 95 ∧
      (recordCpuMetrics 7 (F32.fin 95) 8 init).cpuThreshold = F32.fin 90 ∧
      ((isCpuSpike (recordCpuMetrics 7 (F32.fin 95) 8 init)).1 = true ↔ (90 : ℚ) < 95)) ∧
    ((setMemoryThresholdPercentage (F32.fin 85)
          (recordMemoryMetrics 7 1000 850 150 init)).latestMemory.usagePercentage =
        (setMemoryThresholdPercentage (F32.fin 85)
          (recordMemoryMetrics 7 1000 850 150 init)).memoryThreshold ∧
      (isMemorySpike (setMemoryThresholdPercentage (F32.fin 85)
          (recordMemoryMetrics 7 1000 850 150 init))).1 = false) ∧
    ((recordCpuMetrics 7 (F32.fin 90) 8 init).latestCpu.cpuUsagePercentage =
        (recordCpuMetrics 7 (F32.fin 90) 8 init).cpuThreshold ∧
      (isCpuSpike (recordCpuMetrics 7 (F32.fin 90) 8 init)).1 = false) ∧
    ((∀ c ∈ [Call.recordMemoryMetrics 7 1000 850 150, Call.recordCpuMetrics 8 (F32.fin 95) 8,
          Call.reset], c.setsThreshold = false) ∧
      (run init [Call.recordMemoryMetrics 7 1000 850 150, Call.recordCpuMetrics 8 (F32.fin 95) 8,
          Call.reset]).memoryThreshold = F32.fin 80 ∧
      (run init [Call.recordMemoryMetrics 7 1000 850 150, Call.recordCpuMetrics 8 (F32.fin 95) 8,
          Call.reset]).cpuThreshold = F32.fin 90) := by
  have hu : (recordMemoryMetrics 7 1000 850 150 init).latestMemory.usagePercentage
      = F32.fin 85 := memoryUsagePercentage_1000_850
  have ht : (recordMemoryMetrics 7 1000 850 150 init).memoryThreshold = F32.fin 80 := rfl
  have hcu : (recordCpuMetrics 7 (F32.fin 95) 8 init).latestCpu.cpuUsagePercentage
      = F32.fin 95 := rfl
  have hct : (recordCpuMetrics 7 (F32.fin 95) 8 init).cpuThreshold = F32.fin 90 := rfl
  have heq : (setMemoryThresholdPercentage (F32.fin 85)
        (recordMemoryMetrics 7 1000 850 150 init)).latestMemory.usagePercentage =
      (setMemoryThresholdPercentage (F32.fin 85)
        (recordMemoryMetrics 7 1000 850 150 init)).memoryThreshold := hu
  have hceq : (recordCpuMetrics 7 (F32.fin 90) 8 init).latestCpu.cpuUsagePercentage =
      (recordCpuMetrics 7 (F32.fin 90) 8 init).cpuThreshold := rfl
  have hcalls : ∀ c ∈ [Call.recordMemoryMetrics 7 1000 850 150,
      Call.recordCpuMetrics 8 (F32.fin 95) 8, Call.reset], c.setsThreshold = false := by
    intro c hc
    simp only [List.mem_cons, List.mem_singleton, List.not_mem_nil, or_false] at hc
    rcases hc with rfl | rfl | rfl <;> rfl
  exact ⟨⟨hu, ht, (spike_predicates _ 85 80 (F32.fin 0) [] 0).2.1 hu ht⟩,
    ⟨hcu, hct, (spike_predicates _ 95 90 (F32.fin 0) [] 0).2.2.1 hcu hct⟩,
    ⟨heq, (spike_predicates _ 0 0 (F32.fin 0) [] 0).2.2.2.1 heq⟩,
    ⟨hceq, (spike_predicates _ 0 0 (F32.fin 0) [] 0).2.2.2.2.1 hceq⟩,
    ⟨hcalls, (spike_predicates init 0 0 (F32.fin 0) _ 0).2.2.2.2.2.2.2.1 hcalls⟩⟩

end MetricsAggregator

end metrics

namespace metrics

namespace F32

/-! ## Exact conversions and truncation -/

/-- A natural number below `2 ^ 24` converts to `float` without rounding. -/
theorem ofRat_natCast (n : Nat) (h : n < 2 ^ 24) : ofRat (n : ℚ) = fin n := by
  rcases Nat.eq_zero_or_pos n with h0 | hpos
  · subst h0
    simp [ofRat]
  have hq : (0 : ℚ) < (n : ℚ) := by exact_mod_cast hpos
  have hq0 : (n : ℚ) ≠ 0 := ne_of_gt hq
  have hnum : ((n : ℚ)).num.natAbs = n := by simp
  have hden : ((n : ℚ)).den = 1 := by simp
  have hmin : (2 : ℚ) ^ (-126 : Int) ≤ (n : ℚ) / (1 : Nat) := by
    have h1 : (1 : ℚ) ≤ n := by exact_mod_cast hpos
    have h2 : (2 : ℚ) ^ (-126 : Int) ≤ 1 := by
      rw [zpow_neg, ← one_div]
      rw [div_le_one (by positivity)]
      norm_cast
    simpa using le_trans h2 h1
  have herr := roundCore_error n 1 Nat.one_pos
  have hulp := roundCore_ulp_le n 1 hpos Nat.one_pos hmin
  generalize hmk : roundCore n 1 = mk at herr hulp
  simp only [Nat.cast_one, div_one] at herr hulp
  -- the exponent of the last kept bit is not positive
  have hk : mk.2 ≤ 0 := by
    by_contra hc
    have hc' : 1 ≤ mk.2 := by omega
    have h24 : (2 : ℚ) ^ ((24 : Nat) : Int) ≤ (2 : ℚ) ^ (mk.2 + 23) :=
      zpow_le_zpow_right₀ (by norm_num) (by omega)
    rw [zpow_natCast] at h24
    have hn24 : (n : ℚ) < 2 ^ 24 := by exact_mod_cast h
    linarith
  obtain ⟨j, hj⟩ : ∃ j : Nat, mk.2 = -(j : Int) := ⟨(-mk.2).toNat, by omega⟩
  have hpow : (2 : ℚ) ^ mk.2 = 1 / 2 ^ j := by
    rw [hj, zpow_neg, zpow_natCast, one_div]
  have h2j : (0 : ℚ) < 2 ^ j := by positivity
  rw [hpow] at herr
  -- scale by `2 ^ j`: two integers at distance at most one half
  have hint : |((mk.1 : Int) - (n : Int) * 2 ^ j : Int)| < 1 := by
    have hscaled : |(mk.1 : ℚ) - (n : ℚ) * 2 ^ j| ≤ 1 / 2 := by
      have : (mk.1 : ℚ) - (n : ℚ) * 2 ^ j = ((mk.1 : ℚ) * (1 / 2 ^ j) - n) * 2 ^ j := by
        field_simp
        ring
      rw [this, abs_mul, abs_of_pos h2j]
      calc |(mk.1 : ℚ) * (1 / 2 ^ j) - n| * 2 ^ j ≤ (1 / 2 ^ j / 2) * 2 ^ j :=
            mul_le_mul_of_nonneg_right herr (le_of_lt h2j)
        _ = 1 / 2 := by field_simp
    have hlt1 : |(mk.1 : ℚ) - (n : ℚ) * 2 ^ j| < 1 := by
      have : (1 / 2 : ℚ) < 1 := by norm_num
      linarith
    exact_mod_cast hlt1
  have hz : (mk.1 : Int) - (n : Int) * 2 ^ j = 0 := Int.abs_lt_one_iff.mp hint
  have hval : (mk.1 : ℚ) * (1 / 2 ^ j) = n := by
    have : (mk.1 : ℚ) = (n : ℚ) * 2 ^ j := by
      have : (mk.1 : Int) = (n : Int) * 2 ^ j := by omega
      exact_mod_cast this
    rw [this]
    field_simp
  have hlt : ¬ ((mk.1 : ℚ) * (2 : ℚ) ^ mk.2 ≥ 2 ^ 128) := by
    rw [hpow, hval, not_le]
    have : (n : ℚ) < ((2 ^ 24 : Nat) : ℚ) := by exact_mod_cast h
    have h2 : (((2 ^ 24 : Nat) : ℚ)) < 2 ^ 128 := by norm_num
    linarith
  have hneg : ¬ ((n : ℚ) < 0) := not_lt.mpr (le_of_lt hq)
  simp only [ofRat, hq0, if_false, hnum, hden, hmk, hlt, hneg]
  rw [hpow, hval]

/-- An `int` in `[0, 2 ^ 24)` converts to `float` without rounding. -/
theorem ofInt_exact (n : Int) (h0 : 0 ≤ n) (h : n < 2 ^ 24) : ofInt n = fin n := by
  obtain ⟨k, rfl⟩ := Int.eq_ofNat_of_zero_le h0
  have hk : k < 2 ^ 24 := by exact_mod_cast h
  simpa [ofInt] using ofRat_natCast k hk

theorem toInt_fin_nonneg (q : ℚ) (h : 0 ≤ q) : toInt (fin q) = ⌊q⌋ := by
  simp [toInt, not_lt.mpr h]

theorem small_le_two_pow (x : ℚ) (h : 1 / 2 ^ 32 ≤ x) : (2 : ℚ) ^ (-126 : Int) ≤ x := by
  have : (2 : ℚ) ^ (-126 : Int) ≤ 1 / 2 ^ 32 := by
    rw [zpow_neg, ← one_div]
    apply one_div_le_one_div_of_le (by positivity)
    norm_cast
  exact le_trans this h

theorem one_add_tight (δ : ℚ) (h : |δ| ≤ 1 / 2 ^ 22) : 3 / 4 ≤ 1 + δ ∧ 1 + δ ≤ 5 / 4 := by
  have := abs_le.mp h
  constructor
  · have : (-(1 / 2 ^ 22) : ℚ) ≥ -(1 / 4) := by norm_num
    linarith
  · have : ((1 / 2 ^ 22) : ℚ) ≤ 1 / 4 := by norm_num
    linarith

/-- Two magnitudes below `2 ^ 16` whose ratio is within `2 ^ (-22)` relative
error of 1 on both sides differ by at most 3/64. -/
theorem ratio_close (X v d1 d2 : ℚ) (hX0 : 0 ≤ X) (hv0 : 0 ≤ v)
    (h : X * (1 + d1) = v * (1 + d2)) (hd1 : |d1| ≤ 1 / 2 ^ 22) (hd2 : |d2| ≤ 1 / 2 ^ 22)
    (hXb : X ≤ 2 ^ 16) : |X - v| ≤ 3 / 64 := by
  have b1 := one_add_tight d1 hd1
  have b2 := one_add_tight d2 hd2
  have a1 := abs_le.mp hd1
  have a2 := abs_le.mp hd2
  -- v ≤ 2 X
  have hv2 : v ≤ 2 * X := by
    have h1 : v * (3 / 4) ≤ v * (1 + d2) := mul_le_mul_of_nonneg_left b2.1 hv0
    have h2 : X * (1 + d1) ≤ X * (5 / 4) := mul_le_mul_of_nonneg_left b1.2 hX0
    linarith
  have hdiff : X - v = v * d2 - X * d1 := by linarith
  have hvd : |v * d2| ≤ 2 * X * (1 / 2 ^ 22) := by
    rw [abs_mul, abs_of_nonneg hv0]
    exact mul_le_mul hv2 hd2 (abs_nonneg _) (by linarith)
  have hxd : |X * d1| ≤ X * (1 / 2 ^ 22) := by
    rw [abs_mul, abs_of_nonneg hX0]
    exact mul_le_mul_of_nonneg_left hd1 hX0
  have c1 := abs_le.mp hvd
  have c2 := abs_le.mp hxd
  have hsmall : 3 * X * (1 / 2 ^ 22) ≤ 3 / 64 := by
    have : 3 * X * (1 / 2 ^ 22) ≤ 3 * 2 ^ 16 * (1 / 2 ^ 22) := by
      apply mul_le_mul_of_nonneg_right _ (by positivity)
      linarith
    have h2 : (3 : ℚ) * 2 ^ 16 * (1 / 2 ^ 22) = 3 / 64 := by norm_num
    linarith
  rw [hdiff, abs_le]
  constructor <;> linarith [c1.1, c1.2, c2.1, c2.2]

theorem two_roundings (d1 d3 : ℚ) (h1 : |d1| ≤ 1 / 2 ^ 24) (h3 : |d3| ≤ 1 / 2 ^ 24) :
    |d1 + d3 + d1 * d3| ≤ 1 / 2 ^ 22 := by
  have a1 := abs_le.mp h1
  have a3 := abs_le.mp h3
  have p : |d1 * d3| ≤ 1 / 2 ^ 24 * (1 / 2 ^ 24) := by
    rw [abs_mul]; exact mul_le_mul h1 h3 (abs_nonneg _) (by positivity)
  have b := abs_le.mp p
  have hn : (1 : ℚ) / 2 ^ 24 + 1 / 2 ^ 24 + 1 / 2 ^ 24 * (1 / 2 ^ 24) ≤ 1 / 2 ^ 22 := by norm_num
  rw [abs_le]
  constructor <;> linarith [b.1, b.2]

theorem one_roundings (d : ℚ) (h : |d| ≤ 1 / 2 ^ 24) : |d| ≤ 1 / 2 ^ 22 :=
  le_trans h (by norm_num)

/-! ## Signs -/

/-- A rational that is not negative does not round to a negative `float`. -/
theorem ofRat_not_neg (q : ℚ) (h : 0 ≤ q) : gt (fin 0) (ofRat q) = false := by
  have hq : ¬ q < 0 := not_lt.mpr h
  have hm : (0 : ℚ) ≤ ((roundCore q.num.natAbs q.den).1 : ℚ)
      * (2 : ℚ) ^ (roundCore q.num.natAbs q.den).2 := by positivity
  unfold ofRat
  by_cases h0 : q = 0
  · simp [h0, gt]
  · simp only [if_neg h0, if_neg hq]
    split_ifs
    · simp [gt, hq]
    · simpa [gt] using hm

/-- A rational that is not positive does not round to a positive `float`. -/
theorem ofRat_not_pos (q : ℚ) (h : q ≤ 0) : gt (ofRat q) (fin 0) = false := by
  have hm : (0 : ℚ) ≤ ((roundCore q.num.natAbs q.den).1 : ℚ)
      * (2 : ℚ) ^ (roundCore q.num.natAbs q.den).2 := by positivity
  unfold ofRat
  by_cases h0 : q = 0
  · simp [h0, gt]
  · have hq : q < 0 := lt_of_le_of_ne h h0
    simp only [if_neg h0, if_pos hq]
    split_ifs
    · simp [gt, hq]
    · simpa [gt] using hm

/-- A quotient of two values that are not negative is not negative. -/
theorem div_not_neg (a b : F32) (ha : gt (fin 0) a = false) (hb : gt (fin 0) b = false) :
    gt (fin 0) (div a b) = false := by
  cases a with
  | nan => simp [div, gt]
  | inf s =>
    cases b with
    | nan => simp [div, gt]
    | inf t => simp [div, gt]
    | fin y =>
      simp only [gt, decide_eq_false_iff_not, not_lt, gt_iff_lt] at ha hb
      have : ¬ y < 0 := not_lt.mpr hb
      simp [div, gt, ha, this]
  | fin x =>
    cases b with
    | nan => simp [div, gt]
    | inf t => simp [div, gt]
    | fin y =>
      simp only [gt, decide_eq_false_iff_not, not_lt, gt_iff_lt] at ha hb
      simp only [div]
      split_ifs with hy hx
      · simp [gt]
      · have : ¬ x < 0 := not_lt.mpr ha
        simp [gt, this]
      · exact ofRat_not_neg _ (div_nonneg ha hb)

/-- A value that is not positive over one that is not negative is not positive. -/
theorem div_not_pos (a b : F32) (ha : gt a (fin 0) = false) (hb : gt (fin 0) b = false) :
    gt (div a b) (fin 0) = false := by
  cases a with
  | nan => simp [div, gt]
  | inf s =>
    cases b with
    | nan => simp [div, gt]
    | inf t => simp [div, gt]
    | fin y =>
      simp only [gt, decide_eq_false_iff_not, not_lt, gt_iff_lt] at hb
      simp only [gt, Bool.not_eq_false'] at ha
      have : ¬ y < 0 := not_lt.mpr hb
      simp [div, gt, ha, this]
  | fin x =>
    cases b with
    | nan => simp [div, gt]
    | inf t => simp [div, gt]
    | fin y =>
      simp only [gt, decide_eq_false_iff_not, not_lt, gt_iff_lt] at ha hb
      simp only [div]
      split_ifs with hy hx
      · simp [gt]
      · have : x < 0 := lt_of_le_of_ne ha hx
        simp [gt, this]
      · exact ofRat_not_pos _ (div_nonpos_of_nonpos_of_nonneg ha hb)

/-- A product of two values that are not negative is not negative. -/
theorem mul_not_neg (a b : F32) (ha : gt (fin 0) a = false) (hb : gt (fin 0) b = false) :
    gt (fin 0) (mul a b) = false := by
  cases a with
  | nan => simp [mul, gt]
  | inf s =>
    cases b with
    | nan => simp [mul, gt]
    | inf t =>
      simp only [gt] at ha hb
      simp [mul, gt, ha, hb]
    | fin y =>
      simp only [gt, decide_eq_false_iff_not, not_lt, gt_iff_lt] at ha hb
      have : ¬ y < 0 := not_lt.mpr hb
      simp only [mul]
      split_ifs
      · simp [gt]
      · simp [gt, ha, this]
  | fin x =>
    cases b with
    | nan => simp [mul, gt]
    | inf t =>
      simp only [gt, decide_eq_false_iff_not, not_lt, gt_iff_lt] at ha hb
      have : ¬ x < 0 := not_lt.mpr ha
      simp only [mul]
      split_ifs
      · simp [gt]
      · simp [gt, hb, this]
    | fin y =>
      simp only [gt, decide_eq_false_iff_not, not_lt, gt_iff_lt] at ha hb
      exact ofRat_not_neg _ (mul_nonneg ha hb)

/-- A value that is not positive times one that is not negative is not positive. -/
theorem mul_not_pos (a b : F32) (ha : gt a (fin 0) = false) (hb : gt (fin 0) b = false) :
    gt (mul a b) (fin 0) = false := by
  cases a with
  | nan => simp [mul, gt]
  | inf s =>
    cases b with
    | nan => simp [mul, gt]
    | inf t =>
      simp only [gt, Bool.not_eq_false'] at ha hb
      simp [mul, gt, ha, hb]
    | fin y =>
      simp only [gt, decide_eq_false_iff_not, not_lt, gt_iff_lt] at hb
      simp only [gt, Bool.not_eq_false'] at ha
      have : ¬ y < 0 := not_lt.mpr hb
      simp only [mul]
      split_ifs
      · simp [gt]
      · simp [gt, ha, this]
  | fin x =>
    cases b with
    | nan => simp [mul, gt]
    | inf t =>
      simp only [gt, decide_eq_false_iff_not, not_lt, gt_iff_lt] at ha hb
      simp only [mul]
      split_ifs with hx
      · simp [gt]
      · have : x < 0 := lt_of_le_of_ne ha hx
        simp [gt, hb, this]
    | fin y =>
      simp only [gt, decide_eq_false_iff_not, not_lt, gt_iff_lt] at ha hb
      exact ofRat_not_pos _ (mul_nonpos_of_nonpos_of_nonneg ha hb)

/-- Truncating a value that is not negative gives an integer that is not negative. -/
theorem toInt_nonneg (v : F32) (h : gt (fin 0) v = false) : 0 ≤ toInt v := by
  cases v with
  | nan => simp [toInt]
  | inf s => simp [toInt]
  | fin x =>
    simp only [gt, decide_eq_false_iff_not, not_lt, gt_iff_lt] at h
    rw [toInt_fin_nonneg _ h]
    exact Int.floor_nonneg.mpr h

/-- Truncating a value that is not positive gives an integer that is not positive. -/
theorem toInt_nonpos (v : F32) (h : gt v (fin 0) = false) : toInt v ≤ 0 := by
  cases v with
  | nan => simp [toInt]
  | inf s => simp [toInt]
  | fin x =>
    simp only [gt, decide_eq_false_iff_not, not_lt, gt_iff_lt] at h
    simp only [toInt]
    split_ifs with hx
    · have : 0 ≤ ⌊-x⌋ := Int.floor_nonneg.mpr (by linarith)
      omega
    · have : x = 0 := le_antisymm h (not_lt.mp hx)
      subst this
      simp

end F32

end metrics

namespace metrics

namespace ImageProcessor

/-! ## Image processor -/

/-- The shape of the target dimensions for sizes up to `2 ^ 15`: every `float`
operation is the exact operation times `1 + δ` with `|δ| ≤ 2 ^ (-24)`. -/
theorem targetDimensions_factor (config : ProcessingConfig) (width height : Int)
    (hw : 1 ≤ width) (hw' : width ≤ 2 ^ 15) (hh : 1 ≤ height) (hh' : height ≤ 2 ^ 15)
    (htw : 1 ≤ config.targetWidth) (htw' : config.targetWidth ≤ 2 ^ 15)
    (hth : 1 ≤ config.targetHeight) (hth' : config.targetHeight ≤ 2 ^ 15) :
    ∃ d1 d2 d3 : ℚ, |d1| ≤ 1 / 2 ^ 24 ∧ |d2| ≤ 1 / 2 ^ 24 ∧ |d3| ≤ 1 / 2 ^ 24 ∧
      targetDimensions config width height =
        if ⌊(config.targetWidth : ℚ) / ((width : ℚ) / height * (1 + d1)) * (1 + d2)⌋
            > config.targetHeight then
          (⌊(config.targetHeight : ℚ) * ((width : ℚ) / height * (1 + d1)) * (1 + d3)⌋,
            config.targetHeight)
        else
          (config.targetWidth,
            ⌊(config.targetWidth : ℚ) / ((width : ℚ) / height * (1 + d1)) * (1 + d2)⌋) := by
  have hwq : (1 : ℚ) ≤ (width : ℚ) := by exact_mod_cast hw
  have hwq' : (width : ℚ) ≤ 2 ^ 15 := by exact_mod_cast hw'
  have hhq : (1 : ℚ) ≤ (height : ℚ) := by exact_mod_cast hh
  have hhq' : (height : ℚ) ≤ 2 ^ 15 := by exact_mod_cast hh'
  have htq : (1 : ℚ) ≤ (config.targetWidth : ℚ) := by exact_mod_cast htw
  have htq' : (config.targetWidth : ℚ) ≤ 2 ^ 15 := by exact_mod_cast htw'
  have hsq : (1 : ℚ) ≤ (config.targetHeight : ℚ) := by exact_mod_cast hth
  have hsq' : (config.targetHeight : ℚ) ≤ 2 ^ 15 := by exact_mod_cast hth'
  have hwpos : (0 : ℚ) < (width : ℚ) := by linarith
  have hhpos : (0 : ℚ) < (height : ℚ) := by linarith
  have htpos : (0 : ℚ) < (config.targetWidth : ℚ) := by linarith
  have hspos : (0 : ℚ) < (config.targetHeight : ℚ) := by linarith
  -- the conversions are exact
  have ew := F32.ofInt_exact width (by omega) (by omega)
  have eh := F32.ofInt_exact height (by omega) (by omega)
  have et := F32.ofInt_exact config.targetWidth (by omega) (by omega)
  have es := F32.ofInt_exact config.targetHeight (by omega) (by omega)
  -- the aspect ratio
  have hr_lo : (1 : ℚ) / 2 ^ 15 ≤ (width : ℚ) / height := by
    rw [div_le_div_iff₀ (by positivity) hhpos]
    nlinarith
  have hr_hi : (width : ℚ) / height ≤ 2 ^ 15 := by
    rw [div_le_iff₀ hhpos]
    nlinarith
  have hrpos : (0 : ℚ) < (width : ℚ) / height := div_pos hwpos hhpos
  obtain ⟨d1, hd1, hf1⟩ := F32.ofRat_factor ((width : ℚ) / height)
    (by rw [abs_of_pos hrpos]
        exact F32.small_le_two_pow _ (le_trans (by norm_num) hr_lo))
    (by rw [abs_of_pos hrpos]
        exact le_trans hr_hi (by norm_num))
  have hb1 := F32.abs_one_add_bounds d1 hd1
  have hapos : (0 : ℚ) < (width : ℚ) / height * (1 + d1) :=
    mul_pos hrpos (by linarith [hb1.1])
  have ha_lo : (1 : ℚ) / 2 ^ 16 ≤ (width : ℚ) / height * (1 + d1) := by
    calc (1 : ℚ) / 2 ^ 16 = 1 / 2 ^ 15 * (1 / 2) := by norm_num
      _ ≤ (width : ℚ) / height * (1 + d1) :=
          mul_le_mul hr_lo hb1.1 (by norm_num) (le_of_lt hrpos)
  have ha_hi : (width : ℚ) / height * (1 + d1) ≤ 2 ^ 16 := by
    calc (width : ℚ) / height * (1 + d1) ≤ 2 ^ 15 * 2 :=
          mul_le_mul hr_hi hb1.2 (by linarith [hb1.1]) (by positivity)
      _ = 2 ^ 16 := by norm_num
  have hane : (width : ℚ) / height * (1 + d1) ≠ 0 := ne_of_gt hapos
  -- the width-first candidate
  have hx_lo : (1 : ℚ) / 2 ^ 16 ≤ (config.targetWidth : ℚ) / ((width : ℚ) / height * (1 + d1)) := by
    rw [div_le_div_iff₀ (by positivity) hapos]
    nlinarith
  have hx_hi : (config.targetWidth : ℚ) / ((width : ℚ) / height * (1 + d1)) ≤ 2 ^ 31 := by
    rw [div_le_iff₀ hapos]
    calc (config.targetWidth : ℚ) ≤ 2 ^ 15 := htq'
      _ = 2 ^ 31 * (1 / 2 ^ 16) := by norm_num
      _ ≤ 2 ^ 31 * ((width : ℚ) / height * (1 + d1)) :=
          mul_le_mul_of_nonneg_left ha_lo (by positivity)
  have hxpos : (0 : ℚ) < (config.targetWidth : ℚ) / ((width : ℚ) / height * (1 + d1)) :=
    div_pos htpos hapos
  obtain ⟨d2, hd2, hf2⟩ := F32.ofRat_factor
    ((config.targetWidth : ℚ) / ((width : ℚ) / height * (1 + d1)))
    (by rw [abs_of_pos hxpos]
        exact F32.small_le_two_pow _ (le_trans (by norm_num) hx_lo))
    (by rw [abs_of_pos hxpos]
        exact le_trans hx_hi (by norm_num))
  have hb2 := F32.abs_one_add_bounds d2 hd2
  -- the height-first candidate
  have hypos : (0 : ℚ) < (config.targetHeight : ℚ) * ((width : ℚ) / height * (1 + d1)) :=
    mul_pos hspos hapos
  have hy_lo : (1 : ℚ) / 2 ^ 16
      ≤ (config.targetHeight : ℚ) * ((width : ℚ) / height * (1 + d1)) := by
    calc (1 : ℚ) / 2 ^ 16 = 1 * (1 / 2 ^ 16) := by ring
      _ ≤ (config.targetHeight : ℚ) * ((width : ℚ) / height * (1 + d1)) :=
          mul_le_mul hsq ha_lo (by positivity) (le_of_lt hspos)
  have hy_hi : (config.targetHeight : ℚ) * ((width : ℚ) / height * (1 + d1)) ≤ 2 ^ 31 := by
    calc (config.targetHeight : ℚ) * ((width : ℚ) / height * (1 + d1)) ≤ 2 ^ 15 * 2 ^ 16 :=
          mul_le_mul hsq' ha_hi (le_of_lt hapos) (by positivity)
      _ = 2 ^ 31 := by norm_num
  obtain ⟨d3, hd3, hf3⟩ := F32.ofRat_factor
    ((config.targetHeight : ℚ) * ((width : ℚ) / height * (1 + d1)))
    (by rw [abs_of_pos hypos]
        exact F32.small_le_two_pow _ (le_trans (by norm_num) hy_lo))
    (by rw [abs_of_pos hypos]
        exact le_trans hy_hi (by norm_num))
  have hb3 := F32.abs_one_add_bounds d3 hd3
  refine ⟨d1, d2, d3, hd1, hd2, hd3, ?_⟩
  have hhne : (height : ℚ) ≠ 0 := ne_of_gt hhpos
  have hxnn : (0 : ℚ) ≤ (config.targetWidth : ℚ) / ((width : ℚ) / height * (1 + d1)) * (1 + d2) :=
    le_of_lt (mul_pos hxpos (by linarith [hb2.1]))
  have hynn : (0 : ℚ) ≤ (config.targetHeight : ℚ) * ((width : ℚ) / height * (1 + d1)) * (1 + d3) :=
    le_of_lt (mul_pos hypos (by linarith [hb3.1]))
  simp only [targetDimensions, ew, eh, et, es, F32.div, F32.mul, hhne, if_false, hf1, hane, hf2,
    hf3, F32.toInt_fin_nonneg _ hxnn, F32.toInt_fin_nonneg _ hynn]

/-- For sizes up to `2 ^ 15` the target dimensions are either the configured
width with a height within `1 + 3/64` of `targetWidth * height / width`, or
the configured height with a width within `1 + 3/64` of
`targetHeight * width / height`; both fit the configured box. -/
theorem targetDimensions_close (config : ProcessingConfig) (width height : Int)
    (hw : 1 ≤ width) (hw' : width ≤ 2 ^ 15) (hh : 1 ≤ height) (hh' : height ≤ 2 ^ 15)
    (htw : 1 ≤ config.targetWidth) (htw' : config.targetWidth ≤ 2 ^ 15)
    (hth : 1 ≤ config.targetHeight) (hth' : config.targetHeight ≤ 2 ^ 15) :
    ((targetDimensions config width height).1 = config.targetWidth ∧
      0 ≤ (targetDimensions config width height).2 ∧
      (targetDimensions config width height).2 ≤ config.targetHeight ∧
      (config.targetWidth : ℚ) * height / width - 1 - 3 / 64
        < ((targetDimensions config width height).2 : ℚ) ∧
      ((targetDimensions config width height).2 : ℚ)
        ≤ (config.targetWidth : ℚ) * height / width + 3 / 64) ∨
    ((targetDimensions config width height).2 = config.targetHeight ∧
      0 ≤ (targetDimensions config width height).1 ∧
      (targetDimensions config width height).1 ≤ config.targetWidth ∧
      (config.targetHeight : ℚ) * width / height - 1 - 3 / 64
        < ((targetDimensions config width height).1 : ℚ) ∧
      ((targetDimensions config width height).1 : ℚ)
        ≤ (config.targetHeight : ℚ) * width / height + 3 / 64) := by
  obtain ⟨d1, d2, d3, hd1, hd2, hd3, heq⟩ :=
    targetDimensions_factor config width height hw hw' hh hh' htw htw' hth hth'
  have hwq : (1 : ℚ) ≤ (width : ℚ) := by exact_mod_cast hw
  have hhq : (1 : ℚ) ≤ (height : ℚ) := by exact_mod_cast hh
  have htq : (1 : ℚ) ≤ (config.targetWidth : ℚ) := by exact_mod_cast htw
  have htq' : (config.targetWidth : ℚ) ≤ 2 ^ 15 := by exact_mod_cast htw'
  have hsq : (1 : ℚ) ≤ (config.targetHeight : ℚ) := by exact_mod_cast hth
  have hsq' : (config.targetHeight : ℚ) ≤ 2 ^ 15 := by exact_mod_cast hth'
  have hwpos : (0 : ℚ) < (width : ℚ) := by linarith
  have hhpos : (0 : ℚ) < (height : ℚ) := by linarith
  have htpos : (0 : ℚ) < (config.targetWidth : ℚ) := by linarith
  have hspos : (0 : ℚ) < (config.targetHeight : ℚ) := by linarith
  have e1 := F32.one_roundings d1 hd1
  have e2 := F32.one_roundings d2 hd2
  have e3 := F32.one_roundings d3 hd3
  have b1 := F32.one_add_tight d1 e1
  have b2 := F32.one_add_tight d2 e2
  have b3 := F32.one_add_tight d3 e3
  have h1pos : (0 : ℚ) < 1 + d1 := by linarith [b1.1]
  have h2pos : (0 : ℚ) < 1 + d2 := by linarith [b2.1]
  have h3pos : (0 : ℚ) < 1 + d3 := by linarith [b3.1]
  have hrpos : (0 : ℚ) < (width : ℚ) / height := div_pos hwpos hhpos
  have hapos : (0 : ℚ) < (width : ℚ) / height * (1 + d1) := mul_pos hrpos h1pos
  -- names for the two rounded candidates
  obtain ⟨X, hX⟩ : ∃ X : ℚ,
      X = (config.targetWidth : ℚ) / ((width : ℚ) / height * (1 + d1)) * (1 + d2) := ⟨_, rfl⟩
  obtain ⟨Y, hY⟩ : ∃ Y : ℚ,
      Y = (config.targetHeight : ℚ) * ((width : ℚ) / height * (1 + d1)) * (1 + d3) := ⟨_, rfl⟩
  rw [← hX, ← hY] at heq
  have hXpos : 0 < X := by
    rw [hX]; exact mul_pos (div_pos htpos hapos) h2pos
  have hYpos : 0 < Y := by
    rw [hY]; exact mul_pos (mul_pos hspos hapos) h3pos
  have hXv : X * (1 + d1) = (config.targetWidth : ℚ) * height / width * (1 + d2) := by
    rw [hX]
    field_simp
    ring
  have hYu : Y * (1 + 0) = (config.targetHeight : ℚ) * width / height
      * (1 + (d1 + d3 + d1 * d3)) := by
    rw [hY]
    field_simp
    ring
  by_cases hc : ⌊X⌋ > config.targetHeight
  · -- height-first
    right
    rw [heq, if_pos hc]
    have hXge : (config.targetHeight : ℚ) + 1 ≤ X := by
      have h1 : config.targetHeight + 1 ≤ ⌊X⌋ := by omega
      have h2 : ((config.targetHeight + 1 : Int) : ℚ) ≤ X :=
        le_trans (by exact_mod_cast h1) (Int.floor_le X)
      simpa using h2
    -- (th + 1) * a ≤ tw * (1 + d2)
    have hmul : ((config.targetHeight : ℚ) + 1) * ((width : ℚ) / height * (1 + d1))
        ≤ (config.targetWidth : ℚ) * (1 + d2) := by
      have := mul_le_mul_of_nonneg_right hXge (le_of_lt hapos)
      have hXa : X * ((width : ℚ) / height * (1 + d1)) = (config.targetWidth : ℚ) * (1 + d2) := by
        rw [hX]
        field_simp
        ring
      linarith
    have h23 := F32.two_roundings d2 d3 hd2 hd3
    have h23' := abs_le.mp h23
    have hprod : (config.targetHeight : ℚ) * ((1 + d3) * (1 + d2))
        ≤ (config.targetHeight : ℚ) + 1 := by
      have hexp : (1 + d3) * (1 + d2) = 1 + (d2 + d3 + d2 * d3) := by ring
      rw [hexp]
      have : (config.targetHeight : ℚ) * (d2 + d3 + d2 * d3)
          ≤ (config.targetHeight : ℚ) * (1 / 2 ^ 22) :=
        mul_le_mul_of_nonneg_left h23'.2 (le_of_lt hspos)
      have h2 : (config.targetHeight : ℚ) * (1 / 2 ^ 22) ≤ 2 ^ 15 * (1 / 2 ^ 22) :=
        mul_le_mul_of_nonneg_right hsq' (by positivity)
      have h3 : (2 : ℚ) ^ 15 * (1 / 2 ^ 22) ≤ 1 := by norm_num
      linarith
    have hYle : Y ≤ config.targetWidth := by
      have hth1 : (0 : ℚ) < (config.targetHeight : ℚ) + 1 := by linarith
      have hA : Y * ((config.targetHeight : ℚ) + 1)
          ≤ (config.targetWidth : ℚ) * ((config.targetHeight : ℚ) + 1) := by
        calc Y * ((config.targetHeight : ℚ) + 1)
            = (config.targetHeight : ℚ) * (1 + d3)
              * (((config.targetHeight : ℚ) + 1) * ((width : ℚ) / height * (1 + d1))) := by
              rw [hY]; ring
          _ ≤ (config.targetHeight : ℚ) * (1 + d3) * ((config.targetWidth : ℚ) * (1 + d2)) :=
              mul_le_mul_of_nonneg_left hmul (le_of_lt (mul_pos hspos h3pos))
          _ = (config.targetWidth : ℚ) * ((config.targetHeight : ℚ) * ((1 + d3) * (1 + d2))) := by
              ring
          _ ≤ (config.targetWidth : ℚ) * ((config.targetHeight : ℚ) + 1) :=
              mul_le_mul_of_nonneg_left hprod (le_of_lt htpos)
      exact le_of_mul_le_mul_right hA hth1
    have hclose := F32.ratio_close Y ((config.targetHeight : ℚ) * width / height) 0
      (d1 + d3 + d1 * d3) (le_of_lt hYpos) (by positivity) hYu (by simp)
      (F32.two_roundings d1 d3 hd1 hd3) (by linarith)
    have hcl := abs_le.mp hclose
    have hfl := Int.floor_le Y
    have hfl2 := Int.lt_floor_add_one Y
    refine ⟨rfl, Int.floor_nonneg.mpr (le_of_lt hYpos), ?_, ?_, ?_⟩
    · have : ((⌊Y⌋ : Int) : ℚ) ≤ ((config.targetWidth : Int) : ℚ) := le_trans hfl hYle
      exact_mod_cast this
    · show (config.targetHeight : ℚ) * width / height - 1 - 3 / 64 < ((⌊Y⌋ : Int) : ℚ)
      linarith [hcl.1]
    · show ((⌊Y⌋ : Int) : ℚ) ≤ (config.targetHeight : ℚ) * width / height + 3 / 64
      linarith [hcl.2]
  · -- width-first
    left
    rw [heq, if_neg hc]
    have hfl := Int.floor_le X
    have hfl2 := Int.lt_floor_add_one X
    have hle : ⌊X⌋ ≤ config.targetHeight := not_lt.mp hc
    have hXb : X ≤ 2 ^ 16 := by
      have h1 : ((⌊X⌋ : Int) : ℚ) ≤ ((config.targetHeight : Int) : ℚ) := by exact_mod_cast hle
      have h2 : (2 : ℚ) ^ 15 + 1 ≤ 2 ^ 16 := by norm_num
      linarith
    have hclose := F32.ratio_close X ((config.targetWidth : ℚ) * height / width) d1 d2
      (le_of_lt hXpos) (by positivity) hXv e1 e2 hXb
    have hcl := abs_le.mp hclose
    refine ⟨rfl, Int.floor_nonneg.mpr (le_of_lt hXpos), hle, ?_, ?_⟩
    · show (config.targetWidth : ℚ) * height / width - 1 - 3 / 64 < ((⌊X⌋ : Int) : ℚ)
      linarith [hcl.1]
    · show ((⌊X⌋ : Int) : ℚ) ≤ (config.targetWidth : ℚ) * height / width + 3 / 64
      linarith [hcl.2]

/-- An `int` expression whose exact value fits an `int` has that value. -/
theorem wrapInt_eq (v : Int) (hlo : -(2 ^ 31) ≤ v) (hhi : v < 2 ^ 31) : wrapInt v = v := by
  unfold wrapInt
  omega

/-- The two target dimensions never have opposite signs. -/
theorem targetDimensions_sign (config : ProcessingConfig) (width height : Int)
    (hw : 0 < width) (hh : 0 < height) :
    0 ≤ (targetDimensions config width height).1 * (targetDimensions config width height).2 := by
  have har : F32.gt (F32.fin 0) (F32.div (F32.ofInt width) (F32.ofInt height)) = false :=
    F32.div_not_neg _ _ (F32.ofRat_not_neg _ (by exact_mod_cast le_of_lt hw))
      (F32.ofRat_not_neg _ (by exact_mod_cast le_of_lt hh))
  simp only [targetDimensions]
  split_ifs with hc
  · simp only
    rcases le_total 0 config.targetHeight with h | h
    · exact mul_nonneg (F32.toInt_nonneg _ (F32.mul_not_neg _ _
        (F32.ofRat_not_neg _ (by exact_mod_cast h)) har)) h
    · exact mul_nonneg_of_nonpos_of_nonpos (F32.toInt_nonpos _ (F32.mul_not_pos _ _
        (F32.ofRat_not_pos _ (by exact_mod_cast h)) har)) h
  · simp only
    rcases le_total 0 config.targetWidth with h | h
    · exact mul_nonneg h (F32.toInt_nonneg _ (F32.div_not_neg _ _
        (F32.ofRat_not_neg _ (by exact_mod_cast h)) har))
    · exact mul_nonneg_of_nonpos_of_nonpos h (F32.toInt_nonpos _ (F32.div_not_pos _ _
        (F32.ofRat_not_pos _ (by exact_mod_cast h)) har))

end ImageProcessor

end metrics

/-! ## Loops that fill a buffer -/

theorem length_flatMap_range {α : Type} (s n : Nat) (blk : Nat → List α)
    (hblk : ∀ i, (blk i).length = s) : ((List.range n).flatMap blk).length = n * s := by
  induction n with
  | zero => simp
  | succ m ihm =>
    rw [List.range_succ, List.flatMap_append, List.length_append, ihm]
    simp [hblk, Nat.succ_mul]

/-- A loop that overwrites `n` consecutive blocks of `s` entries, starting at
`base`, leaves the entries before and after and replaces what is between by
the blocks in order. -/
theorem foldl_blocks {α : Type} (s n base : Nat) (g : Nat → List α → List α)
    (blk : Nat → List α) (hblk : ∀ i, (blk i).length = s)
    (hg : ∀ i (buf : List α), i < n → base + (i + 1) * s ≤ buf.length →
      g i buf = buf.take (base + i * s) ++ blk i ++ buf.drop (base + (i + 1) * s))
    (buf : List α) (h : base + n * s ≤ buf.length) :
    (List.range n).foldl (fun b i => g i b) buf =
      buf.take base ++ (List.range n).flatMap blk ++ buf.drop (base + n * s) := by
  induction n with
  | zero => simp
  | succ n ih =>
    have hn : base + n * s ≤ buf.length := by
      have : n * s ≤ (n + 1) * s := Nat.mul_le_mul_right s (Nat.le_succ n)
      omega
    have ih' := ih (fun i b hi hb => hg i b (Nat.lt_succ_of_lt hi) hb) hn
    rw [List.range_succ, List.foldl_append, List.foldl_cons, List.foldl_nil, ih']
    have hlenflat : ((List.range n).flatMap blk).length = n * s :=
      length_flatMap_range s n blk hblk
    have hlenB : (buf.take base ++ (List.range n).flatMap blk ++ buf.drop (base + n * s)).length
        = buf.length := by
      simp only [List.length_append, List.length_take, List.length_drop, hlenflat]
      omega
    have hpre : (buf.take base ++ (List.range n).flatMap blk).length = base + n * s := by
      simp only [List.length_append, List.length_take, hlenflat]
      omega
    rw [hg n _ (Nat.lt_succ_self n) (by rw [hlenB]; exact h)]
    have htake : (buf.take base ++ (List.range n).flatMap blk ++ buf.drop (base + n * s)).take
        (base + n * s) = buf.take base ++ (List.range n).flatMap blk := by
      exact List.take_left' hpre
    have hdrop : (buf.take base ++ (List.range n).flatMap blk ++ buf.drop (base + n * s)).drop
        (base + (n + 1) * s) = buf.drop (base + (n + 1) * s) := by
      have : base + (n + 1) * s = (buf.take base ++ (List.range n).flatMap blk).length + s := by
        rw [hpre, Nat.succ_mul]; omega
      rw [this, List.drop_append, List.drop_drop, hpre]
    rw [htake, hdrop, List.flatMap_append]
    simp [List.append_assoc]

/-- A loop that stores `n` consecutive entries. -/
theorem foldl_set_run {α : Type} (n base : Nat) (f : Nat → α) (buf : List α)
    (h : base + n ≤ buf.length) :
    (List.range n).foldl (fun b c => b.set (base + c) (f c)) buf =
      buf.take base ++ (List.range n).map f ++ buf.drop (base + n) := by
  have key := foldl_blocks 1 n base (fun c b => b.set (base + c) (f c)) (fun c => [f c])
    (fun _ => rfl)
    (fun i b hi hb => by
      have hlt : base + i < b.length := by omega
      simp only [Nat.mul_one]
      rw [List.set_eq_take_append_cons_drop, if_pos hlt]
      simp [Nat.add_assoc])
    buf (by omega)
  simp only [Nat.mul_one] at key
  have hsingle : ∀ l : List Nat, (l.flatMap fun c => [f c]) = l.map f := by
    intro l
    induction l with
    | nil => rfl
    | cons a l ihl => simp [List.flatMap_cons, ihl]
  rw [key, hsingle]

namespace metrics

namespace F32

/-! ## Evaluation at concrete values -/

theorem ofInt_lit (n : Nat) (h : n < 2 ^ 24) : ofInt (n : Int) = fin (n : ℚ) := by
  simpa using ofInt_exact (n : Int) (by positivity) (by exact_mod_cast h)

theorem div_fin_fin (x y : ℚ) (hy : y ≠ 0) : div (fin x) (fin y) = ofRat (x / y) := by
  simp [div, hy]

theorem mul_fin_fin (x y : ℚ) : mul (fin x) (fin y) = ofRat (x * y) := rfl

theorem sub_fin_fin (x y : ℚ) : sub (fin x) (fin y) = ofRat (x - y) := rfl

theorem add_fin_fin (x y : ℚ) : add (fin x) (fin y) = ofRat (x + y) := rfl

theorem ofRat_two : ofRat 2 = fin 2 := by
  simpa using ofRat_natCast 2 (by norm_num)

theorem ofRat_180 : ofRat 180 = fin 180 := by
  simpa using ofRat_natCast 180 (by norm_num)

theorem ofRat_10_9 : ofRat (10 / 9) = fin (2330169 / 2097152) := by
  rw [ofRat_pos_eval (10 / 9) 10 9 9320676 (-23) (by norm_num) (by norm_num) (by norm_num)
    (by decide) (by norm_num)]
  norm_num

theorem ofRat_360_ar : ofRat (360 / (2330169 / 2097152)) = fin (10616831 / 32768) := by
  rw [ofRat_pos_eval (360 / (2330169 / 2097152)) 251658240 776723 10616831 (-15) (by norm_num)
    (by norm_num) (by norm_num) (by decide) (by norm_num)]
  norm_num

end F32

end metrics

namespace metrics

namespace ImageProcessor

theorem targetDimensions_1000_500 :
    targetDimensions { targetWidth := 360, targetHeight := 640, quality := 40, useWebP := false }
      1000 500 = (360, 180) := by
  have e1 := F32.ofInt_lit 1000 (by norm_num)
  have e2 := F32.ofInt_lit 500 (by norm_num)
  have e3 := F32.ofInt_lit 360 (by norm_num)
  simp only [Nat.cast_ofNat] at e1 e2 e3
  have h1 : F32.div (F32.fin 1000) (F32.fin 500) = F32.fin 2 := by
    rw [F32.div_fin_fin _ _ (by norm_num), show (1000 : ℚ) / 500 = 2 by norm_num, F32.ofRat_two]
  have h2 : F32.div (F32.fin 360) (F32.fin 2) = F32.fin 180 := by
    rw [F32.div_fin_fin _ _ (by norm_num), show (360 : ℚ) / 2 = 180 by norm_num, F32.ofRat_180]
  have h3 : F32.toInt (F32.fin 180) = 180 := by
    rw [F32.toInt_fin_nonneg _ (by norm_num)]
    norm_num
  simp only [targetDimensions, e1, e2, e3, h1, h2, h3]
  decide

theorem targetDimensions_10_9 :
    targetDimensions { targetWidth := 360, targetHeight := 640, quality := 40, useWebP := false }
      10 9 = (360, 323) := by
  have e1 := F32.ofInt_lit 10 (by norm_num)
  have e2 := F32.ofInt_lit 9 (by norm_num)
  have e3 := F32.ofInt_lit 360 (by norm_num)
  simp only [Nat.cast_ofNat] at e1 e2 e3
  have h1 : F32.div (F32.fin 10) (F32.fin 9) = F32.fin (2330169 / 2097152) := by
    rw [F32.div_fin_fin _ _ (by norm_num), F32.ofRat_10_9]
  have h2 : F32.div (F32.fin 360) (F32.fin (2330169 / 2097152)) = F32.fin (10616831 / 32768) := by
    rw [F32.div_fin_fin _ _ (by norm_num), F32.ofRat_360_ar]
  have h3 : F32.toInt (F32.fin (10616831 / 32768)) = 323 := by
    rw [F32.toInt_fin_nonneg _ (by norm_num), Int.floor_eq_iff]
    constructor <;> norm_num
  simp only [targetDimensions, e1, e2, e3, h1, h2, h3]
  decide

theorem processAndSave_invalid (startTime endTime : Int) (nullOnEmpty : Bool)
    (pixelBuffer : Option (Int → Fin 256)) (width height stride : Int) (outputPath : String)
    (p : ImageProcessor) (fs : FileSystem)
    (h : pixelBuffer = none ∨ width ≤ 0 ∨ height ≤ 0) :
    processAndSaveBitmapBuffer startTime endTime nullOnEmpty pixelBuffer width height stride
        outputPath p fs =
      (some { ProcessingResult.zero with errorMessage := "Invalid pixel buffer or dimensions" },
        p, fs) := by
  have h' : pixelBuffer.isNone = true ∨ width ≤ 0 ∨ height ≤ 0 := by
    rcases h with h | h | h
    · left; simp [h]
    · right; left; exact h
    · right; right; exact h
  simp only [processAndSaveBitmapBuffer, if_pos h']

theorem processAndSave_valid (startTime endTime : Int) (nullOnEmpty : Bool)
    (src : Int → Fin 256) (width height stride : Int) (outputPath : String)
    (p : ImageProcessor) (fs : FileSystem) (hw : 0 < width) (hh : 0 < height) :
    processAndSaveBitmapBuffer startTime endTime nullOnEmpty (some src) width height stride
        outputPath p fs =
      if wrapInt ((targetDimensions p.defaultConfig width height).1
          * (targetDimensions p.defaultConfig width height).2 * 4) < 0 then
        (none, p, fs)
      else if (downscalePixels (some src) width height stride
          (vectorData nullOnEmpty (wrapInt ((targetDimensions p.defaultConfig width height).1
            * (targetDimensions p.defaultConfig width height).2 * 4)))
          (targetDimensions p.defaultConfig width height).1
          (targetDimensions p.defaultConfig width height).2).1 = false then
        (some { ProcessingResult.zero with
                  originalWidth := width, originalHeight := height,
                  originalSizeBytes := toSizeT (wrapInt (stride * height)),
                  errorMessage := "Failed to downscale image" }, p, fs)
      else if fs.writable outputPath = false then
        (some { ProcessingResult.zero with
                  originalWidth := width, originalHeight := height,
                  originalSizeBytes := toSizeT (wrapInt (stride * height)),
                  processedWidth := (targetDimensions p.defaultConfig width height).1,
                  processedHeight := (targetDimensions p.defaultConfig width height).2,
                  errorMessage := "Failed to write image file" }, p, fs)
      else
        (some { ProcessingResult.zero with
                  originalWidth := width, originalHeight := height,
                  originalSizeBytes := toSizeT (wrapInt (stride * height)),
                  processedWidth := (targetDimensions p.defaultConfig width height).1,
                  processedHeight := (targetDimensions p.defaultConfig width height).2,
                  filePath := outputPath, success := true,
                  processingTimeMs := endTime - startTime }, p,
          store fs outputPath
            (artifact
              ((downscalePixels (some src) width height stride
                (vectorData nullOnEmpty (wrapInt ((targetDimensions p.defaultConfig width height).1
                  * (targetDimensions p.defaultConfig width height).2 * 4)))
                (targetDimensions p.defaultConfig width height).1
                (targetDimensions p.defaultConfig width height).2).2.getD [])
              (targetDimensions p.defaultConfig width height).1
              (targetDimensions p.defaultConfig width height).2 p.defaultConfig.quality)) := by
  have h' : ¬ ((some src : Option (Int → Fin 256)).isNone = true ∨ width ≤ 0 ∨ height ≤ 0) := by
    simp
    omega
  simp only [processAndSaveBitmapBuffer, if_neg h', getDefaultConfig, writeJpeg]
  by_cases h1 : wrapInt ((targetDimensions p.defaultConfig width height).1
          * (targetDimensions p.defaultConfig width height).2 * 4) < 0
  · simp only [if_pos h1]
  · simp only [if_neg h1]
    by_cases h2 : (downscalePixels (some src) width height stride
          (vectorData nullOnEmpty (wrapInt ((targetDimensions p.defaultConfig width height).1
            * (targetDimensions p.defaultConfig width height).2 * 4)))
          (targetDimensions p.defaultConfig width height).1
          (targetDimensions p.defaultConfig width height).2).1 = false
    · simp [h2]
    · simp only [if_neg h2]
      have h2' : (downscalePixels (some src) width height stride
          (vectorData nullOnEmpty (wrapInt ((targetDimensions p.defaultConfig width height).1
            * (targetDimensions p.defaultConfig width height).2 * 4)))
          (targetDimensions p.defaultConfig width height).1
          (targetDimensions p.defaultConfig width height).2).1 = true := by
        simpa using h2
      by_cases h3 : fs.writable outputPath = false
      · simp [h2', h3]
      · have h3' : fs.writable outputPath = true := by simpa using h3
        simp [h2', h3']

theorem writeIndex_nat (dw x y c : Nat) (h : y * dw * 4 + x * 4 + c < 2 ^ 31) :
    writeIndex (dw : Int) (x : Int) (y : Int) (c : Int) = ((y * dw * 4 + x * 4 + c : Nat) : Int) := by
  have e : (y : Int) * (dw : Int) * 4 + (x : Int) * 4 + (c : Int)
      = ((y * dw * 4 + x * 4 + c : Nat) : Int) := by
    push_cast
    ring
  rw [writeIndex, e]
  exact wrapInt_eq _ (by omega) (by exact_mod_cast h)

/-- A store at an index that is not negative. -/
theorem storeByte_nat (buf : List (Fin 256)) (n : Nat) (v : Fin 256) :
    storeByte buf (n : Int) v = buf.set n v := by
  simp [storeByte]

/-- The destination buffer after `downscalePixels`, for non-negative
destination sizes and a buffer of `dstWidth * dstHeight * 4` bytes, a count
that fits an `int`: the bytes of the pixels row by row, each pixel as its four
channels. -/
theorem downscalePixels_buffer (src : Int → Fin 256) (srcWidth srcHeight srcStride : Int)
    (dw dh : Nat) (dst : List (Fin 256)) (hlen : dst.length = dh * (dw * 4))
    (hsz : dh * (dw * 4) < 2 ^ 31) :
    downscalePixels (some src) srcWidth srcHeight srcStride (some dst) (dw : Int) (dh : Int) =
      (true, some ((List.range dh).flatMap fun (y : Nat) => (List.range dw).flatMap fun (x : Nat) =>
        (List.range 4).map fun (c : Nat) =>
          pixelValue src srcWidth srcHeight srcStride (dw : Int) (dh : Int) (x : Int) (y : Int)
            (c : Int))) := by
  simp only [downscalePixels, Int.toNat_ofNat]
  have hfold : (List.range dh).foldl (fun (bufY : List (Fin 256)) (y : Nat) =>
      (List.range dw).foldl (fun (bufX : List (Fin 256)) (x : Nat) =>
        (List.range 4).foldl (fun (buf : List (Fin 256)) (c : Nat) =>
          storeByte buf (writeIndex (dw : Int) (x : Int) (y : Int) (c : Int))
            (pixelValue src srcWidth srcHeight srcStride (dw : Int) (dh : Int) (x : Int)
              (y : Int) (c : Int))) bufX) bufY) dst
      = (List.range dh).foldl (fun (bufY : List (Fin 256)) (y : Nat) =>
      (List.range dw).foldl (fun (bufX : List (Fin 256)) (x : Nat) =>
        (List.range 4).foldl (fun (buf : List (Fin 256)) (c : Nat) =>
          buf.set (y * dw * 4 + x * 4 + c)
            (pixelValue src srcWidth srcHeight srcStride (dw : Int) (dh : Int) (x : Int)
              (y : Int) (c : Int))) bufX) bufY) dst := by
    apply List.foldl_ext
    intro bufY y hy
    apply List.foldl_ext
    intro bufX x hx
    apply List.foldl_ext
    intro buf c hc
    have hy' : y < dh := List.mem_range.mp hy
    have hx' : x < dw := List.mem_range.mp hx
    have hc' : c < 4 := List.mem_range.mp hc
    have h1 : (y + 1) * (dw * 4) ≤ dh * (dw * 4) := Nat.mul_le_mul_right _ hy'
    have h2 : (y + 1) * (dw * 4) = y * dw * 4 + dw * 4 := by ring
    rw [writeIndex_nat dw x y c (by omega), storeByte_nat]
  rw [hfold, Prod.mk.injEq, Option.some.injEq]
  refine ⟨rfl, ?_⟩
  -- rows
  have hrow : ∀ (y : Nat) (buf : List (Fin 256)), y < dh → 0 + (y + 1) * (dw * 4) ≤ buf.length →
      (List.range dw).foldl (fun bufX x =>
          (List.range 4).foldl (fun b c => b.set (y * dw * 4 + x * 4 + c)
            (pixelValue src srcWidth srcHeight srcStride (dw : Int) (dh : Int) x y c)) bufX) buf
        = buf.take (0 + y * (dw * 4))
          ++ ((List.range dw).flatMap fun (x : Nat) => (List.range 4).map fun (c : Nat) =>
              pixelValue src srcWidth srcHeight srcStride (dw : Int) (dh : Int) (x : Int) (y : Int)
                (c : Int))
          ++ buf.drop (0 + (y + 1) * (dw * 4)) := by
    intro y buf _ hb
    have hpix : ∀ (x : Nat) (b : List (Fin 256)), x < dw →
        y * dw * 4 + (x + 1) * 4 ≤ b.length →
        (List.range 4).foldl (fun b c => b.set (y * dw * 4 + x * 4 + c)
            (pixelValue src srcWidth srcHeight srcStride (dw : Int) (dh : Int) x y c)) b
          = b.take (y * dw * 4 + x * 4)
            ++ ((List.range 4).map fun (c : Nat) =>
              pixelValue src srcWidth srcHeight srcStride (dw : Int) (dh : Int) (x : Int) (y : Int)
                (c : Int))
            ++ b.drop (y * dw * 4 + (x + 1) * 4) := by
      intro x b _ hb'
      have := foldl_set_run 4 (y * dw * 4 + x * 4)
        (fun (c : Nat) => pixelValue src srcWidth srcHeight srcStride (dw : Int) (dh : Int) (x : Int)
          (y : Int) (c : Int)) b
        (by omega)
      rw [this]
      congr 2
      omega
    have hrange : y * dw * 4 + dw * 4 ≤ buf.length := by
      have : (y + 1) * (dw * 4) = y * dw * 4 + dw * 4 := by ring
      omega
    have := foldl_blocks 4 dw (y * dw * 4)
      (fun x bufX => (List.range 4).foldl (fun b c => b.set (y * dw * 4 + x * 4 + c)
            (pixelValue src srcWidth srcHeight srcStride (dw : Int) (dh : Int) x y c)) bufX)
      (fun (x : Nat) => (List.range 4).map fun (c : Nat) =>
              pixelValue src srcWidth srcHeight srcStride (dw : Int) (dh : Int) (x : Int) (y : Int)
                (c : Int))
      (fun _ => by simp) hpix buf hrange
    rw [this]
    have e1 : 0 + y * (dw * 4) = y * dw * 4 := by ring
    have e2 : 0 + (y + 1) * (dw * 4) = y * dw * 4 + dw * 4 := by ring
    rw [e1, e2]
  have hall := foldl_blocks (dw * 4) dh 0
    (fun y bufY => (List.range dw).foldl (fun bufX x =>
          (List.range 4).foldl (fun b c => b.set (y * dw * 4 + x * 4 + c)
            (pixelValue src srcWidth srcHeight srcStride (dw : Int) (dh : Int) x y c)) bufX) bufY)
    (fun (y : Nat) => (List.range dw).flatMap fun (x : Nat) => (List.range 4).map fun (c : Nat) =>
              pixelValue src srcWidth srcHeight srcStride (dw : Int) (dh : Int) (x : Int) (y : Int)
                (c : Int))
    (fun y => length_flatMap_range 4 dw _ (fun _ => by simp))
    hrow dst (by omega)
  have hd : dst.drop (0 + dh * (dw * 4)) = [] := by
    apply List.drop_eq_nil_of_le
    omega
  beta_reduce at hall
  rw [hall, hd]
  simp

end ImageProcessor

end metrics

/-! ## Reading a buffer filled block by block -/

/-- Element `i * s + j` of a concatenation of blocks of length `s` is element
`j` of block `i`. -/
theorem getElem?_flatMap_range {α : Type} (s n : Nat) (blk : Nat → List α)
    (hblk : ∀ i, (blk i).length = s) (i j : Nat) (hi : i < n) (hj : j < s) :
    ((List.range n).flatMap blk)[i * s + j]? = (blk i)[j]? := by
  induction n with
  | zero => omega
  | succ m ihm =>
    rw [List.range_succ, List.flatMap_append]
    have hlen := length_flatMap_range s m blk hblk
    rcases Nat.lt_succ_iff_lt_or_eq.mp hi with hlt | heq
    · have hidx : i * s + j < ((List.range m).flatMap blk).length := by
        rw [hlen]
        have : (i + 1) * s ≤ m * s := Nat.mul_le_mul_right s hlt
        rw [Nat.succ_mul] at this
        omega
      rw [List.getElem?_append_left hidx]
      exact ihm hlt
    · subst heq
      have hidx : ((List.range i).flatMap blk).length ≤ i * s + j := by
        rw [hlen]; omega
      rw [List.getElem?_append_right hidx, hlen]
      simp

namespace metrics

namespace ImageProcessor

/-! ## The persisted artifact -/

/-- An `int` takes four bytes. -/
theorem encodeInt_length (v : Int) : (encodeInt v).length = 4 := rfl

/-- Reading back the four bytes of an `int` gives the `int`. -/
theorem decode_encode (v : Int) (rest : List (Fin 256)) (hlo : -(2 ^ 31) ≤ v) (hhi : v < 2 ^ 31) :
    decodeInt (encodeInt v ++ rest) = v := by
  simp only [decodeInt, encodeInt, List.cons_append, List.nil_append, List.getD_cons_zero,
    List.getD_cons_succ, Fin.ofNat, Fin.val_mk]
  have hmod : (0 : Int) ≤ v % 2 ^ 32 := Int.emod_nonneg _ (by norm_num)
  have hlt : v % 2 ^ 32 < 2 ^ 32 := Int.emod_lt_of_pos _ (by norm_num)
  obtain ⟨u, hu⟩ : ∃ u : Nat, (u : Int) = v % 2 ^ 32 := ⟨(v % 2 ^ 32).toNat, by omega⟩
  have hu' : (v % 2 ^ 32).toNat = u := by omega
  rw [hu']
  have hub : u < 4294967296 := by omega
  have hsum : u % 256 + 256 * (u / 256 % 256) + 65536 * (u / 65536 % 256)
      + 16777216 * (u / 16777216 % 256) = u := by omega
  rw [hsum]
  split_ifs with hc
  · omega
  · omega


/-- What a successful `downscalePixels` leaves in the buffer that
`processAndSaveBitmapBuffer` allocated, when the byte count fits an `int`:
`4 * dstWidth * dstHeight` bytes, the byte of channel `c` of pixel `(x, y)` at
offset `(y * dstWidth + x) * 4 + c`. -/
theorem downscale_out (nullOnEmpty : Bool) (src : Int → Fin 256)
    (width height stride tw th : Int) (hP : 0 ≤ tw * th * 4) (hS : tw * th * 4 < 2 ^ 31)
    (hok : (downscalePixels (some src) width height stride
      (vectorData nullOnEmpty (tw * th * 4)) tw th).1 = true) :
    ∃ out, (downscalePixels (some src) width height stride
        (vectorData nullOnEmpty (tw * th * 4)) tw th).2 = some out ∧
      out.length = (tw * th * 4).toNat ∧
      ∀ x y c : Nat, (x : Int) < tw → (y : Int) < th → c < 4 →
        out[(y * tw.toNat + x) * 4 + c]? =
          some (pixelValue src width height stride tw th (x : Int) (y : Int) (c : Int)) := by
  unfold vectorData at hok ⊢
  simp only [] at hok ⊢
  split_ifs at hok ⊢ with hnull
  · simp [downscalePixels] at hok
  · by_cases hth : th ≤ 0
    · have h0 : th.toNat = 0 := by omega
      refine ⟨List.replicate (tw * th * 4).toNat 0, ?_, by simp, ?_⟩
      · simp [downscalePixels, h0]
      · intro x y c _ hy _
        omega
    · have hth' : 0 < th := by omega
      have htw : 0 ≤ tw := by
        by_contra hneg
        have : tw * th < 0 := Int.mul_neg_of_neg_of_pos (by omega) hth'
        omega
      obtain ⟨dw, rfl⟩ := Int.eq_ofNat_of_zero_le htw
      obtain ⟨dh, rfl⟩ := Int.eq_ofNat_of_zero_le (le_of_lt hth')
      have hsize : ((dw : Int) * (dh : Int) * 4).toNat = dh * (dw * 4) := by
        have : ((dw : Int) * (dh : Int) * 4) = ((dh * (dw * 4) : Nat) : Int) := by
          push_cast; ring
        rw [this, Int.toNat_ofNat]
      have hbuf := downscalePixels_buffer src width height stride dw dh
        (List.replicate ((dw : Int) * (dh : Int) * 4).toNat 0) (by simp [hsize])
        (by rw [← hsize]; omega)
      rw [hbuf]
      refine ⟨_, rfl, ?_, ?_⟩
      · rw [length_flatMap_range (dw * 4) dh _
          (fun y => length_flatMap_range 4 dw _ (fun _ => by simp)), hsize]
      · intro x y c hx hy hc
        have hx' : x < dw := by exact_mod_cast hx
        have hy' : y < dh := by exact_mod_cast hy
        have hidx : (y * (dw : Int).toNat + x) * 4 + c = y * (dw * 4) + (x * 4 + c) := by
          rw [Int.toNat_ofNat]; ring
        rw [hidx, getElem?_flatMap_range (dw * 4) dh _
          (fun y => length_flatMap_range 4 dw _ (fun _ => by simp)) y (x * 4 + c) hy'
          (by omega)]
        rw [getElem?_flatMap_range 4 dw _ (fun _ => by simp) x c hx' hc]
        simp [List.getElem?_range, hc]

end ImageProcessor

end metrics

/-! ## Integers close to a rational quotient -/

/-- An integer within `3/64` above and `1 + 3/64` below the rational `a / w` is
within one of the integer quotient. -/
theorem int_close_of_rat (a w t : Int) (hw : 0 < w)
    (h1 : (a : ℚ) / w - 1 - 3 / 64 < (t : ℚ)) (h2 : (t : ℚ) ≤ (a : ℚ) / w + 3 / 64) :
    a / w - 1 ≤ t ∧ t ≤ a / w + 1 := by
  have hwq : (0 : ℚ) < (w : ℚ) := by exact_mod_cast hw
  have hdiv : w * (a / w) + a % w = a := Int.ediv_add_emod a w
  have hr0 : 0 ≤ a % w := Int.emod_nonneg a (ne_of_gt hw)
  have hr1 : a % w < w := Int.emod_lt_of_pos a hw
  have hq : (a : ℚ) / w = ((a / w : Int) : ℚ) + ((a % w : Int) : ℚ) / w := by
    have : ((w * (a / w) + a % w : Int) : ℚ) = (a : ℚ) := by rw [hdiv]
    push_cast at this
    rw [div_eq_iff (ne_of_gt hwq), add_mul, div_mul_cancel₀ _ (ne_of_gt hwq)]
    linarith
  have hf0 : (0 : ℚ) ≤ ((a % w : Int) : ℚ) / w := div_nonneg (by exact_mod_cast hr0) hwq.le
  have hf1 : ((a % w : Int) : ℚ) / w < 1 := by
    rw [div_lt_one hwq]
    exact_mod_cast hr1
  constructor
  · have : ((a / w : Int) : ℚ) - 2 < (t : ℚ) := by linarith
    have h' : a / w - 2 < t := by exact_mod_cast this
    omega
  · have : (t : ℚ) < ((a / w : Int) : ℚ) + 2 := by linarith
    have h' : t < a / w + 2 := by exact_mod_cast this
    omega

/-- An integer within `3/64` above and `1 + 3/64` below the rational `a / w`
has a product with `w` less than `2 * w` away from `a`. -/
theorem int_cross_close (a w t : Int) (hw : 0 < w)
    (h1 : (a : ℚ) / w - 1 - 3 / 64 < (t : ℚ)) (h2 : (t : ℚ) ≤ (a : ℚ) / w + 3 / 64) :
    |a - t * w| < 2 * w := by
  have hwq : (0 : ℚ) < (w : ℚ) := by exact_mod_cast hw
  have e : (a : ℚ) = (a : ℚ) / w * w := by field_simp
  have h1' : ((a : ℚ) / w - 1 - 3 / 64) * w < (t : ℚ) * w := mul_lt_mul_of_pos_right h1 hwq
  have h2' : (t : ℚ) * w ≤ ((a : ℚ) / w + 3 / 64) * w := mul_le_mul_of_nonneg_right h2 hwq.le
  have hq : |(a : ℚ) - t * w| < 2 * w := by
    rw [abs_lt]
    constructor
    · nlinarith
    · nlinarith
  exact_mod_cast hq

namespace metrics

namespace F32

/-! ## Roundings met by the image processor -/

theorem ofRat_one : ofRat 1 = fin 1 := by
  have h := ofRat_natCast 1 (by norm_num)
  simpa using h

theorem ofInt_zero : ofInt 0 = fin 0 := by
  simp [ofInt, ofRat_zero]

/-- The ratio 1000.0f / 360 (also 500.0f / 180). -/
theorem ofRat_25_9 : ofRat (25 / 9) = fin (2912711 / 1048576) := by
  rw [ofRat_pos_eval (25 / 9) 25 9 11650844 (-22) (by norm_num) (by norm_num) (by norm_num)
    (by decide) (by norm_num)]
  norm_num

/-- The product 359 * (1000.0f / 360). -/
theorem ofRat_srcX_359 : ofRat (359 * (2912711 / 1048576)) = fin (2042311 / 2048) := by
  rw [ofRat_pos_eval (359 * (2912711 / 1048576)) 1045663249 1048576 16338488 (-14)
    (by norm_num) (by norm_num) (by norm_num) (by decide) (by norm_num)]
  norm_num

/-- The product 179 * (500.0f / 180). -/
theorem ofRat_srcY_179 : ofRat (179 * (2912711 / 1048576)) = fin (16292977 / 32768) := by
  rw [ofRat_pos_eval (179 * (2912711 / 1048576)) 521375269 1048576 16292977 (-15)
    (by norm_num) (by norm_num) (by norm_num) (by decide) (by norm_num)]
  norm_num

theorem ofRat_455_2048 : ofRat (455 / 2048) = fin (455 / 2048) := by
  rw [ofRat_pos_eval (455 / 2048) 455 2048 14909440 (-26) (by norm_num) (by norm_num)
    (by norm_num) (by decide) (by norm_num)]
  norm_num

theorem ofRat_1593_2048 : ofRat (1593 / 2048) = fin (1593 / 2048) := by
  rw [ofRat_pos_eval (1593 / 2048) 1593 2048 13049856 (-24) (by norm_num) (by norm_num)
    (by norm_num) (by decide) (by norm_num)]
  norm_num

theorem ofRat_7281_32768 : ofRat (7281 / 32768) = fin (7281 / 32768) := by
  rw [ofRat_pos_eval (7281 / 32768) 7281 32768 14911488 (-26) (by norm_num) (by norm_num)
    (by norm_num) (by decide) (by norm_num)]
  norm_num

/-- The conversion of 16777219 = 2 ^ 24 + 3 rounds to 16777220. -/
theorem ofRat_16777219 : ofRat 16777219 = fin 16777220 := by
  rw [ofRat_pos_eval 16777219 16777219 1 8388610 1 (by norm_num) (by norm_num) (by norm_num)
    (by decide) (by norm_num)]
  norm_num

theorem ofRat_16777220 : ofRat 16777220 = fin 16777220 := by
  rw [ofRat_pos_eval 16777220 16777220 1 8388610 1 (by norm_num) (by norm_num) (by norm_num)
    (by decide) (by norm_num)]
  norm_num

/-- The ratio 4306496.0f / 8612973. -/
theorem ofRat_ratio_wide : ofRat (4306496 / 8612973) = fin (8388627 / 16777216) := by
  rw [ofRat_pos_eval (4306496 / 8612973) 4306496 8612973 8388627 (-24) (by norm_num)
    (by norm_num) (by norm_num) (by decide) (by norm_num)]
  norm_num

/-- The product 8612972 * (4306496.0f / 8612973) rounds up to 4306496. -/
theorem ofRat_srcX_wide : ofRat (8612972 * (8388627 / 16777216)) = fin 4306496 := by
  rw [ofRat_pos_eval (8612972 * (8388627 / 16777216)) 18062752367361 4194304 8612992 (-1)
    (by norm_num) (by norm_num) (by norm_num) (by decide) (by norm_num)]
  norm_num

/-- The quotient 8612973.0f / 4306496.0f. -/
theorem ofRat_height_wide : ofRat (8612973 / 4306496) = fin (16777179 / 8388608) := by
  rw [ofRat_pos_eval (8612973 / 4306496) 8612973 4306496 16777179 (-23) (by norm_num)
    (by norm_num) (by norm_num) (by decide) (by norm_num)]
  norm_num

/-- Clamping to `[0, 255]` and converting to a byte keeps a byte. -/
theorem clamp_byte (b : Fin 256) :
    toUInt8 (min (fin 255) (max (fin 0) (fin ((b.val : Nat) : ℚ)))) = b := by
  have hb : b.val < 256 := b.isLt
  have hmax : max (fin 0) (fin ((b.val : Nat) : ℚ)) = fin ((b.val : Nat) : ℚ) := by
    unfold max lt gt
    by_cases h0 : ((b.val : Nat) : ℚ) > 0
    · simp [h0]
    · have : ((b.val : Nat) : ℚ) = 0 := le_antisymm (not_lt.mp h0) (Nat.cast_nonneg _)
      simp [this]
  have hmin : min (fin 255) (fin ((b.val : Nat) : ℚ)) = fin ((b.val : Nat) : ℚ) := by
    unfold min lt gt
    by_cases h1 : (255 : ℚ) > ((b.val : Nat) : ℚ)
    · simp [h1]
    · have hle : (255 : ℚ) ≤ ((b.val : Nat) : ℚ) := not_lt.mp h1
      have hle' : 255 ≤ b.val := by exact_mod_cast hle
      have : b.val = 255 := by omega
      simp [this]
  rw [hmax, hmin, toUInt8, toInt_fin_nonneg _ (Nat.cast_nonneg _)]
  rw [Int.floor_natCast, Int.toNat_ofNat]
  apply Fin.ext
  simp [Fin.ofNat, Nat.mod_eq_of_lt hb]

end F32

namespace ImageProcessor

/-! ## The cases of `processAndSaveBitmapBuffer` -/

/-- Skipping the four bytes of an `int`. -/
theorem drop_encodeInt (v : Int) (rest : List (Fin 256)) : (encodeInt v ++ rest).drop 4 = rest :=
  rfl

/-- The conversion to `size_t` keeps a non-negative `int`. -/
theorem toSizeT_of_nonneg (v : Int) (h0 : 0 ≤ v) (h : v < 2 ^ 31) : toSizeT v = v.toNat := by
  unfold toSizeT
  rw [Int.emod_eq_of_lt h0 (by omega)]

/-- The successful case of `processAndSaveBitmapBuffer`: the source is valid,
the destination opened, and the file holds the artifact of the buffer that
`downscalePixels` filled. -/
theorem processAndSave_success (startTime endTime : Int) (nullOnEmpty : Bool)
    (pixelBuffer : Option (Int → Fin 256)) (width height stride : Int) (outputPath : String)
    (p : ImageProcessor) (fs : FileSystem) (r : ProcessingResult)
    (hr : (processAndSaveBitmapBuffer startTime endTime nullOnEmpty pixelBuffer width height
      stride outputPath p fs).1 = some r) (hs : r.success = true) :
    ∃ src, pixelBuffer = some src ∧ 0 < width ∧ 0 < height ∧
      r.processedWidth = (targetDimensions p.defaultConfig width height).1 ∧
      r.processedHeight = (targetDimensions p.defaultConfig width height).2 ∧
      r.filePath = outputPath ∧
      0 ≤ r.processedWidth * r.processedHeight * 4 ∧
      0 ≤ wrapInt (r.processedWidth * r.processedHeight * 4) ∧
      (downscalePixels (some src) width height stride
        (vectorData nullOnEmpty (wrapInt (r.processedWidth * r.processedHeight * 4)))
        r.processedWidth r.processedHeight).1 = true ∧
      (processAndSaveBitmapBuffer startTime endTime nullOnEmpty pixelBuffer width height
        stride outputPath p fs).2.2 =
        store fs outputPath (artifact
          ((downscalePixels (some src) width height stride
            (vectorData nullOnEmpty (wrapInt (r.processedWidth * r.processedHeight * 4)))
            r.processedWidth r.processedHeight).2.getD [])
          r.processedWidth r.processedHeight p.defaultConfig.quality) := by
  by_cases hinv : pixelBuffer = none ∨ width ≤ 0 ∨ height ≤ 0
  · rw [processAndSave_invalid startTime endTime nullOnEmpty pixelBuffer width height
      stride outputPath p fs hinv] at hr
    simp only [Option.some.injEq] at hr
    rw [← hr] at hs
    simp [ProcessingResult.zero] at hs
  · push_neg at hinv
    obtain ⟨hsrc, hw, hh⟩ := hinv
    obtain ⟨src, rfl⟩ := Option.ne_none_iff_exists'.mp hsrc
    have hw' : 0 < width := by omega
    have hh' : 0 < height := by omega
    refine ⟨src, rfl, hw', hh', ?_⟩
    rw [processAndSave_valid startTime endTime nullOnEmpty src width height stride outputPath
      p fs hw' hh'] at hr ⊢
    by_cases h1 : wrapInt ((targetDimensions p.defaultConfig width height).1
          * (targetDimensions p.defaultConfig width height).2 * 4) < 0
    · rw [if_pos h1] at hr
      exact absurd hr (by simp)
    · rw [if_neg h1] at hr ⊢
      by_cases h2 : (downscalePixels (some src) width height stride
          (vectorData nullOnEmpty (wrapInt ((targetDimensions p.defaultConfig width height).1
            * (targetDimensions p.defaultConfig width height).2 * 4)))
          (targetDimensions p.defaultConfig width height).1
          (targetDimensions p.defaultConfig width height).2).1 = false
      · rw [if_pos h2] at hr
        simp only [Option.some.injEq] at hr
        rw [← hr] at hs
        simp [ProcessingResult.zero] at hs
      · rw [if_neg h2] at hr ⊢
        by_cases h3 : fs.writable outputPath = false
        · rw [if_pos h3] at hr
          simp only [Option.some.injEq] at hr
          rw [← hr] at hs
          simp [ProcessingResult.zero] at hs
        · rw [if_neg h3] at hr ⊢
          simp only [Option.some.injEq] at hr
          subst hr
          refine ⟨rfl, rfl, rfl, ?_, not_lt.mp h1, ?_, rfl⟩
          · have := targetDimensions_sign p.defaultConfig width height hw' hh'
            exact mul_nonneg this (by norm_num)
          simpa using h2

/-- With a non-null source and a non-null `data()`, `downscalePixels` returns
`true`. -/
theorem downscalePixels_true (src : Int → Fin 256) (srcWidth srcHeight srcStride size : Int)
    (dstWidth dstHeight : Int) :
    (downscalePixels (some src) srcWidth srcHeight srcStride (vectorData false size)
      dstWidth dstHeight).1 = true := by
  simp [vectorData, downscalePixels]

/-- The result of `processAndSaveBitmapBuffer` for a 1000x500 source under the
initial configuration when the destination opens. -/
theorem processAndSave_1000_500 (startTime endTime : Int) (src : Int → Fin 256)
    (stride : Int) (outputPath : String) (fs : FileSystem)
    (hfs : fs.writable outputPath = true) :
    (processAndSaveBitmapBuffer startTime endTime false (some src) 1000 500 stride
        outputPath init fs).1 =
      some { ProcessingResult.zero with
              originalWidth := 1000, originalHeight := 500,
              originalSizeBytes := toSizeT (wrapInt (stride * 500)),
              processedWidth := 360, processedHeight := 180,
              filePath := outputPath, success := true,
              processingTimeMs := endTime - startTime } := by
  have hT : targetDimensions init.defaultConfig 1000 500 = (360, 180) :=
    targetDimensions_1000_500
  rw [processAndSave_valid startTime endTime false src 1000 500 stride outputPath init fs
    (by decide) (by decide), hT]
  have h1 : ¬ (wrapInt ((360 : Int) * 180 * 4) < 0) := by decide
  have h3 : ¬ (fs.writable outputPath = false) := by simp [hfs]
  rw [if_neg h1, downscalePixels_true, if_neg (by decide), if_neg h3]

/-! ## Sample coordinates -/

/-- At destination index 0 the source coordinate is 0 whatever the (finite)
ratio: `x0 = 0` and `xFrac = 0`. -/
theorem srcCoord_zero (srcSize dstSize : Int) (r : ℚ)
    (hr : F32.div (F32.ofInt srcSize) (F32.ofInt dstSize) = F32.fin r) :
    srcCoord srcSize dstSize 0 = F32.fin 0 ∧ coord0 srcSize dstSize 0 = 0 ∧
      coordFrac srcSize dstSize 0 = F32.fin 0 := by
  have h : srcCoord srcSize dstSize 0 = F32.fin 0 := by
    rw [srcCoord, hr, F32.ofInt_zero, F32.mul_fin_fin, zero_mul, F32.ofRat_zero]
  have h0 : coord0 srcSize dstSize 0 = 0 := by
    rw [coord0, h, F32.toInt_fin_nonneg _ (le_refl _)]
    simp
  refine ⟨h, h0, ?_⟩
  rw [coordFrac, h, h0, F32.ofInt_zero, F32.sub_fin_fin, sub_zero, F32.ofRat_zero]

theorem xRatio_1000_360 :
    F32.div (F32.ofInt 1000) (F32.ofInt 360) = F32.fin (2912711 / 1048576) := by
  have e1 := F32.ofInt_lit 1000 (by norm_num)
  have e2 := F32.ofInt_lit 360 (by norm_num)
  simp only [Nat.cast_ofNat] at e1 e2
  rw [e1, e2, F32.div_fin_fin _ _ (by norm_num), show (1000 : ℚ) / 360 = 25 / 9 by norm_num,
    F32.ofRat_25_9]

theorem yRatio_500_180 :
    F32.div (F32.ofInt 500) (F32.ofInt 180) = F32.fin (2912711 / 1048576) := by
  have e1 := F32.ofInt_lit 500 (by norm_num)
  have e2 := F32.ofInt_lit 180 (by norm_num)
  simp only [Nat.cast_ofNat] at e1 e2
  rw [e1, e2, F32.div_fin_fin _ _ (by norm_num), show (500 : ℚ) / 180 = 25 / 9 by norm_num,
    F32.ofRat_25_9]

/-- The last column of a 1000 -> 360 downscale samples the source columns 997
and 998 with weight 455 / 2048. -/
theorem coords_1000_360_359 :
    coord0 1000 360 359 = 997 ∧ coord1 1000 360 359 = 998 ∧
      coordFrac 1000 360 359 = F32.fin (455 / 2048) := by
  have e := F32.ofInt_lit 359 (by norm_num)
  have e997 := F32.ofInt_lit 997 (by norm_num)
  simp only [Nat.cast_ofNat] at e e997
  have h : srcCoord 1000 360 359 = F32.fin (2042311 / 2048) := by
    rw [srcCoord, xRatio_1000_360, e, F32.mul_fin_fin, F32.ofRat_srcX_359]
  have h0 : coord0 1000 360 359 = 997 := by
    rw [coord0, h, F32.toInt_fin_nonneg _ (by norm_num), Int.floor_eq_iff]
    constructor <;> norm_num
  refine ⟨h0, ?_, ?_⟩
  · rw [coord1, h0]
    decide
  · rw [coordFrac, h, h0, e997, F32.sub_fin_fin,
      show (2042311 : ℚ) / 2048 - 997 = 455 / 2048 by norm_num, F32.ofRat_455_2048]

/-- The last row of a 500 -> 180 downscale samples the source rows 497 and 498
with weight 7281 / 32768. -/
theorem coords_500_180_179 :
    coord0 500 180 179 = 497 ∧ coord1 500 180 179 = 498 ∧
      coordFrac 500 180 179 = F32.fin (7281 / 32768) := by
  have e := F32.ofInt_lit 179 (by norm_num)
  have e497 := F32.ofInt_lit 497 (by norm_num)
  simp only [Nat.cast_ofNat] at e e497
  have h : srcCoord 500 180 179 = F32.fin (16292977 / 32768) := by
    rw [srcCoord, yRatio_500_180, e, F32.mul_fin_fin, F32.ofRat_srcY_179]
  have h0 : coord0 500 180 179 = 497 := by
    rw [coord0, h, F32.toInt_fin_nonneg _ (by norm_num), Int.floor_eq_iff]
    constructor <;> norm_num
  refine ⟨h0, ?_, ?_⟩
  · rw [coord1, h0]
    decide
  · rw [coordFrac, h, h0, e497, F32.sub_fin_fin,
      show (16292977 : ℚ) / 32768 - 497 = 7281 / 32768 by norm_num, F32.ofRat_7281_32768]

/-- A byte read as `float`. -/
theorem ofInt_byte (b : Fin 256) : F32.ofInt ((b.val : Nat) : Int) = F32.fin ((b.val : Nat) : ℚ) :=
  F32.ofInt_lit b.val (lt_trans b.isLt (by norm_num))

/-- With both weights 0 the blend is the first neighbour. -/
theorem blend_origin (a b c d : Fin 256) :
    blend (F32.fin 0) (F32.fin 0) (F32.fin ((a.val : Nat) : ℚ)) (F32.fin ((b.val : Nat) : ℚ))
      (F32.fin ((c.val : Nat) : ℚ)) (F32.fin ((d.val : Nat) : ℚ))
      = F32.fin ((a.val : Nat) : ℚ) := by
  have ha := F32.ofRat_natCast a.val (lt_trans a.isLt (by norm_num))
  simp only [blend, F32.sub_fin_fin, F32.mul_fin_fin, F32.add_fin_fin, sub_zero, mul_one,
    one_mul, zero_mul, mul_zero, add_zero, F32.ofRat_zero, F32.ofRat_one, ha]

/-- The top-left destination pixel is the top-left source pixel, as soon as
the two ratios are finite. -/
theorem pixelValue_origin (src : Int → Fin 256) (srcWidth srcHeight srcStride : Int)
    (dstWidth dstHeight c : Int) (rx ry : ℚ)
    (hx : F32.div (F32.ofInt srcWidth) (F32.ofInt dstWidth) = F32.fin rx)
    (hy : F32.div (F32.ofInt srcHeight) (F32.ofInt dstHeight) = F32.fin ry) :
    pixelValue src srcWidth srcHeight srcStride dstWidth dstHeight 0 0 c
      = src (readIndex srcStride 0 0 c) := by
  obtain ⟨_, hx0, hxf⟩ := srcCoord_zero srcWidth dstWidth rx hx
  obtain ⟨_, hy0, hyf⟩ := srcCoord_zero srcHeight dstHeight ry hy
  simp only [pixelValue, hx0, hxf, hy0, hyf, ofInt_byte, blend_origin, F32.clamp_byte]

end ImageProcessor

end metrics

namespace metrics

namespace ImageProcessor

/-! ## Image processor: target dimensions -/

/-- C11 (amended): for a source and a configuration whose four sizes are between 1 and
`2 ^ 15`, the processed dimensions computed by `processAndSaveBitmapBuffer`
fit the configured box, `processedWidth ≤ targetWidth` and
`processedHeight ≤ targetHeight`; they are either the width-first pair
`(targetWidth, h)` with `h` within one of `targetWidth * height / width`, or
the height-first pair `(w, targetHeight)` with `w` within one of
`targetHeight * width / height` (integer quotients); every result the function
returns carries dimensions inside the box. -/
theorem targetDimensions_fit (p : ImageProcessor) (width height : Int)
    (hw : 1 ≤ width) (hw' : width ≤ 2 ^ 15) (hh : 1 ≤ height) (hh' : height ≤ 2 ^ 15)
    (htw : 1 ≤ p.defaultConfig.targetWidth) (htw' : p.defaultConfig.targetWidth ≤ 2 ^ 15)
    (hth : 1 ≤ p.defaultConfig.targetHeight) (hth' : p.defaultConfig.targetHeight ≤ 2 ^ 15) :
    (0 ≤ (targetDimensions p.defaultConfig width height).1 ∧
      (targetDimensions p.defaultConfig width height).1 ≤ p.defaultConfig.targetWidth ∧
      0 ≤ (targetDimensions p.defaultConfig width height).2 ∧
      (targetDimensions p.defaultConfig width height).2 ≤ p.defaultConfig.targetHeight) ∧
    (((targetDimensions p.defaultConfig width height).1 = p.defaultConfig.targetWidth ∧
        p.defaultConfig.targetWidth * height / width - 1
          ≤ (targetDimensions p.defaultConfig width height).2 ∧
        (targetDimensions p.defaultConfig width height).2
          ≤ p.defaultConfig.targetWidth * height / width + 1) ∨
      ((targetDimensions p.defaultConfig width height).2 = p.defaultConfig.targetHeight ∧
        p.defaultConfig.targetHeight * width / height - 1
          ≤ (targetDimensions p.defaultConfig width height).1 ∧
        (targetDimensions p.defaultConfig width height).1
          ≤ p.defaultConfig.targetHeight * width / height + 1)) ∧
    (∀ (startTime endTime : Int) (nullOnEmpty : Bool) (pixelBuffer : Option (Int → Fin 256))
        (stride : Int) (outputPath : String) (fs : FileSystem) (r : ProcessingResult),
      (processAndSaveBitmapBuffer startTime endTime nullOnEmpty pixelBuffer width height stride
        outputPath p fs).1 = some r →
      r.processedWidth ≤ p.defaultConfig.targetWidth ∧
      r.processedHeight ≤ p.defaultConfig.targetHeight ∧
      (r.success = true →
        r.processedWidth = (targetDimensions p.defaultConfig width height).1 ∧
        r.processedHeight = (targetDimensions p.defaultConfig width height).2)) := by
  have hbox : 0 ≤ (targetDimensions p.defaultConfig width height).1 ∧
      (targetDimensions p.defaultConfig width height).1 ≤ p.defaultConfig.targetWidth ∧
      0 ≤ (targetDimensions p.defaultConfig width height).2 ∧
      (targetDimensions p.defaultConfig width height).2 ≤ p.defaultConfig.targetHeight := by
    rcases targetDimensions_close p.defaultConfig width height hw hw' hh hh' htw htw' hth hth'
      with ⟨e, h0, h1, _, _⟩ | ⟨e, h0, h1, _, _⟩
    · rw [e]; exact ⟨by omega, le_refl _, h0, h1⟩
    · rw [e]; exact ⟨h0, h1, by omega, le_refl _⟩
  refine ⟨hbox, ?_, ?_⟩
  · rcases targetDimensions_close p.defaultConfig width height hw hw' hh hh' htw htw' hth hth'
      with ⟨e, _, _, h2, h3⟩ | ⟨e, _, _, h2, h3⟩
    · left
      refine ⟨e, int_close_of_rat _ width _ (by omega) ?_ ?_⟩
      · push_cast; exact h2
      · push_cast; exact h3
    · right
      refine ⟨e, int_close_of_rat _ height _ (by omega) ?_ ?_⟩
      · push_cast; exact h2
      · push_cast; exact h3
  · intro startTime endTime nullOnEmpty pixelBuffer stride outputPath fs r hr
    cases pixelBuffer with
    | none =>
      rw [processAndSave_invalid startTime endTime nullOnEmpty none width height stride
        outputPath p fs (Or.inl rfl)] at hr
      simp only [Option.some.injEq] at hr
      subst hr
      exact ⟨by simp [ProcessingResult.zero]; omega, by simp [ProcessingResult.zero]; omega,
        by simp [ProcessingResult.zero]⟩
    | some src =>
      rw [processAndSave_valid startTime endTime nullOnEmpty src width height stride outputPath
        p fs (by omega) (by omega)] at hr
      split_ifs at hr
      all_goals
        simp only [Option.some.injEq] at hr
        subst hr
        simp only [ProcessingResult.zero]
        refine ⟨by omega, by omega, ?_⟩
        simp

/-- C11 at a concrete input: a 1000x500 source under the initial configuration
(360, 640) gives 360x180, inside the box. -/
theorem targetDimensions_fit_witness :
    targetDimensions init.defaultConfig 1000 500 = (360, 180) ∧
    (targetDimensions init.defaultConfig 1000 500).1 ≤ 360 ∧
    (targetDimensions init.defaultConfig 1000 500).2 ≤ 640 :=
  ⟨targetDimensions_1000_500,
    (targetDimensions_fit init 1000 500 (by decide) (by decide) (by decide) (by decide)
      (by decide) (by decide) (by decide) (by decide)).1.2.1,
    (targetDimensions_fit init 1000 500 (by decide) (by decide) (by decide) (by decide)
      (by decide) (by decide) (by decide) (by decide)).1.2.2.2⟩

/-- The claim C11 as written fails in two ways: for a 10x9 source under the
initial configuration (360, 640) the width-first height is 323, not
`floor (360 * 9 / 10) = 324`; and for a 1x1 source under the configuration
(16777219, 16777219) the processed width 16777220 exceeds the target width. -/
theorem targetDimensions_fit_counterexample :
    ¬ (targetDimensions init.defaultConfig 10 9
        = if init.defaultConfig.targetWidth * 9 / 10 > init.defaultConfig.targetHeight then
            (init.defaultConfig.targetHeight * 10 / 9, init.defaultConfig.targetHeight)
          else (init.defaultConfig.targetWidth, init.defaultConfig.targetWidth * 9 / 10)) ∧
    ¬ ((targetDimensions
        { targetWidth := 16777219, targetHeight := 16777219, quality := 40, useWebP := false }
        1 1).1 ≤ 16777219) := by
  constructor
  · have h : targetDimensions init.defaultConfig 10 9 = (360, 323) := targetDimensions_10_9
    rw [h]
    decide
  · have e1 := F32.ofInt_lit 1 (by norm_num)
    simp only [Nat.cast_one] at e1
    have e2 : F32.ofInt 16777219 = F32.fin 16777220 := by
      rw [F32.ofInt]
      have : ((16777219 : Int) : ℚ) = 16777219 := by norm_num
      rw [this, F32.ofRat_16777219]
    have h1 : F32.div (F32.fin 1) (F32.fin 1) = F32.fin 1 := by
      rw [F32.div_fin_fin _ _ (by norm_num), div_one, F32.ofRat_one]
    have h2 : F32.div (F32.fin 16777220) (F32.fin 1) = F32.fin 16777220 := by
      rw [F32.div_fin_fin _ _ (by norm_num), div_one, F32.ofRat_16777220]
    have h3 : F32.mul (F32.fin 16777220) (F32.fin 1) = F32.fin 16777220 := by
      rw [F32.mul_fin_fin, mul_one, F32.ofRat_16777220]
    have h4 : F32.toInt (F32.fin 16777220) = 16777220 := by
      rw [F32.toInt_fin_nonneg _ (by norm_num)]
      have : ((16777220 : ℚ)) = ((16777220 : Int) : ℚ) := by norm_num
      rw [this, Int.floor_intCast]
    have hT : targetDimensions
        { targetWidth := 16777219, targetHeight := 16777219, quality := 40, useWebP := false }
        1 1 = (16777220, 16777219) := by
      simp only [targetDimensions, e1, e2, h1, h2, h3, h4]
      decide
    rw [hT]
    decide

/-- C12 (amended): for a source and a configuration whose four sizes are between 1 and
`2 ^ 15`, the target dimensions keep the source aspect ratio up to the
truncation to whole pixels: either `processedWidth = targetWidth` and
`processedWidth * height` differs from `processedHeight * width` by less than
`2 * width`, or `processedHeight = targetHeight` and the difference is less
than `2 * height`. -/
theorem targetDimensions_aspect (config : ProcessingConfig) (width height : Int)
    (hw : 1 ≤ width) (hw' : width ≤ 2 ^ 15) (hh : 1 ≤ height) (hh' : height ≤ 2 ^ 15)
    (htw : 1 ≤ config.targetWidth) (htw' : config.targetWidth ≤ 2 ^ 15)
    (hth : 1 ≤ config.targetHeight) (hth' : config.targetHeight ≤ 2 ^ 15) :
    ((targetDimensions config width height).1 = config.targetWidth ∧
      |(targetDimensions config width height).1 * height
        - (targetDimensions config width height).2 * width| < 2 * width) ∨
    ((targetDimensions config width height).2 = config.targetHeight ∧
      |(targetDimensions config width height).1 * height
        - (targetDimensions config width height).2 * width| < 2 * height) := by
  rcases targetDimensions_close config width height hw hw' hh hh' htw htw' hth hth'
    with ⟨e, _, _, h2, h3⟩ | ⟨e, _, _, h2, h3⟩
  · left
    refine ⟨e, ?_⟩
    rw [e]
    refine int_cross_close _ width _ (by omega) ?_ ?_
    · push_cast; exact h2
    · push_cast; exact h3
  · right
    refine ⟨e, ?_⟩
    rw [e, abs_sub_comm, mul_comm (targetDimensions config width height).1 height,
      mul_comm config.targetHeight width]
    have := int_cross_close (config.targetHeight * width) height
      (targetDimensions config width height).1 (by omega)
      (by push_cast; exact h2) (by push_cast; exact h3)
    rw [mul_comm (targetDimensions config width height).1 height] at this
    rw [mul_comm width config.targetHeight]
    exact this

/-- C12 at a concrete input: for a 1000x500 source under the initial
configuration the aspect ratio is kept exactly, `360 * 500 = 180 * 1000`. -/
theorem targetDimensions_aspect_witness :
    (targetDimensions init.defaultConfig 1000 500).1 * 500
      = (targetDimensions init.defaultConfig 1000 500).2 * 1000 ∧
    (((targetDimensions init.defaultConfig 1000 500).1 = 360 ∧
      |(targetDimensions init.defaultConfig 1000 500).1 * 500
        - (targetDimensions init.defaultConfig 1000 500).2 * 1000| < 2 * 1000) ∨
    ((targetDimensions init.defaultConfig 1000 500).2 = 640 ∧
      |(targetDimensions init.defaultConfig 1000 500).1 * 500
        - (targetDimensions init.defaultConfig 1000 500).2 * 1000| < 2 * 500)) :=
  ⟨by
      have h : targetDimensions init.defaultConfig 1000 500 = (360, 180) :=
        targetDimensions_1000_500
      rw [h]
      decide,
    targetDimensions_aspect init.defaultConfig 1000 500 (by decide) (by decide) (by decide)
      (by decide) (by decide) (by decide) (by decide) (by decide)⟩

/-- The claim C12 as written fails for a 10x9 source under the initial
configuration: the target is 360x323 and `360 * 9 = 3240` is not
`323 * 10 = 3230`. -/
theorem targetDimensions_aspect_counterexample :
    ¬ ((targetDimensions init.defaultConfig 10 9).1 * 9
        = (targetDimensions init.defaultConfig 10 9).2 * 10) := by
  have h : targetDimensions init.defaultConfig 10 9 = (360, 323) := targetDimensions_10_9
  rw [h]
  decide

/-! ## Image processor: resampling -/

/-- The buffer `downscalePixels` fills for a 1000x500 source and a 360x180
destination. -/
theorem downscale_1000_500 (src : Int → Fin 256) (stride : Int) :
    ∃ out, downscalePixels (some src) 1000 500 stride (vectorData false (360 * 180 * 4)) 360 180
        = (true, some out) ∧ out.length = 259200 ∧
      ∀ x y c : Nat, x < 360 → y < 180 → c < 4 →
        out[(y * 360 + x) * 4 + c]? =
          some (pixelValue src 1000 500 stride 360 180 (x : Int) (y : Int) (c : Int)) := by
  have hok := downscalePixels_true src 1000 500 stride (360 * 180 * 4) 360 180
  obtain ⟨out, hout, hlen, hpt⟩ := downscale_out false src 1000 500 stride 360 180
    (by decide) (by decide) hok
  refine ⟨out, ?_, ?_, ?_⟩
  · exact Prod.ext hok hout
  · rw [hlen]; decide
  · intro x y c hx hy hc
    have h := hpt x y c (by omega) (by omega) hc
    simpa using h

/-- C13 (amended): downscaling a 1000x500 source to 360x180 reproduces the top-left
source pixel exactly, `dst(0,0) = src(0,0)` for every source image and every
channel; the other three destination corners are bilinear samples taken at the
source columns 997 and 998 (weight 455/2048) and the source rows 497 and 498
(weight 7281/32768), the first row and column being sampled with weight 0. -/
theorem corner_pixels (src : Int → Fin 256) (stride : Int) :
    (∃ out, downscalePixels (some src) 1000 500 stride (vectorData false (360 * 180 * 4))
          360 180 = (true, some out) ∧ out.length = 259200 ∧
        (∀ x y c : Nat, x < 360 → y < 180 → c < 4 →
          out[(y * 360 + x) * 4 + c]? =
            some (pixelValue src 1000 500 stride 360 180 (x : Int) (y : Int) (c : Int))) ∧
        (∀ c : Nat, c < 4 → out[c]? = some (src (readIndex stride 0 0 c)))) ∧
    (coord0 1000 360 0 = 0 ∧ coordFrac 1000 360 0 = F32.fin 0 ∧
      coord0 500 180 0 = 0 ∧ coordFrac 500 180 0 = F32.fin 0) ∧
    (coord0 1000 360 359 = 997 ∧ coord1 1000 360 359 = 998 ∧
      coordFrac 1000 360 359 = F32.fin (455 / 2048)) ∧
    (coord0 500 180 179 = 497 ∧ coord1 500 180 179 = 498 ∧
      coordFrac 500 180 179 = F32.fin (7281 / 32768)) := by
  obtain ⟨out, hout, hlen, hpt⟩ := downscale_1000_500 src stride
  refine ⟨⟨out, hout, hlen, hpt, ?_⟩, ?_, coords_1000_360_359, coords_500_180_179⟩
  · intro c hc
    have h := hpt 0 0 c (by norm_num) (by norm_num) hc
    simp only [Nat.zero_mul, Nat.zero_add, Nat.cast_zero] at h
    rw [h, pixelValue_origin src 1000 500 stride 360 180 (c : Int) _ _ xRatio_1000_360
      yRatio_500_180]
  · obtain ⟨_, hx0, hxf⟩ := srcCoord_zero 1000 360 _ xRatio_1000_360
    obtain ⟨_, hy0, hyf⟩ := srcCoord_zero 500 180 _ yRatio_500_180
    exact ⟨hx0, hxf, hy0, hyf⟩

/-- C13 at a concrete input: for the image whose bytes are all 7 the first
destination byte is 7. -/
theorem corner_pixels_witness :
    ∃ out, downscalePixels (some fun _ => 7) 1000 500 4000 (vectorData false (360 * 180 * 4))
        360 180 = (true, some out) ∧ out[0]? = some 7 := by
  obtain ⟨⟨out, hout, _, _, h0⟩, _⟩ := corner_pixels (fun _ => 7) 4000
  exact ⟨out, hout, h0 0 (by norm_num)⟩

/-- The claim C13 as written fails at the top-right corner: for the 1000x500
image (stride 4000) whose only non-zero byte is channel 0 of the source pixel
(999, 0), the destination byte of channel 0 of pixel (359, 0) is 0, not 255. -/
theorem corner_pixels_counterexample :
    ∃ out, downscalePixels (some fun i => if i = 3996 then 255 else 0) 1000 500 4000
        (vectorData false (360 * 180 * 4)) 360 180 = (true, some out) ∧
      out[(0 * 360 + 359) * 4 + 0]? = some 0 ∧
      (fun i : Int => if i = 3996 then (255 : Fin 256) else 0) (readIndex 4000 999 0 0) = 255 := by
  obtain ⟨out, hout, _, hpt⟩ :=
    downscale_1000_500 (fun i => if i = 3996 then 255 else 0) 4000
  refine ⟨out, hout, ?_, by decide⟩
  rw [hpt 359 0 0 (by norm_num) (by norm_num) (by norm_num)]
  obtain ⟨hx0, hx1, hxf⟩ := coords_1000_360_359
  obtain ⟨_, hy0, hyf⟩ := srcCoord_zero 500 180 _ yRatio_500_180
  have hy1 : coord1 500 180 0 = 1 := by
    rw [coord1, hy0]
    decide
  have hx0' : coord0 1000 360 ((359 : Nat) : Int) = 997 := hx0
  have hx1' : coord1 1000 360 ((359 : Nat) : Int) = 998 := hx1
  have hxf' : coordFrac 1000 360 ((359 : Nat) : Int) = F32.fin (455 / 2048) := hxf
  have hy0' : coord0 500 180 ((0 : Nat) : Int) = 0 := hy0
  have hy1' : coord1 500 180 ((0 : Nat) : Int) = 1 := hy1
  have hyf' : coordFrac 500 180 ((0 : Nat) : Int) = F32.fin 0 := hyf
  have hp : ∀ xx yy : Int, xx < 999 → 0 ≤ xx → 0 ≤ yy → yy ≤ 1 →
      F32.ofInt (((if readIndex 4000 xx yy ((0 : Nat) : Int) = 3996 then (255 : Fin 256)
        else 0).val : Nat) : Int) = F32.fin 0 := by
    intro xx yy h1 h2 h3 h4
    have hne : readIndex 4000 xx yy ((0 : Nat) : Int) ≠ 3996 := by
      have hyy : yy = 0 ∨ yy = 1 := by omega
      simp only [readIndex, wrapInt, Nat.cast_zero]
      rcases hyy with rfl | rfl <;> omega
    rw [if_neg hne]
    exact F32.ofInt_zero
  have hsub : F32.sub (F32.fin 1) (F32.fin (455 / 2048)) = F32.fin (1593 / 2048) := by
    rw [F32.sub_fin_fin, show (1 : ℚ) - 455 / 2048 = 1593 / 2048 by norm_num,
      F32.ofRat_1593_2048]
  have hsub0 : F32.sub (F32.fin 1) (F32.fin 0) = F32.fin 1 := by
    rw [F32.sub_fin_fin, sub_zero, F32.ofRat_one]
  have hclamp := F32.clamp_byte 0
  simp only [Fin.val_zero, Nat.cast_zero] at hclamp
  simp only [pixelValue, hx0', hx1', hxf', hy0', hy1', hyf',
    hp 997 0 (by norm_num) (by norm_num) (by norm_num) (by norm_num),
    hp 998 0 (by norm_num) (by norm_num) (by norm_num) (by norm_num),
    hp 997 1 (by norm_num) (by norm_num) (by norm_num) (by norm_num),
    hp 998 1 (by norm_num) (by norm_num) (by norm_num) (by norm_num),
    blend, hsub, hsub0, F32.mul_fin_fin, F32.add_fin_fin, mul_zero, mul_one, add_zero,
    F32.ofRat_zero, F32.ofRat_1593_2048, F32.ofRat_455_2048, hclamp]

/-- C14 (the code at the failing input): the reads of `downscalePixels` leave
the source buffer.  For a
4306496x1 source with stride 17225984 and the configuration (8612973, 1), the
target is 8612973x1, and at the last destination column `x = 8612972` the
product `x * xRatio` rounds up to `4306496.0f`: `x0 = 4306496 = srcWidth`
exceeds `x1 = 4306495`, and the index read for `p00`, `17225984 + c` (for every
`c` from 0 on for which this is a value of an `int`, the four channels among
them), is not below `srcStride * srcHeight = 17225984`. -/
theorem read_out_of_bounds :
    targetDimensions { targetWidth := 8612973, targetHeight := 1, quality := 40, useWebP := false }
      4306496 1 = (8612973, 1) ∧
    coord0 4306496 8612973 8612972 = 4306496 ∧
    coord1 4306496 8612973 8612972 = 4306495 ∧
    coord0 1 1 0 = 0 ∧
    ∀ c : Int, 0 ≤ c → 17225984 + c < 2 ^ 31 →
      readIndex 17225984 (coord0 4306496 8612973 8612972) (coord0 1 1 0) c = 17225984 + c ∧
      17225984 * 1 ≤ readIndex 17225984 (coord0 4306496 8612973 8612972) (coord0 1 1 0) c := by
  have e1 := F32.ofInt_lit 4306496 (by norm_num)
  have e2 := F32.ofInt_lit 8612973 (by norm_num)
  have e3 := F32.ofInt_lit 8612972 (by norm_num)
  have e4 := F32.ofInt_lit 1 (by norm_num)
  simp only [Nat.cast_ofNat, Nat.cast_one] at e1 e2 e3 e4
  have hT : targetDimensions
      { targetWidth := 8612973, targetHeight := 1, quality := 40, useWebP := false }
      4306496 1 = (8612973, 1) := by
    have h1 : F32.div (F32.fin 4306496) (F32.fin 1) = F32.fin 4306496 := by
      rw [F32.div_fin_fin _ _ (by norm_num), div_one]
      have := F32.ofRat_natCast 4306496 (by norm_num)
      simpa using this
    have h2 : F32.div (F32.fin 8612973) (F32.fin 4306496) = F32.fin (16777179 / 8388608) := by
      rw [F32.div_fin_fin _ _ (by norm_num), F32.ofRat_height_wide]
    have h3 : F32.toInt (F32.fin (16777179 / 8388608)) = 1 := by
      rw [F32.toInt_fin_nonneg _ (by norm_num), Int.floor_eq_iff]
      constructor <;> norm_num
    simp only [targetDimensions, e1, e2, e4, h1, h2, h3]
    decide
  have hr : F32.div (F32.ofInt 4306496) (F32.ofInt 8612973) = F32.fin (8388627 / 16777216) := by
    rw [e1, e2, F32.div_fin_fin _ _ (by norm_num), F32.ofRat_ratio_wide]
  have hs : srcCoord 4306496 8612973 8612972 = F32.fin 4306496 := by
    rw [srcCoord, hr, e3, F32.mul_fin_fin, F32.ofRat_srcX_wide]
  have h0 : coord0 4306496 8612973 8612972 = 4306496 := by
    rw [coord0, hs, F32.toInt_fin_nonneg _ (by norm_num)]
    have : ((4306496 : ℚ)) = ((4306496 : Int) : ℚ) := by norm_num
    rw [this, Int.floor_intCast]
  have hy : F32.div (F32.ofInt 1) (F32.ofInt 1) = F32.fin 1 := by
    rw [e4, F32.div_fin_fin _ _ (by norm_num), div_one, F32.ofRat_one]
  obtain ⟨_, hy0, _⟩ := srcCoord_zero 1 1 _ hy
  refine ⟨hT, h0, ?_, hy0, ?_⟩
  · rw [coord1, h0]
    decide
  · intro c hc hfit
    rw [h0, hy0]
    simp only [readIndex, wrapInt]
    omega

/-! ## Image processor: the persisted artifact and the failure paths -/

/-- C15: round trip of the persisted artifact.  Whenever
`processAndSaveBitmapBuffer` returns a result with `success = true` (the
processed dimensions, the quality and the byte count being values of an
`int`), the file at `outputPath` holds the four bytes of each of
`processedWidth`, `processedHeight` and the configured quality, which decode
to these three values, followed by exactly
`processedWidth * processedHeight * 4` bytes, so `12 + 4 * processedWidth *
processedHeight` bytes in all; the byte at offset `(y * processedWidth + x) * 4
+ c` after the header is the resampled value of channel `c` of pixel
`(x, y)`; no other file changes. -/
theorem artifact_round_trip (startTime endTime : Int) (nullOnEmpty : Bool)
    (pixelBuffer : Option (Int → Fin 256)) (width height stride : Int) (outputPath : String)
    (p : ImageProcessor) (fs : FileSystem) (r : ProcessingResult)
    (hr : (processAndSaveBitmapBuffer startTime endTime nullOnEmpty pixelBuffer width height
      stride outputPath p fs).1 = some r) (hs : r.success = true)
    (hwlo : -(2 ^ 31) ≤ r.processedWidth) (hwhi : r.processedWidth < 2 ^ 31)
    (hhlo : -(2 ^ 31) ≤ r.processedHeight) (hhhi : r.processedHeight < 2 ^ 31)
    (hqlo : -(2 ^ 31) ≤ p.defaultConfig.quality) (hqhi : p.defaultConfig.quality < 2 ^ 31)
    (hsize : r.processedWidth * r.processedHeight * 4 < 2 ^ 31) :
    ∃ src content pixels, pixelBuffer = some src ∧
      (processAndSaveBitmapBuffer startTime endTime nullOnEmpty pixelBuffer width height
        stride outputPath p fs).2.2.files outputPath = some content ∧
      (∀ q, q ≠ outputPath →
        (processAndSaveBitmapBuffer startTime endTime nullOnEmpty pixelBuffer width height
          stride outputPath p fs).2.2.files q = fs.files q) ∧
      content = encodeInt r.processedWidth ++ encodeInt r.processedHeight
        ++ encodeInt p.defaultConfig.quality ++ pixels ∧
      decodeInt content = r.processedWidth ∧
      decodeInt (content.drop 4) = r.processedHeight ∧
      decodeInt (content.drop 8) = p.defaultConfig.quality ∧
      content.drop 12 = pixels ∧
      (pixels.length : Int) = r.processedWidth * r.processedHeight * 4 ∧
      (content.length : Int) = 12 + 4 * r.processedWidth * r.processedHeight ∧
      ∀ x y c : Nat, (x : Int) < r.processedWidth → (y : Int) < r.processedHeight → c < 4 →
        pixels[(y * r.processedWidth.toNat + x) * 4 + c]? =
          some (pixelValue src width height stride r.processedWidth r.processedHeight
            (x : Int) (y : Int) (c : Int)) := by
  obtain ⟨src, hsrc, _, _, _, _, _, hP, _, hok, hfs⟩ := processAndSave_success startTime endTime
    nullOnEmpty pixelBuffer width height stride outputPath p fs r hr hs
  have hwrap : wrapInt (r.processedWidth * r.processedHeight * 4)
      = r.processedWidth * r.processedHeight * 4 := wrapInt_eq _ (by omega) hsize
  rw [hwrap] at hok hfs
  obtain ⟨out, hout, hlen, hpt⟩ := downscale_out nullOnEmpty src width height stride
    r.processedWidth r.processedHeight hP hsize hok
  have htake : out.take (toSizeT (wrapInt (r.processedWidth * r.processedHeight * 4))) = out := by
    rw [hwrap, toSizeT_of_nonneg _ hP hsize, ← hlen, List.take_length]
  have hart : artifact out r.processedWidth r.processedHeight p.defaultConfig.quality =
      encodeInt r.processedWidth ++ (encodeInt r.processedHeight
        ++ (encodeInt p.defaultConfig.quality ++ out)) := by
    simp only [artifact, htake, List.append_assoc]
  refine ⟨src, artifact out r.processedWidth r.processedHeight p.defaultConfig.quality, out,
    hsrc, ?_, ?_, ?_, ?_, ?_, ?_, ?_, ?_, ?_, hpt⟩
  · rw [hfs, hout]
    simp only [store, Option.getD_some, if_true]
  · intro q hq
    rw [hfs]
    simp only [store, if_neg hq]
  · rw [hart]
    simp only [List.append_assoc]
  · rw [hart]
    exact decode_encode _ _ hwlo hwhi
  · rw [hart, drop_encodeInt]
    exact decode_encode _ _ hhlo hhhi
  · rw [hart]
    have : (encodeInt r.processedWidth ++ (encodeInt r.processedHeight
        ++ (encodeInt p.defaultConfig.quality ++ out))).drop 8
        = encodeInt p.defaultConfig.quality ++ out := rfl
    rw [this]
    have h := decode_encode p.defaultConfig.quality out hqlo hqhi
    exact h
  · rw [hart]
    rfl
  · rw [hlen]
    exact Int.toNat_of_nonneg hP
  · rw [hart]
    simp only [List.length_append, encodeInt_length, hlen]
    push_cast
    rw [Int.toNat_of_nonneg hP]
    ring

/-- C15 at a concrete input: a 1000x500 source under the initial configuration,
every path writable: the file decodes to 360, 180 and 40 and has
`12 + 4 * 360 * 180` bytes. -/
theorem artifact_round_trip_witness :
    ∃ content, (processAndSaveBitmapBuffer 0 5 false (some fun _ => 7) 1000 500 4000 "out.bin"
          init { files := fun _ => none, writable := fun _ => true }).2.2.files "out.bin"
        = some content ∧
      decodeInt content = 360 ∧ decodeInt (content.drop 4) = 180 ∧
      decodeInt (content.drop 8) = 40 ∧ (content.length : Int) = 12 + 4 * 360 * 180 := by
  obtain ⟨_, content, _, _, h1, _, _, h2, h3, h4, _, _, h5, _⟩ :=
    artifact_round_trip 0 5 false (some fun _ => 7) 1000 500 4000 "out.bin" init
      { files := fun _ => none, writable := fun _ => true } _
      (processAndSave_1000_500 0 5 (fun _ => 7) 4000 "out.bin"
        { files := fun _ => none, writable := fun _ => true } rfl)
      rfl (by decide) (by decide) (by decide) (by decide) (by decide) (by decide) (by decide)
  exact ⟨content, h1, h2, h3, h4, h5⟩

/-- C16: invalid input is rejected without side effect: with a null pixel
buffer, or `width <= 0`, or `height <= 0`, `processAndSaveBitmapBuffer` returns
a result with `success = false` and a non-empty `errorMessage`, and the file
system (every file, `outputPath` included) and the processor are as before;
and whenever it returns `success = true` the buffer is non-null and both
dimensions are positive. -/
theorem invalid_input_rejected (startTime endTime : Int) (nullOnEmpty : Bool)
    (pixelBuffer : Option (Int → Fin 256)) (width height stride : Int) (outputPath : String)
    (p : ImageProcessor) (fs : FileSystem) :
    (pixelBuffer = none ∨ width ≤ 0 ∨ height ≤ 0 →
      ∃ r, processAndSaveBitmapBuffer startTime endTime nullOnEmpty pixelBuffer width height
          stride outputPath p fs = (some r, p, fs) ∧
        r.success = false ∧ r.errorMessage ≠ "" ∧
        r.errorMessage = "Invalid pixel buffer or dimensions" ∧ r.filePath = "") ∧
    (∀ r, (processAndSaveBitmapBuffer startTime endTime nullOnEmpty pixelBuffer width height
          stride outputPath p fs).1 = some r → r.success = true →
        pixelBuffer ≠ none ∧ 0 < width ∧ 0 < height) := by
  constructor
  · intro h
    refine ⟨_, processAndSave_invalid startTime endTime nullOnEmpty pixelBuffer width height
      stride outputPath p fs h, rfl, by decide, rfl, rfl⟩
  · intro r hr hs
    by_contra hcon
    have hinv : pixelBuffer = none ∨ width ≤ 0 ∨ height ≤ 0 := by
      by_contra hn
      push_neg at hn
      exact hcon ⟨hn.1, by omega, by omega⟩
    rw [processAndSave_invalid startTime endTime nullOnEmpty pixelBuffer width height
      stride outputPath p fs hinv] at hr
    simp only [Option.some.injEq] at hr
    rw [← hr] at hs
    simp [ProcessingResult.zero] at hs

/-- C16 at a concrete input: a null buffer is rejected and the file system is
as before. -/
theorem invalid_input_rejected_witness :
    ∃ r, processAndSaveBitmapBuffer 0 5 false none 1000 500 4000 "out.bin" init
          { files := fun _ => none, writable := fun _ => true }
        = (some r, init, { files := fun _ => none, writable := fun _ => true }) ∧
      r.success = false ∧ r.errorMessage ≠ "" ∧
      r.errorMessage = "Invalid pixel buffer or dimensions" ∧ r.filePath = "" :=
  (invalid_input_rejected 0 5 false none 1000 500 4000 "out.bin" init
    { files := fun _ => none, writable := fun _ => true }).1 (Or.inl rfl)

end ImageProcessor

end metrics

/-! ## Session duration, watchdog controls, resets and recorders -/

namespace metrics
namespace SessionManager
open State

/-- Pausing and resuming never change the start time. -/
theorem pause_resume_startTime (c : Call) (s : SessionManager)
    (hc : (∃ t, c = .pauseSession t) ∨ (∃ t, c = .resumeSession t)) :
    (c.apply s).startTimeMs = s.startTimeMs := by
  rcases hc with ⟨t, rfl⟩ | ⟨t, rfl⟩
  · simp only [Call.apply, pauseSession]
    split <;> rfl
  · simp only [Call.apply, resumeSession]
    split
    · rfl
    · split <;> rfl

theorem run_pause_resume_startTime (cs : List Call) (s : SessionManager)
    (hcs : ∀ c ∈ cs, (∃ t, c = .pauseSession t) ∨ (∃ t, c = .resumeSession t)) :
    (run s cs).startTimeMs = s.startTimeMs := by
  induction cs generalizing s with
  | nil => rfl
  | cons c cs ih =>
    have h1 := pause_resume_startTime c s (hcs c (List.mem_cons_self _ _))
    have h2 := ih (c.apply s) (fun c' hc' => hcs c' (List.mem_cons_of_mem _ hc'))
    simp only [run, List.foldl_cons] at h2 ⊢
    rw [h2, h1]

/-- C21: `getSessionDurationMs` at time `now` returns 0 when the state is IDLE
or `startTime = 0` and otherwise `now - startTime`, and changes no state; for a
session started at `t0` (a non-zero clock value) that is ACTIVE or BACKGROUND
after any pauses and resumes, the result is `now - t0`, the time spent in
BACKGROUND included. -/
theorem getSessionDurationMs_spec (s : SessionManager) (now : Int) :
    (getSessionDurationMs now s).2 = s ∧
    (s.state = IDLE ∨ s.startTimeMs = 0 → (getSessionDurationMs now s).1 = 0) ∧
    (¬ (s.state = IDLE ∨ s.startTimeMs = 0) →
      (getSessionDurationMs now s).1 = now - s.startTimeMs) ∧
    (∀ (rnd : Nat → Nat) (t0 : Int) (cs : List Call), s.state ≠ ACTIVE → t0 ≠ 0 →
      (∀ c ∈ cs, (∃ t, c = .pauseSession t) ∨ (∃ t, c = .resumeSession t)) →
      (run (startSession rnd t0 s).2 cs).state = ACTIVE ∨
        (run (startSession rnd t0 s).2 cs).state = BACKGROUND →
      (getSessionDurationMs now (run (startSession rnd t0 s).2 cs)).1 = now - t0) := by
  refine ⟨?_, ?_, ?_, ?_⟩
  · unfold getSessionDurationMs
    split <;> rfl
  · intro h
    simp [getSessionDurationMs, h]
  · intro h
    simp [getSessionDurationMs, h]
  · intro rnd t0 cs hs ht0 hcs hst
    have hstart : (run (startSession rnd t0 s).2 cs).startTimeMs = t0 := by
      rw [run_pause_resume_startTime cs _ hcs]
      simp [startSession, hs]
    have hne : ¬ ((run (startSession rnd t0 s).2 cs).state = IDLE ∨
        (run (startSession rnd t0 s).2 cs).startTimeMs = 0) := by
      rw [hstart]
      rcases hst with h | h <;> simp [h, ht0]
    unfold getSessionDurationMs
    rw [if_neg hne, hstart]

/-- C21 at concrete inputs: on the fresh manager the duration is 0; for the
session started at time 1000, paused at 3000 and queried at 9000 while still in
BACKGROUND it is 8000. -/
theorem getSessionDurationMs_spec_witness :
    (getSessionDurationMs 9000 init).1 = 0 ∧
    (run (startSession (fun _ => 0) 1000 init).2 [.pauseSession 3000]).state = BACKGROUND ∧
    (getSessionDurationMs 9000
      (run (startSession (fun _ => 0) 1000 init).2 [.pauseSession 3000])).1 = 9000 - 1000 := by
  have hb : (run (startSession (fun _ => 0) 1000 init).2 [.pauseSession 3000]).state
      = BACKGROUND := by decide
  refine ⟨(getSessionDurationMs_spec init 9000).2.1 (Or.inl rfl), hb, ?_⟩
  exact (getSessionDurationMs_spec init 9000).2.2.2 (fun _ => 0) 1000 [.pauseSession 3000]
    (by decide) (by decide)
    (by
      intro c hc
      simp only [List.mem_singleton] at hc
      exact Or.inl ⟨3000, hc⟩)
    (Or.inr hb)

end SessionManager

namespace EventDetector
open EventType

/-- Along every run from the initial object the thread is joinable exactly
when the running flag is set. -/
theorem apply_thread_running (c : Call) (d : EventDetector)
    (h : d.watchdogThread = d.watchdogRunning) :
    (c.apply d).1.watchdogThread = (c.apply d).1.watchdogRunning := by
  cases c with
  | recordEvent sm now t n m => simp only [Call.apply]; rw [recordEvent_frame]; exact h
  | recordHeavyAction sm now n m =>
    simp only [Call.apply, recordHeavyAction]; rw [recordEvent_frame]; exact h
  | recordCrash sm now st =>
    simp only [Call.apply, recordCrash]; rw [recordEvent_frame]; exact h
  | watchdogWake sm ct rt =>
    simp only [Call.apply, watchdogWake]
    split
    · exact h
    · split
      · rw [recordEvent_frame]; exact h
      · exact h
  | reset => exact h
  | startWatchdog now =>
    simp only [Call.apply, startWatchdog]
    split
    · exact h
    · rfl
  | stopWatchdog =>
    simp only [Call.apply, stopWatchdog]
    split <;> simp_all
  | pingWatchdog now => exact h
  | setEventCallback cb => exact h
  | setAnrThresholdMs t => exact h

theorem run_thread_running (calls : List Call) (d : EventDetector)
    (h : d.watchdogThread = d.watchdogRunning) :
    (run d calls).1.watchdogThread = (run d calls).1.watchdogRunning := by
  induction calls generalizing d with
  | nil => exact h
  | cons c cs ih => exact ih (c.apply d).1 (apply_thread_running c d h)

/-- C23: the watchdog controls are idempotent.  `startWatchdog` on a running
watchdog changes nothing (`lastPing` included), so two starts leave the state
of the first; in every state reached from the initial object, `stopWatchdog`
on a watchdog that is not running changes nothing and leaves
`running = false`; two stops leave the state of one. -/
theorem watchdog_idempotent (d : EventDetector) (t1 t2 : Int) :
    (d.watchdogRunning = true → startWatchdog t2 d = d) ∧
    startWatchdog t2 (startWatchdog t1 d) = startWatchdog t1 d ∧
    (startWatchdog t1 d).watchdogRunning = true ∧
    stopWatchdog (stopWatchdog d) = stopWatchdog d ∧
    (stopWatchdog d).watchdogRunning = false ∧
    (∀ calls : List Call, (run init calls).1.watchdogRunning = false →
      stopWatchdog (run init calls).1 = (run init calls).1) ∧
    stopWatchdog init = init := by
  refine ⟨?_, ?_, ?_, ?_, ?_, ?_, rfl⟩
  · intro h
    simp [startWatchdog, h]
  · by_cases h : d.watchdogRunning = true
    · simp [startWatchdog, h]
    · simp [startWatchdog, h]
  · by_cases h : d.watchdogRunning = true
    · simp [startWatchdog, h]
    · simp [startWatchdog, h]
  · unfold stopWatchdog
    by_cases h : d.watchdogThread = true <;> simp [h]
  · unfold stopWatchdog
    by_cases h : d.watchdogThread = true <;> simp [h]
  · intro calls hr
    have hinv := run_thread_running calls init rfl
    rw [hr] at hinv
    cases hd : (run init calls).1 with
    | mk ev cb r lp th wt =>
      rw [hd] at hinv hr
      simp only at hinv hr
      subst hinv hr
      rfl

/-- C23 at a concrete input: a second start at time 9 of the watchdog started
at time 4 keeps `lastPing = 4`. -/
theorem watchdog_idempotent_witness :
    (startWatchdog 4 init).watchdogRunning = true ∧
    startWatchdog 9 (startWatchdog 4 init) = startWatchdog 4 init ∧
    (startWatchdog 9 (startWatchdog 4 init)).lastPingTimeMs = 4 :=
  ⟨by decide, (watchdog_idempotent (startWatchdog 4 init) 4 9).1 (by decide), by decide⟩

/-- C24: `reset` empties the journal, `getEventCount() = 0` and
`getRecentEvents(n) = []` afterwards, and leaves the running flag, the thread,
`lastPing`, the ANR threshold and the registered callback as they were. -/
theorem journal_reset_spec (d : EventDetector) (n : Nat) :
    (getEventCount (reset d)).1 = 0 ∧
    (getRecentEvents n (reset d)).1 = [] ∧
    (reset d).events = [] ∧
    (reset d).watchdogRunning = d.watchdogRunning ∧
    (reset d).watchdogThread = d.watchdogThread ∧
    (reset d).lastPingTimeMs = d.lastPingTimeMs ∧
    (reset d).anrThresholdMs = d.anrThresholdMs ∧
    (reset d).eventCallback = d.eventCallback ∧
    reset d = { d with events := [] } := by
  refine ⟨rfl, ?_, rfl, rfl, rfl, rfl, rfl, rfl, rfl⟩
  simp [getRecentEvents, reset]

/-- C28: the convenience recorders are `recordEvent` with fixed arguments:
`recordHeavyAction(name, metadata)` has the effect of
`recordEvent(HEAVY_ACTION, name, metadata)` and `recordCrash(trace)` that of
`recordEvent(CRASH, "AppCrash", trace)`, on the journal and on the callback;
so replacing them in any run changes neither the final state nor the
invocations made. -/
theorem recorders_refine (sm : SessionManager) (now : Int) (name metadata trace : String)
    (d : EventDetector) (calls : List Call) :
    recordHeavyAction sm now name metadata d = recordEvent sm now HEAVY_ACTION name metadata d ∧
    recordCrash sm now trace d = recordEvent sm now CRASH "AppCrash" trace d ∧
    run d (calls.map Call.viaRecordEvent) = run d calls := by
  refine ⟨rfl, rfl, ?_⟩
  induction calls generalizing d with
  | nil => rfl
  | cons c cs ih =>
    have hc : c.viaRecordEvent.apply d = c.apply d := by
      cases c <;> rfl
    simp only [List.map_cons, run, hc, ih]

end EventDetector

namespace MetricsAggregator

/-- C26: `reset` zeroes both latest snapshots and empties both histories and
leaves the two thresholds unchanged; after it, for thresholds that are
non-negative numbers, `isMemorySpike()` and `isCpuSpike()` are both false. -/
theorem aggregator_reset_spec (a : MetricsAggregator) (tm tc : ℚ)
    (hm : a.memoryThreshold = F32.fin tm) (hc : a.cpuThreshold = F32.fin tc)
    (htm : 0 ≤ tm) (htc : 0 ≤ tc) :
    (reset a).latestMemory = MemoryMetrics.zero ∧
    (reset a).latestCpu = CpuMetrics.zero ∧
    (reset a).memoryHistory = [] ∧ (reset a).cpuHistory = [] ∧
    (reset a).memoryThreshold = a.memoryThreshold ∧
    (reset a).cpuThreshold = a.cpuThreshold ∧
    (isMemorySpike (reset a)).1 = false ∧ (isCpuSpike (reset a)).1 = false := by
  refine ⟨rfl, rfl, rfl, rfl, rfl, rfl, ?_, ?_⟩
  · simp only [isMemorySpike, reset, hm, MemoryMetrics.zero, F32.gt]
    simpa using htm
  · simp only [isCpuSpike, reset, hc, CpuMetrics.zero, F32.gt]
    simpa using htc

/-- C26 at a concrete input: after `recordMemoryMetrics(1000, 850, 150)` on
the initial aggregator (thresholds 80 and 90), a `reset` leaves both spike
predicates false and the thresholds in place. -/
theorem aggregator_reset_spec_witness :
    (reset (recordMemoryMetrics 7 1000 850 150 init)).memoryThreshold = F32.fin 80 ∧
    (reset (recordMemoryMetrics 7 1000 850 150 init)).memoryHistory = [] ∧
    (isMemorySpike (reset (recordMemoryMetrics 7 1000 850 150 init))).1 = false ∧
    (isCpuSpike (reset (recordMemoryMetrics 7 1000 850 150 init))).1 = false :=
  ⟨rfl,
    (aggregator_reset_spec (recordMemoryMetrics 7 1000 850 150 init) 80 90 rfl rfl
      (by norm_num) (by norm_num)).2.2.1,
    (aggregator_reset_spec (recordMemoryMetrics 7 1000 850 150 init) 80 90 rfl rfl
      (by norm_num) (by norm_num)).2.2.2.2.2.2.1,
    (aggregator_reset_spec (recordMemoryMetrics 7 1000 850 150 init) 80 90 rfl rfl
      (by norm_num) (by norm_num)).2.2.2.2.2.2.2⟩

end MetricsAggregator
end metrics

/-! ## Watchdog wakes -/

namespace metrics
namespace EventDetector
open EventType

/-- A wake at most `anrThresholdMs_` after the last ping does nothing. -/
theorem watchdogWake_timely (sm : SessionManager) (ct rt : Int) (d : EventDetector)
    (h : ct - d.lastPingTimeMs ≤ d.anrThresholdMs) :
    watchdogWake sm ct rt d = (d, []) := by
  unfold watchdogWake
  split
  · rfl
  · rw [if_neg (not_lt.mpr h)]

/-- A wake of a running watchdog more than `anrThresholdMs_` after the last
ping is the recording of an ANR event. -/
theorem watchdogWake_late (sm : SessionManager) (ct rt : Int) (d : EventDetector)
    (hr : d.watchdogRunning = true) (h : ct - d.lastPingTimeMs > d.anrThresholdMs) :
    watchdogWake sm ct rt d =
      recordEvent sm rt ANR "MainThreadBlocked" (anrMetadata (ct - d.lastPingTimeMs)) d := by
  unfold watchdogWake
  simp [hr, h]

/-- The events of the journal after a recording are old events or the new one. -/
theorem recordEvent_mem (sm : SessionManager) (now : Int) (type : EventType)
    (name metadata : String) (d : EventDetector) (e : Event)
    (he : e ∈ (recordEvent sm now type name metadata d).1.events) :
    e ∈ d.events ∨ e = mkEvent sm now type name metadata := by
  rw [recordEvent_events] at he
  split at he
  · have := List.mem_of_mem_tail he
    simpa using this
  · simpa using he

/-- A run whose wakes are all timely is the run without the wakes. -/
theorem run_timely (calls : List Call) (d : EventDetector) (h : timely d calls = true) :
    run d calls = run d (calls.filter fun c => !c.isWake) := by
  induction calls generalizing d with
  | nil => rfl
  | cons c cs ih =>
    cases c with
    | watchdogWake sm ct rt =>
      simp only [timely, Bool.and_eq_true, decide_eq_true_eq] at h
      have hw := watchdogWake_timely sm ct rt d h.1
      have h2 := h.2
      simp only [Call.apply, hw] at h2
      rw [List.filter_cons_of_neg (by simp [Call.isWake])]
      simp only [run, Call.apply, hw, List.nil_append]
      exact ih d h2
    | _ =>
      simp only [timely, Bool.true_and] at h
      rw [List.filter_cons_of_pos (by rfl)]
      simp only [run]
      rw [ih _ h]

/-- A call that is neither a wake nor a caller's ANR recording adds no ANR
event to the journal. -/
theorem apply_no_anr (c : Call) (d : EventDetector) (hw : c.isWake = false)
    (hc : c.recordsAnr = false) (hd : ∀ e ∈ d.events, e.type ≠ ANR) :
    ∀ e ∈ (c.apply d).1.events, e.type ≠ ANR := by
  cases c with
  | watchdogWake sm ct rt => simp [Call.isWake] at hw
  | recordEvent sm now t n m =>
    intro e he
    rcases recordEvent_mem sm now t n m d e he with h | h
    · exact hd e h
    · rw [h]
      simpa [Call.recordsAnr, mkEvent] using hc
  | recordHeavyAction sm now n m =>
    intro e he
    rcases recordEvent_mem sm now _ n m d e he with h | h
    · exact hd e h
    · rw [h]; simp [mkEvent]
  | recordCrash sm now st =>
    intro e he
    rcases recordEvent_mem sm now _ _ st d e he with h | h
    · exact hd e h
    · rw [h]; simp [mkEvent]
  | reset => intro e he; simp [Call.apply, reset] at he
  | startWatchdog now =>
    simp only [Call.apply, startWatchdog]
    split <;> exact hd
  | stopWatchdog =>
    simp only [Call.apply, stopWatchdog]
    split <;> exact hd
  | pingWatchdog now => exact hd
  | setEventCallback cb => exact hd
  | setAnrThresholdMs t => exact hd

theorem run_no_anr (calls : List Call) (d : EventDetector)
    (hw : ∀ c ∈ calls, c.isWake = false) (hc : ∀ c ∈ calls, c.recordsAnr = false)
    (hd : ∀ e ∈ d.events, e.type ≠ ANR) :
    ∀ e ∈ (run d calls).1.events, e.type ≠ ANR := by
  induction calls generalizing d with
  | nil => exact hd
  | cons c cs ih =>
    exact ih (c.apply d).1 (fun c' h' => hw c' (List.mem_cons_of_mem _ h'))
      (fun c' h' => hc c' (List.mem_cons_of_mem _ h'))
      (apply_no_anr c d (hw c (List.mem_cons_self _ _)) (hc c (List.mem_cons_self _ _)) hd)

/-- C22: a wake of the running watchdog at time `currentTime` records an ANR
event if and only if `currentTime - lastPing` is strictly greater than the ANR
threshold (5000 ms in the initial object): when it is, the wake is the call
`recordEvent(ANR, "MainThreadBlocked", metadata)` whose metadata carries the
elapsed value, and the journal ends with that event; when it is not, the wake
changes nothing and invokes no callback.  `lastPing` is the clock value of the
latest `pingWatchdog`, or of `startWatchdog` on a stopped watchdog.  So a run
whose wakes all happen at most the threshold after `lastPing` is the run
without the wakes, and adds no ANR event to a journal that holds none unless a
caller records one. -/
theorem watchdogWake_spec (sm : SessionManager) (currentTime recordTime : Int)
    (d : EventDetector) (hr : d.watchdogRunning = true) :
    (currentTime - d.lastPingTimeMs > d.anrThresholdMs →
      watchdogWake sm currentTime recordTime d =
        recordEvent sm recordTime ANR "MainThreadBlocked"
          (anrMetadata (currentTime - d.lastPingTimeMs)) d ∧
      ∃ e, (watchdogWake sm currentTime recordTime d).1.events.getLast? = some e ∧
        e.type = ANR ∧ e.name = "MainThreadBlocked" ∧
        e.metadata = "\x7b\"blockedDurationMs\":" ++ toString (currentTime - d.lastPingTimeMs)
          ++ "\x7d") ∧
    (¬ (currentTime - d.lastPingTimeMs > d.anrThresholdMs) →
      watchdogWake sm currentTime recordTime d = (d, [])) ∧
    (d.events.length < MAX_EVENTS →
      ((watchdogWake sm currentTime recordTime d).1.events.length = d.events.length + 1 ↔
        currentTime - d.lastPingTimeMs > d.anrThresholdMs)) ∧
    (d.eventCallback ≠ none →
      ((watchdogWake sm currentTime recordTime d).2 ≠ [] ↔
        currentTime - d.lastPingTimeMs > d.anrThresholdMs)) ∧
    init.anrThresholdMs = 5000 ∧
    (∀ t, (pingWatchdog t d).lastPingTimeMs = t) ∧
    (∀ t, (startWatchdog t (stopWatchdog d)).lastPingTimeMs = t) ∧
    (∀ calls : List Call, timely d calls = true →
      run d calls = run d (calls.filter fun c => !c.isWake) ∧
      ((∀ e ∈ d.events, e.type ≠ ANR) → (∀ c ∈ calls, c.recordsAnr = false) →
        ∀ e ∈ (run d calls).1.events, e.type ≠ ANR)) := by
  refine ⟨?_, ?_, ?_, ?_, rfl, fun _ => rfl, ?_, ?_⟩
  · intro h
    have hw := watchdogWake_late sm currentTime recordTime d hr h
    refine ⟨hw, mkEvent sm recordTime ANR "MainThreadBlocked"
      (anrMetadata (currentTime - d.lastPingTimeMs)), ?_, rfl, rfl, rfl⟩
    rw [hw, recordEvent_getLast]
  · intro h
    exact watchdogWake_timely sm currentTime recordTime d (not_lt.mp h)
  · intro hlen
    constructor
    · intro h
      by_contra hn
      rw [watchdogWake_timely sm currentTime recordTime d (not_lt.mp hn)] at h
      simp at h
    · intro h
      rw [watchdogWake_late sm currentTime recordTime d hr h, recordEvent_events]
      have : ¬ (d.events.length + 1 > MAX_EVENTS) := by omega
      rw [if_neg this]
      simp
  · intro hcb
    constructor
    · intro h
      by_contra hn
      rw [watchdogWake_timely sm currentTime recordTime d (not_lt.mp hn)] at h
      exact h rfl
    · intro h
      rw [watchdogWake_late sm currentTime recordTime d hr h, recordEvent_deliveries]
      cases hcb' : d.eventCallback with
      | none => exact absurd hcb' hcb
      | some sink => simp
  · intro t
    unfold startWatchdog stopWatchdog
    by_cases h : d.watchdogThread = true <;> simp [h]
  · intro calls ht
    refine ⟨run_timely calls d ht, ?_⟩
    intro hd hc
    rw [run_timely calls d ht]
    apply run_no_anr
    · intro c hc'
      have := (List.mem_filter.mp hc').2
      simpa using this
    · intro c hc'
      exact hc c (List.mem_filter.mp hc').1
    · exact hd

/-- C22 at concrete inputs: for the watchdog started at time 0 on the initial
object (threshold 5000), a wake at 5001 records one ANR event whose metadata
carries 5001 and a wake at 5000 records nothing; a ping at 3000 followed by
wakes at 5500 and 8000 leaves the journal empty. -/
theorem watchdogWake_spec_witness :
    (startWatchdog 0 init).watchdogRunning = true ∧
    (∃ e, (watchdogWake SessionManager.init 5001 5002 (startWatchdog 0 init)).1.events.getLast?
        = some e ∧ e.type = ANR ∧
      e.metadata = "\x7b\"blockedDurationMs\":" ++ toString ((5001 : Int) - 0) ++ "\x7d") ∧
    watchdogWake SessionManager.init 5000 5002 (startWatchdog 0 init)
      = (startWatchdog 0 init, []) ∧
    (run (startWatchdog 0 init)
      [.pingWatchdog 3000, .watchdogWake SessionManager.init 5500 5501,
        .watchdogWake SessionManager.init 8000 8001]).1.events = [] := by
  have hr : (startWatchdog 0 init).watchdogRunning = true := by decide
  have h := watchdogWake_spec SessionManager.init 5001 5002 (startWatchdog 0 init) hr
  have h' := watchdogWake_spec SessionManager.init 5000 5002 (startWatchdog 0 init) hr
  obtain ⟨e, he1, he2, _, he3⟩ := (h.1 (by decide)).2
  refine ⟨hr, ⟨e, he1, he2, he3⟩, h'.2.1 (by decide), ?_⟩
  have hrun := (h.2.2.2.2.2.2.2
    [.pingWatchdog 3000, .watchdogWake SessionManager.init 5500 5501,
      .watchdogWake SessionManager.init 8000 8001] (by decide)).1
  rw [hrun]
  rfl

end EventDetector
end metrics

/-! ## Metric histories -/

/-- Keeping the last `cap` entries of a log and then pushing with eviction is
keeping the last `cap` entries of the longer log. -/
theorem push_evict_suffix {α : Type} (log : List α) (e : α) (cap : Nat) (hcap : 0 < cap) :
    (if (log.drop (log.length - cap) ++ [e]).length > cap
      then (log.drop (log.length - cap) ++ [e]).tail
      else log.drop (log.length - cap) ++ [e])
      = (log ++ [e]).drop ((log ++ [e]).length - cap) := by
  have hlen : (log.drop (log.length - cap)).length ≤ cap := by
    simp only [List.length_drop]
    omega
  have h := push_evict_drop (log.drop (log.length - cap)) [] e cap hlen
  simp only [List.append_nil, List.length_nil, Nat.add_zero, Nat.zero_add] at h
  have hle : (if (log.drop (log.length - cap) ++ [e]).length > cap
      then (log.drop (log.length - cap) ++ [e]).tail
      else log.drop (log.length - cap) ++ [e]).length ≤ cap := by
    split
    · simp only [List.length_tail, List.length_append, List.length_drop, List.length_cons,
        List.length_nil]
      omega
    · rename_i hn
      exact not_lt.mp hn
  rw [Nat.sub_eq_zero_of_le hle, List.drop_zero] at h
  rw [h]
  simp only [List.length_drop, List.length_append, List.length_cons, List.length_nil]
  by_cases hc : log.length ≤ cap
  · have h0 : log.length - cap = 0 := by omega
    rw [h0, List.drop_zero]
    simp
  · have h1 : log.length - (log.length - cap) + 1 - cap = 1 := by omega
    rw [h1, ← List.drop_append_of_le_length (by omega), List.drop_drop]
    congr 1
    omega

namespace metrics
namespace MetricsAggregator

/-- The relation between the fields of the aggregator and the recording logs
that every call preserves. -/
theorem apply_log (c : Call) (a : MetricsAggregator) (ml : List MemoryMetrics)
    (cl : List CpuMetrics)
    (hm : a.memoryHistory = ml.drop (ml.length - MAX_HISTORY_SIZE))
    (hc : a.cpuHistory = cl.drop (cl.length - MAX_HISTORY_SIZE)) :
    (c.apply a).memoryHistory
        = (c.logMemory ml).drop ((c.logMemory ml).length - MAX_HISTORY_SIZE) ∧
      (c.apply a).cpuHistory
        = (c.logCpu cl).drop ((c.logCpu cl).length - MAX_HISTORY_SIZE) := by
  cases c with
  | recordMemoryMetrics now t u v =>
    refine ⟨?_, hc⟩
    simp only [Call.apply, recordMemoryMetrics, Call.logMemory, hm]
    exact push_evict_suffix ml _ MAX_HISTORY_SIZE (by decide)
  | recordCpuMetrics now p n =>
    refine ⟨hm, ?_⟩
    simp only [Call.apply, recordCpuMetrics, Call.logCpu, hc]
    exact push_evict_suffix cl _ MAX_HISTORY_SIZE (by decide)
  | setMemoryThresholdPercentage t => exact ⟨hm, hc⟩
  | setCpuThresholdPercentage t => exact ⟨hm, hc⟩
  | reset => exact ⟨rfl, rfl⟩

theorem run_log (calls : List Call) (a : MetricsAggregator) (ml : List MemoryMetrics)
    (cl : List CpuMetrics)
    (hm : a.memoryHistory = ml.drop (ml.length - MAX_HISTORY_SIZE))
    (hc : a.cpuHistory = cl.drop (cl.length - MAX_HISTORY_SIZE)) :
    (run a calls).memoryHistory
        = (calls.foldl (fun log c => c.logMemory log) ml).drop
            ((calls.foldl (fun log c => c.logMemory log) ml).length - MAX_HISTORY_SIZE) ∧
      (run a calls).cpuHistory
        = (calls.foldl (fun log c => c.logCpu log) cl).drop
            ((calls.foldl (fun log c => c.logCpu log) cl).length - MAX_HISTORY_SIZE) := by
  induction calls generalizing a ml cl with
  | nil => exact ⟨hm, hc⟩
  | cons c cs ih =>
    obtain ⟨h1, h2⟩ := apply_log c a ml cl hm hc
    exact ih (c.apply a) (c.logMemory ml) (c.logCpu cl) h1 h2

/-- The last entry of a non-empty history is the latest snapshot, after every
call. -/
theorem apply_latest (c : Call) (a : MetricsAggregator)
    (hm : a.memoryHistory ≠ [] → a.memoryHistory.getLast? = some a.latestMemory)
    (hc : a.cpuHistory ≠ [] → a.cpuHistory.getLast? = some a.latestCpu) :
    ((c.apply a).memoryHistory ≠ [] →
        (c.apply a).memoryHistory.getLast? = some (c.apply a).latestMemory) ∧
      ((c.apply a).cpuHistory ≠ [] →
        (c.apply a).cpuHistory.getLast? = some (c.apply a).latestCpu) := by
  have key : ∀ {α : Type} (xs : List α) (e : α),
      (if (xs ++ [e]).length > MAX_HISTORY_SIZE then (xs ++ [e]).tail else xs ++ [e]).getLast?
        = some e := by
    intro α xs e
    split
    · rename_i h
      cases xs with
      | nil => simp [MAX_HISTORY_SIZE] at h
      | cons x xs => simp
    · simp
  cases c with
  | recordMemoryMetrics now t u v =>
    refine ⟨fun _ => ?_, hc⟩
    simp only [Call.apply, recordMemoryMetrics]
    exact key _ _
  | recordCpuMetrics now p n =>
    refine ⟨hm, fun _ => ?_⟩
    simp only [Call.apply, recordCpuMetrics]
    exact key _ _
  | setMemoryThresholdPercentage t => exact ⟨hm, hc⟩
  | setCpuThresholdPercentage t => exact ⟨hm, hc⟩
  | reset => exact ⟨fun h => absurd rfl h, fun h => absurd rfl h⟩

theorem run_latest (calls : List Call) (a : MetricsAggregator)
    (hm : a.memoryHistory ≠ [] → a.memoryHistory.getLast? = some a.latestMemory)
    (hc : a.cpuHistory ≠ [] → a.cpuHistory.getLast? = some a.latestCpu) :
    ((run a calls).memoryHistory ≠ [] →
        (run a calls).memoryHistory.getLast? = some (run a calls).latestMemory) ∧
      ((run a calls).cpuHistory ≠ [] →
        (run a calls).cpuHistory.getLast? = some (run a calls).latestCpu) := by
  induction calls generalizing a with
  | nil => exact ⟨hm, hc⟩
  | cons c cs ih =>
    obtain ⟨h1, h2⟩ := apply_latest c a hm hc
    exact ih (c.apply a) h1 h2

/-- C25: each metric history is a bounded FIFO whose newest entry is the
latest snapshot.  After every sequence of calls on the initial aggregator each
history has at most 100 entries and is the last `min(k, 100)` snapshots of its
kind recorded since the last `reset`, in recording order (`k` the length of the
log); a non-empty history ends with the latest snapshot of its kind; a memory
recording leaves the CPU snapshot and history untouched, and a CPU recording
those of the memory. -/
theorem histories_fifo (calls : List Call) (a : MetricsAggregator) (now : Int)
    (totalMb usedMb availableMb : Int) (usage : F32) (coreCount : Int) :
    ((run init calls).memoryHistory.length ≤ 100 ∧ (run init calls).cpuHistory.length ≤ 100) ∧
    ((run init calls).memoryHistory
        = (memoryLog calls).drop ((memoryLog calls).length - 100) ∧
      (run init calls).cpuHistory = (cpuLog calls).drop ((cpuLog calls).length - 100)) ∧
    ((run init calls).memoryHistory.length = min (memoryLog calls).length 100 ∧
      (run init calls).cpuHistory.length = min (cpuLog calls).length 100) ∧
    (((run init calls).memoryHistory ≠ [] →
        (run init calls).memoryHistory.getLast? = some (run init calls).latestMemory) ∧
      ((run init calls).cpuHistory ≠ [] →
        (run init calls).cpuHistory.getLast? = some (run init calls).latestCpu)) ∧
    ((recordMemoryMetrics now totalMb usedMb availableMb a).latestCpu = a.latestCpu ∧
      (recordMemoryMetrics now totalMb usedMb availableMb a).cpuHistory = a.cpuHistory) ∧
    ((recordCpuMetrics now usage coreCount a).latestMemory = a.latestMemory ∧
      (recordCpuMetrics now usage coreCount a).memoryHistory = a.memoryHistory) := by
  obtain ⟨h1, h2⟩ := run_log calls init [] [] rfl rfl
  have h1' : (run init calls).memoryHistory
      = (memoryLog calls).drop ((memoryLog calls).length - 100) := h1
  have h2' : (run init calls).cpuHistory
      = (cpuLog calls).drop ((cpuLog calls).length - 100) := h2
  have l1 : (run init calls).memoryHistory.length = min (memoryLog calls).length 100 := by
    rw [h1', List.length_drop]
    omega
  have l2 : (run init calls).cpuHistory.length = min (cpuLog calls).length 100 := by
    rw [h2', List.length_drop]
    omega
  refine ⟨⟨by omega, by omega⟩, ⟨h1', h2'⟩, ⟨l1, l2⟩, ?_, ⟨rfl, rfl⟩, ⟨rfl, rfl⟩⟩
  exact run_latest calls init (fun h => absurd rfl h) (fun h => absurd rfl h)

/-- C25 at a concrete input: two memory recordings and one CPU recording on
the initial aggregator leave a memory history of two entries and a CPU history
of one. -/
theorem histories_fifo_witness :
    (run init [.recordMemoryMetrics 1 1000 850 150, .recordCpuMetrics 2 (F32.fin 50) 8,
      .recordMemoryMetrics 3 1000 900 100]).memoryHistory.length = 2 ∧
    (run init [.recordMemoryMetrics 1 1000 850 150, .recordCpuMetrics 2 (F32.fin 50) 8,
      .recordMemoryMetrics 3 1000 900 100]).cpuHistory.length = 1 :=
  (histories_fifo [.recordMemoryMetrics 1 1000 850 150, .recordCpuMetrics 2 (F32.fin 50) 8,
    .recordMemoryMetrics 3 1000 900 100] init 0 0 0 0 (F32.fin 0) 0).2.2.1

end MetricsAggregator
end metrics

/-! ## Format of the session id -/

namespace metrics
namespace SessionManager

/-- The characters of a run of `count` hexadecimal draws. -/
theorem hexRun_data (rnd : Nat → Nat) (start count : Nat) :
    (hexRun rnd start count).data
      = (List.range count).map fun i => Nat.digitChar (rnd (start + i) % 16) := by
  induction count with
  | zero => rfl
  | succ n ih =>
    rw [hexRun, String.data_append, ih, hexInt_of_lt _ (Nat.mod_lt _ (by norm_num)),
      List.range_succ, List.map_append]
    rfl

/-- A value below 16 prints as one lower-case hexadecimal digit. -/
theorem digitChar_hex (v : Nat) (h : v < 16) : Nat.digitChar v ∈ "0123456789abcdef".data := by
  interval_cases v <;> decide

/-- The characters of a generated id. -/
theorem generateUUID_data (rnd : Nat → Nat) :
    (generateUUID rnd).data =
      ((List.range 8).map fun i => Nat.digitChar (rnd (0 + i) % 16)) ++ "-".data
        ++ ((List.range 4).map fun i => Nat.digitChar (rnd (8 + i) % 16)) ++ "-4".data
        ++ ((List.range 3).map fun i => Nat.digitChar (rnd (12 + i) % 16)) ++ "-".data
        ++ [Nat.digitChar (8 + rnd 15 % 4)]
        ++ ((List.range 3).map fun i => Nat.digitChar (rnd (16 + i) % 16)) ++ "-".data
        ++ ((List.range 12).map fun i => Nat.digitChar (rnd (19 + i) % 16)) := by
  have h : 8 + rnd 15 % 4 < 16 := by omega
  simp only [generateUUID, String.data_append, hexRun_data, hexInt_of_lt _ h]

/-- The 36 characters of a generated id, one by one. -/
theorem generateUUID_chars (rnd : Nat → Nat) :
    (generateUUID rnd).data =
      [Nat.digitChar (rnd 0 % 16), Nat.digitChar (rnd 1 % 16), Nat.digitChar (rnd 2 % 16),
        Nat.digitChar (rnd 3 % 16), Nat.digitChar (rnd 4 % 16), Nat.digitChar (rnd 5 % 16),
        Nat.digitChar (rnd 6 % 16), Nat.digitChar (rnd 7 % 16), '-', Nat.digitChar (rnd 8 % 16),
        Nat.digitChar (rnd 9 % 16), Nat.digitChar (rnd 10 % 16), Nat.digitChar (rnd 11 % 16),
        '-', '4', Nat.digitChar (rnd 12 % 16), Nat.digitChar (rnd 13 % 16),
        Nat.digitChar (rnd 14 % 16), '-', Nat.digitChar (8 + rnd 15 % 4),
        Nat.digitChar (rnd 16 % 16), Nat.digitChar (rnd 17 % 16), Nat.digitChar (rnd 18 % 16),
        '-', Nat.digitChar (rnd 19 % 16), Nat.digitChar (rnd 20 % 16),
        Nat.digitChar (rnd 21 % 16), Nat.digitChar (rnd 22 % 16), Nat.digitChar (rnd 23 % 16),
        Nat.digitChar (rnd 24 % 16), Nat.digitChar (rnd 25 % 16), Nat.digitChar (rnd 26 % 16),
        Nat.digitChar (rnd 27 % 16), Nat.digitChar (rnd 28 % 16), Nat.digitChar (rnd 29 % 16),
        Nat.digitChar (rnd 30 % 16)] := by
  rw [generateUUID_data]
  simp [List.range_succ]

/-- C27: every id produced by `generateUUID`, whatever its random draws, is a
canonical UUID v4 string: 36 characters, a hyphen at each of the indices 8,
13, 18 and 23, a lower-case hexadecimal digit everywhere else, the character
`4` at index 14 and one of `8`, `9`, `a`, `b` at index 19; it is never empty. -/
theorem generateUUID_canonical (rnd : Nat → Nat) :
    (generateUUID rnd).length = 36 ∧
    (∀ i, i ∈ [8, 13, 18, 23] → (generateUUID rnd).data[i]? = some '-') ∧
    (∀ i, i < 36 → i ∉ [8, 13, 18, 23] →
      ∃ c, (generateUUID rnd).data[i]? = some c ∧ c ∈ "0123456789abcdef".data) ∧
    (generateUUID rnd).data[14]? = some '4' ∧
    (∃ c, (generateUUID rnd).data[19]? = some c ∧ c ∈ "89ab".data) ∧
    generateUUID rnd ≠ "" := by
  have hd := generateUUID_chars rnd
  have h19 : Nat.digitChar (8 + rnd 15 % 4) ∈ "89ab".data := by
    have : rnd 15 % 4 < 4 := Nat.mod_lt _ (by norm_num)
    interval_cases (rnd 15 % 4) <;> decide
  have hx : ∀ v, Nat.digitChar (v % 16) ∈ "0123456789abcdef".data :=
    fun v => digitChar_hex _ (Nat.mod_lt _ (by norm_num))
  have h19x : Nat.digitChar (8 + rnd 15 % 4) ∈ "0123456789abcdef".data :=
    digitChar_hex _ (by omega)
  refine ⟨?_, ?_, ?_, ?_, ?_, generateUUID_ne_empty rnd⟩
  · rw [String.length, hd]
    rfl
  · intro i hi
    rw [hd]
    simp only [List.mem_cons, List.mem_singleton, List.not_mem_nil, or_false] at hi
    rcases hi with rfl | rfl | rfl | rfl <;> rfl
  · intro i hi hn
    rw [hd]
    simp only [List.mem_cons, List.mem_singleton, List.not_mem_nil, or_false, not_or] at hn
    interval_cases i
    all_goals first
      | exact absurd rfl hn.1
      | exact absurd rfl hn.2.1
      | exact absurd rfl hn.2.2.1
      | exact absurd rfl hn.2.2.2
      | exact ⟨_, rfl, hx _⟩
      | exact ⟨_, rfl, h19x⟩
      | exact ⟨'4', rfl, by decide⟩
  · rw [hd]
    rfl
  · rw [hd]
    exact ⟨_, rfl, h19⟩

/-- C27 at a concrete input: when every draw is 0 the id is
`00000000-0000-4000-8000-000000000000`. -/
theorem generateUUID_canonical_witness :
    (generateUUID fun _ => 0).data = "00000000-0000-4000-8000-000000000000".data ∧
    (generateUUID fun _ => 0).length = 36 ∧
    (generateUUID fun _ => 0).data[14]? = some '4' :=
  ⟨by rw [generateUUID_chars]; rfl, (generateUUID_canonical fun _ => 0).1,
    (generateUUID_canonical fun _ => 0).2.2.2.1⟩

end SessionManager
end metrics

/-! ## Lock scopes -/

namespace metrics
namespace EventDetector
open EventType

/-- The steps of `recordEvent` when a callback is stored. -/
theorem recordEventOps_some (sinkBody : List LockOp) (sm : SessionManager) (now : Int)
    (type : EventType) (name metadata : String) (d : EventDetector) (sink : Nat)
    (h : d.eventCallback = some sink) :
    recordEventOps sinkBody sm now type name metadata d =
      [.lock .journal, .lock .session, .unlock .session,
        .callSink sink (mkEvent sm now type name metadata)] ++ sinkBody
        ++ [.unlock .journal] := by
  simp [recordEventOps, h, SessionManager.getSessionIdOps]

/-- C29 (amended): the callback is invoked inside the critical section that
guards the journal.  When a callback is stored, `recordEvent` locks the journal
mutex, reads the session id (locking and unlocking the session mutex), and
calls the callback with the event it built, the same value it appended to the
journal, while the journal mutex is the one mutex held; the journal mutex is
unlocked only after the callback returns.  A callback that begins by calling
`getEventCount` or `getRecentEvents` therefore locks a mutex its own thread
holds. -/
theorem sink_inside_lock (sinkBody rest : List LockOp) (sm : SessionManager) (now : Int)
    (type : EventType) (name metadata : String) (d : EventDetector) (sink : Nat)
    (h : d.eventCallback = some sink) :
    (recordEventOps sinkBody sm now type name metadata d)[3]?
        = some (.callSink sink (mkEvent sm now type name metadata)) ∧
    heldAfter [] ((recordEventOps sinkBody sm now type name metadata d).take 3)
        = [Mutex.journal] ∧
    (recordEventOps sinkBody sm now type name metadata d).getLast?
        = some (.unlock .journal) ∧
    (recordEvent sm now type name metadata d).2
        = [{ sink := sink, event := mkEvent sm now type name metadata }] ∧
    (recordEvent sm now type name metadata d).1.events.getLast?
        = some (mkEvent sm now type name metadata) ∧
    heldAfter [] (recordEventOps [] sm now type name metadata d) = [] ∧
    relocks [] (recordEventOps (getEventCountOps ++ rest) sm now type name metadata d) = true ∧
    relocks [] (recordEventOps (getRecentEventsOps ++ rest) sm now type name metadata d)
        = true := by
  have hd := recordEvent_deliveries sm now type name metadata d
  rw [h] at hd
  refine ⟨?_, ?_, ?_, hd, recordEvent_getLast sm now type name metadata d, ?_, ?_, ?_⟩
  · rw [recordEventOps_some sinkBody sm now type name metadata d sink h]
    simp
  · rw [recordEventOps_some sinkBody sm now type name metadata d sink h]
    rfl
  · rw [recordEventOps_some sinkBody sm now type name metadata d sink h]
    exact List.getLast?_concat _
  · rw [recordEventOps_some [] sm now type name metadata d sink h]
    rfl
  · rw [recordEventOps_some _ sm now type name metadata d sink h]
    rfl
  · rw [recordEventOps_some _ sm now type name metadata d sink h]
    rfl

/-- C29 at a concrete input: on the initial detector with the callback of
handle 7 stored, recording a CUSTOM event calls the callback while the journal
mutex is held. -/
theorem sink_inside_lock_witness :
    (setEventCallback (some 7) init).eventCallback = some 7 ∧
    (recordEventOps [] SessionManager.init 1 CUSTOM "tap" "" (setEventCallback (some 7) init))[3]?
        = some (.callSink 7 (mkEvent SessionManager.init 1 CUSTOM "tap" "")) ∧
    heldAfter [] ((recordEventOps [] SessionManager.init 1 CUSTOM "tap" ""
        (setEventCallback (some 7) init)).take 3) = [Mutex.journal] :=
  ⟨rfl,
    (sink_inside_lock [] [] SessionManager.init 1 CUSTOM "tap" ""
      (setEventCallback (some 7) init) 7 rfl).1,
    (sink_inside_lock [] [] SessionManager.init 1 CUSTOM "tap" ""
      (setEventCallback (some 7) init) 7 rfl).2.1⟩

/-- The claim C29 as written fails: on the initial detector with the callback
of handle 7 stored, the journal mutex is held when `recordEvent` calls the
callback, and a callback that calls `getEventCount` locks it a second time. -/
theorem sink_inside_lock_counterexample :
    ¬ (Mutex.journal ∉ heldAfter [] ((recordEventOps [] SessionManager.init 1 CUSTOM "tap" ""
        (setEventCallback (some 7) init)).take 3)) ∧
    (recordEventOps [] SessionManager.init 1 CUSTOM "tap" ""
        (setEventCallback (some 7) init))[3]?
      = some (.callSink 7 (mkEvent SessionManager.init 1 CUSTOM "tap" "")) ∧
    relocks [] (recordEventOps getEventCountOps SessionManager.init 1 CUSTOM "tap" ""
        (setEventCallback (some 7) init)) = true := by
  refine ⟨?_, rfl, rfl⟩
  intro h
  exact h (by decide)

end EventDetector

/-- A bound on the number of mutexes held after the first `i` steps, for every
`i` up to the number of steps, holds for every `i`. -/
theorem heldAfter_take_bound (held : List Mutex) (ops : List LockOp)
    (n : Nat)
    (h : ∀ i, i ≤ ops.length → (heldAfter held (ops.take i)).length ≤ n) (i : Nat) :
    (heldAfter held (ops.take i)).length ≤ n := by
  by_cases hi : i ≤ ops.length
  · exact h i hi
  · have e : ops.take i = ops.take ops.length := by
      rw [List.take_of_length_le (by omega), List.take_length]
    rw [e]
    exact h _ (le_refl _)

/-- The mutexes held are those held after the first steps, carried through
the remaining ones. -/
theorem heldAfter_append (held : List Mutex) (a b : List LockOp) :
    heldAfter held (a ++ b) = heldAfter (heldAfter held a) b := by
  induction a generalizing held with
  | nil => rfl
  | cons op rest ih =>
    cases op <;> simp [heldAfter, ih]

namespace MetricsAggregator

/-- C30 (amended): cross-subsystem reads are made with the caller's mutex
held, always nested the same way.  `getSnapshot` holds the aggregator mutex
while it calls `SessionManager::getSessionId` and
`SessionManager::getSessionDurationMs`, and `recordEvent` holds the journal
mutex while it calls `SessionManager::getSessionId`; the session mutex is
always the innermost one, unlocked before anything else is locked, and the two
session getters lock nothing but the session mutex.  Called with no mutex
held, `getSnapshot` holds at most two mutexes, and so does `recordEvent` up to
the call of the stored callback (to the return when none is stored or when the
callback locks nothing).  `recordEvent` keeps the journal mutex through the
callback, so the mutexes held then are the journal mutex and those the callback
holds: three (journal, aggregator, session) for a callback that calls
`getSnapshot`.  In each of these runs no mutex is locked while held and every
mutex is unlocked at the return. -/
theorem cross_reads_nested (sinkBody : List LockOp) (sm : SessionManager) (now : Int)
    (type : EventDetector.EventType) (name metadata : String) (d : EventDetector) :
    getSnapshotOps = [.lock .aggregator, .lock .session, .unlock .session,
      .lock .session, .unlock .session, .unlock .aggregator] ∧
    heldAfter [] (getSnapshotOps.take 2) = [Mutex.session, Mutex.aggregator] ∧
    heldAfter [] (getSnapshotOps.take 4) = [Mutex.session, Mutex.aggregator] ∧
    (∀ i, (heldAfter [] (getSnapshotOps.take i)).length ≤ 2) ∧
    heldAfter [] getSnapshotOps = [] ∧
    relocks [] getSnapshotOps = false ∧
    (EventDetector.recordEventOps sinkBody sm now type name metadata d).take 3
      = [.lock .journal, .lock .session, .unlock .session] ∧
    heldAfter [] ((EventDetector.recordEventOps sinkBody sm now type name metadata d).take 2)
      = [Mutex.session, Mutex.journal] ∧
    (∀ i, i ≤ 3 → (heldAfter []
      ((EventDetector.recordEventOps sinkBody sm now type name metadata d).take i)).length ≤ 2) ∧
    (d.eventCallback = none →
      (∀ i, (heldAfter []
        ((EventDetector.recordEventOps sinkBody sm now type name metadata d).take i)).length ≤ 2) ∧
      heldAfter [] (EventDetector.recordEventOps sinkBody sm now type name metadata d) = [] ∧
      relocks [] (EventDetector.recordEventOps sinkBody sm now type name metadata d) = false) ∧
    (∀ sink, d.eventCallback = some sink →
      (∀ j, j ≤ sinkBody.length →
        heldAfter [] ((EventDetector.recordEventOps sinkBody sm now type name metadata d).take
          (4 + j)) = heldAfter [Mutex.journal] (sinkBody.take j)) ∧
      heldAfter [] ((EventDetector.recordEventOps getSnapshotOps sm now type name metadata d).take 6)
        = [Mutex.session, Mutex.aggregator, Mutex.journal] ∧
      (∀ i, (heldAfter []
        ((EventDetector.recordEventOps getSnapshotOps sm now type name metadata d).take i)).length
          ≤ 3) ∧
      heldAfter [] (EventDetector.recordEventOps getSnapshotOps sm now type name metadata d) = [] ∧
      relocks [] (EventDetector.recordEventOps getSnapshotOps sm now type name metadata d)
        = false ∧
      (∀ i, (heldAfter []
        ((EventDetector.recordEventOps [] sm now type name metadata d).take i)).length ≤ 2) ∧
      heldAfter [] (EventDetector.recordEventOps [] sm now type name metadata d) = [] ∧
      relocks [] (EventDetector.recordEventOps [] sm now type name metadata d) = false) ∧
    SessionManager.getSessionIdOps = [.lock .session, .unlock .session] ∧
    SessionManager.getSessionDurationMsOps = [.lock .session, .unlock .session] := by
  have h3 : (EventDetector.recordEventOps sinkBody sm now type name metadata d).take 3
      = [.lock .journal, .lock .session, .unlock .session] := by
    cases h : d.eventCallback <;> simp [EventDetector.recordEventOps, h,
      SessionManager.getSessionIdOps]
  have hsnap : ∀ i, (heldAfter [] (getSnapshotOps.take i)).length ≤ 2 := by
    apply heldAfter_take_bound
    intro i hi
    have hi' : i ≤ 6 := hi
    interval_cases i <;> decide
  refine ⟨rfl, rfl, rfl, hsnap, rfl, rfl, h3, ?_, ?_, ?_, ?_, rfl, rfl⟩
  · have e : (EventDetector.recordEventOps sinkBody sm now type name metadata d).take 2
        = ((EventDetector.recordEventOps sinkBody sm now type name metadata d).take 3).take 2 := by
      rw [List.take_take]
      rfl
    rw [e, h3]
    rfl
  · intro i hi
    have e : (EventDetector.recordEventOps sinkBody sm now type name metadata d).take i
        = ((EventDetector.recordEventOps sinkBody sm now type name metadata d).take 3).take i := by
      rw [List.take_take, Nat.min_eq_left hi]
    rw [e, h3]
    interval_cases i <;> decide
  · intro hnone
    have e : EventDetector.recordEventOps sinkBody sm now type name metadata d
        = [.lock .journal, .lock .session, .unlock .session, .unlock .journal] := by
      simp [EventDetector.recordEventOps, hnone, SessionManager.getSessionIdOps]
    rw [e]
    refine ⟨?_, rfl, rfl⟩
    apply heldAfter_take_bound
    intro i hi
    have hi' : i ≤ 4 := hi
    interval_cases i <;> decide
  · intro sink hsome
    have e := EventDetector.recordEventOps_some sinkBody sm now type name metadata d sink hsome
    have e0 := EventDetector.recordEventOps_some [] sm now type name metadata d sink hsome
    have e1 := EventDetector.recordEventOps_some getSnapshotOps sm now type name metadata d sink
      hsome
    refine ⟨?_, ?_, ?_, ?_, ?_, ?_, ?_, ?_⟩
    · intro j hj
      rw [e, List.append_assoc, List.take_append_eq_append_take]
      simp only [List.length_cons, List.length_nil, Nat.zero_add, Nat.reduceAdd,
        Nat.add_sub_cancel_left]
      rw [List.take_of_length_le (by simp), List.take_append_of_le_length hj, heldAfter_append]
      rfl
    · rw [e1]
      rfl
    · rw [e1]
      apply heldAfter_take_bound
      intro i hi
      have hi' : i ≤ 11 := hi
      interval_cases i <;> simp [getSnapshotOps, SessionManager.getSessionIdOps,
        SessionManager.getSessionDurationMsOps, heldAfter]
    · rw [e1]
      rfl
    · rw [e1]
      rfl
    · rw [e0]
      apply heldAfter_take_bound
      intro i hi
      have hi' : i ≤ 5 := hi
      interval_cases i <;> simp [heldAfter]
    · rw [e0]
      rfl
    · rw [e0]
      rfl

/-- C30 at a concrete input: on the initial detector with the callback of
handle 7 stored, and a callback that calls `getSnapshot`, the journal, the
aggregator and the session mutexes are all held after the sixth step of
`recordEvent`, and all are released at the return. -/
theorem cross_reads_nested_witness :
    (EventDetector.setEventCallback (some 7) EventDetector.init).eventCallback = some 7 ∧
    heldAfter [] ((EventDetector.recordEventOps getSnapshotOps SessionManager.init 1
        EventDetector.EventType.CUSTOM "tap" ""
        (EventDetector.setEventCallback (some 7) EventDetector.init)).take 6)
      = [Mutex.session, Mutex.aggregator, Mutex.journal] ∧
    heldAfter [] (EventDetector.recordEventOps getSnapshotOps SessionManager.init 1
        EventDetector.EventType.CUSTOM "tap" ""
        (EventDetector.setEventCallback (some 7) EventDetector.init)) = [] :=
  ⟨rfl,
    ((cross_reads_nested getSnapshotOps SessionManager.init 1 EventDetector.EventType.CUSTOM
      "tap" "" (EventDetector.setEventCallback (some 7) EventDetector.init)).2.2.2.2.2.2.2.2.2.2.1
        7 rfl).2.1,
    ((cross_reads_nested getSnapshotOps SessionManager.init 1 EventDetector.EventType.CUSTOM
      "tap" "" (EventDetector.setEventCallback (some 7) EventDetector.init)).2.2.2.2.2.2.2.2.2.2.1
        7 rfl).2.2.2.1⟩

/-- The claim C30 as written fails: after the second step of `getSnapshot`, the
lock taken inside `SessionManager::getSessionId`, the aggregator mutex and the
session mutex are both held. -/
theorem cross_reads_nested_counterexample :
    getSnapshotOps[1]? = some (.lock .session) ∧
    Mutex.aggregator ∈ heldAfter [] (getSnapshotOps.take 1) ∧
    ¬ ((heldAfter [] (getSnapshotOps.take 2)).length ≤ 1) := by
  decide

end MetricsAggregator
end metrics

/-! ## Embedded keys, expired sessions and repeated ANR reports -/

namespace NativeKeys

/-- C31 (the code on its own constants): the embedded vectors do not decode to
the originals their comments document.  `decodeKey(API_KEY_ENCODED, 0x5A)` is
`bk@feka@era@kas@16745@damo`, not `bk_fake_api_key_12345_demo`, and
`decodeKey(SECRET_KEY_ENCODED, 0x7F)` is `sk+fake+secret+kew+67012+demo`, not
`sk_fake_secret_key_67890_demo`; the vectors differ from what the documented
encoding gives for the documented originals, which `decodeKey` does invert. -/
theorem decodeKey_embedded :
    decodeKey API_KEY_ENCODED XOR_KEY_API = "bk@feka@era@kas@16745@damo" ∧
    decodeKey API_KEY_ENCODED XOR_KEY_API ≠ "bk_fake_api_key_12345_demo" ∧
    decodeKey SECRET_KEY_ENCODED XOR_KEY_SECRET = "sk+fake+secret+kew+67012+demo" ∧
    decodeKey SECRET_KEY_ENCODED XOR_KEY_SECRET ≠ "sk_fake_secret_key_67890_demo" ∧
    API_KEY_ENCODED ≠ encodeKey "bk_fake_api_key_12345_demo" XOR_KEY_API ∧
    SECRET_KEY_ENCODED ≠ encodeKey "sk_fake_secret_key_67890_demo" XOR_KEY_SECRET ∧
    decodeKey (encodeKey "bk_fake_api_key_12345_demo" XOR_KEY_API) XOR_KEY_API
      = "bk_fake_api_key_12345_demo" ∧
    decodeKey (encodeKey "sk_fake_secret_key_67890_demo" XOR_KEY_SECRET) XOR_KEY_SECRET
      = "sk_fake_secret_key_67890_demo" := by
  refine ⟨by decide, by decide, by decide, by decide, by decide, by decide, by decide,
    by decide⟩

end NativeKeys

namespace metrics
namespace SessionManager
open State

/-- C32 (the code at the failing input): a resume past the grace period ends
the session and clears the id but keeps `startTime`, so `getSessionDurationMs`
goes on returning `now - startTime` for a state with no live session, whereas
after `endSession` it returns 0.  For a session started at `t0`, paused at `t1`
and resumed at `t2` with `t2 - t1` above the grace period: the state is
TERMINATED, the id is empty and the duration read at `now` is `now - t0`. -/
theorem duration_after_expiry (s : SessionManager) (rnd : Nat → Nat) (t0 t1 t2 now : Int)
    (hs : s.state ≠ ACTIVE) (ht0 : t0 ≠ 0) (hg : t2 - t1 > s.gracePeriodMs) :
    (run s [.startSession rnd t0, .pauseSession t1, .resumeSession t2]).state = TERMINATED ∧
    (run s [.startSession rnd t0, .pauseSession t1, .resumeSession t2]).sessionId = "" ∧
    (run s [.startSession rnd t0, .pauseSession t1, .resumeSession t2]).startTimeMs = t0 ∧
    (getSessionDurationMs now
      (run s [.startSession rnd t0, .pauseSession t1, .resumeSession t2])).1 = now - t0 ∧
    (getSessionDurationMs now
      (run s [.startSession rnd t0, .pauseSession t1, .endSession t2])).1 = 0 := by
  have hrun : run s [.startSession rnd t0, .pauseSession t1, .resumeSession t2]
      = { s with state := TERMINATED, sessionId := "", startTimeMs := t0,
                 pauseTimeMs := t1 } := by
    simp [run, Call.apply, startSession, pauseSession, resumeSession, hs, hg]
  have hend : run s [.startSession rnd t0, .pauseSession t1, .endSession t2]
      = { s with state := TERMINATED, sessionId := "", startTimeMs := 0,
                 pauseTimeMs := 0 } := by
    simp [run, Call.apply, startSession, pauseSession, endSession, hs]
  rw [hrun, hend]
  refine ⟨rfl, rfl, rfl, ?_, ?_⟩
  · simp [getSessionDurationMs, ht0]
  · simp [getSessionDurationMs]

/-- C32 at the failing input: start at 1000, pause at 2000, resume at 8000 with
the grace period 5000; the duration read at 9000 is 8000, not 0. -/
theorem duration_after_expiry_witness :
    (run init [.startSession (fun _ => 0) 1000, .pauseSession 2000,
      .resumeSession 8000]).sessionId = "" ∧
    (getSessionDurationMs 9000 (run init [.startSession (fun _ => 0) 1000, .pauseSession 2000,
      .resumeSession 8000])).1 = 9000 - 1000 ∧
    (getSessionDurationMs 9000 (run init [.startSession (fun _ => 0) 1000, .pauseSession 2000,
      .resumeSession 8000])).1 ≠ 0 := by
  have h := duration_after_expiry init (fun _ => 0) 1000 2000 8000 9000 (by decide) (by decide)
    (by decide)
  refine ⟨h.2.1, h.2.2.2.1, ?_⟩
  rw [h.2.2.2.1]
  decide

end SessionManager

namespace EventDetector
open EventType

/-- The ANR recording a late wake makes, as the arguments of a `recordEvent`. -/
theorem wake_record (sm : SessionManager) (ct rt : Int) (d : EventDetector)
    (hr : d.watchdogRunning = true) (h : ct - d.lastPingTimeMs > d.anrThresholdMs) :
    (Call.watchdogWake sm ct rt).apply d
      = (RecordArgs.call ⟨sm, rt, ANR, "MainThreadBlocked",
          anrMetadata (ct - d.lastPingTimeMs)⟩).apply d := by
  simp only [Call.apply, RecordArgs.call]
  exact watchdogWake_late sm ct rt d hr h

/-- A series of late wakes with no ping in between is the series of their ANR
recordings. -/
theorem run_late_wakes (ws : List (SessionManager × Int × Int)) (d : EventDetector)
    (hr : d.watchdogRunning = true)
    (h : ∀ w ∈ ws, w.2.1 - d.lastPingTimeMs > d.anrThresholdMs) :
    run d (ws.map fun w => Call.watchdogWake w.1 w.2.1 w.2.2)
      = run d (ws.map fun w => RecordArgs.call
          ⟨w.1, w.2.2, ANR, "MainThreadBlocked", anrMetadata (w.2.1 - d.lastPingTimeMs)⟩) := by
  induction ws generalizing d with
  | nil => rfl
  | cons w ws ih =>
    have hw := wake_record w.1 w.2.1 w.2.2 d hr (h w (List.mem_cons_self _ _))
    have hfr := recordEvent_frame w.1 w.2.2 ANR "MainThreadBlocked"
      (anrMetadata (w.2.1 - d.lastPingTimeMs)) d
    have hstep := ih (recordEvent w.1 w.2.2 ANR "MainThreadBlocked"
        (anrMetadata (w.2.1 - d.lastPingTimeMs)) d).1
      (by rw [hfr]; exact hr)
      (by
        intro w' hw'
        rw [hfr]
        exact h w' (List.mem_cons_of_mem _ hw'))
    simp only [List.map_cons, run, hw]
    simp only [RecordArgs.call, Call.apply] at hstep ⊢
    rw [hstep, hfr]

/-- C35: a stalled heartbeat is reported on every wake.  A wake never modifies
`lastPing`, the threshold or the running flag; so when a wake of the running
watchdog at time `t` is late (`t - lastPing` above the threshold) and no
`pingWatchdog` occurs, every later wake at a time `t' >= t` is late too, and a
series of `k` such wakes appends `k` ANR events to the journal (the oldest
entries evicted past 500) and invokes a stored callback `k` times, once per
event and in order. -/
theorem stalled_heartbeat (ws : List (SessionManager × Int × Int)) (d : EventDetector)
    (sm : SessionManager) (t recordTime : Int)
    (hr : d.watchdogRunning = true) (hlen : d.events.length ≤ MAX_EVENTS)
    (ht : t - d.lastPingTimeMs > d.anrThresholdMs) (hws : ∀ w ∈ ws, t ≤ w.2.1) :
    ((watchdogWake sm t recordTime d).1.lastPingTimeMs = d.lastPingTimeMs ∧
      (watchdogWake sm t recordTime d).1.anrThresholdMs = d.anrThresholdMs ∧
      (watchdogWake sm t recordTime d).1.watchdogRunning = d.watchdogRunning) ∧
    (∀ w ∈ ws, ∃ e, e.type = ANR ∧
      (watchdogWake w.1 w.2.1 w.2.2 (watchdogWake sm t recordTime d).1).1.events.getLast?
        = some e) ∧
    (run d (ws.map fun w => Call.watchdogWake w.1 w.2.1 w.2.2)).1.events
      = (d.events ++ ws.map fun w => mkEvent w.1 w.2.2 ANR "MainThreadBlocked"
            (anrMetadata (w.2.1 - d.lastPingTimeMs))).drop
          (d.events.length + ws.length - MAX_EVENTS) ∧
    (∀ sink, d.eventCallback = some sink →
      (run d (ws.map fun w => Call.watchdogWake w.1 w.2.1 w.2.2)).2
        = ws.map fun w => (⟨sink, mkEvent w.1 w.2.2 ANR "MainThreadBlocked"
            (anrMetadata (w.2.1 - d.lastPingTimeMs))⟩ : Delivery)) ∧
    (∀ sink, d.eventCallback = some sink →
      (run d (ws.map fun w => Call.watchdogWake w.1 w.2.1 w.2.2)).2.length = ws.length) := by
  have hlate : ∀ w ∈ ws, w.2.1 - d.lastPingTimeMs > d.anrThresholdMs := by
    intro w hw
    have := hws w hw
    omega
  have hwake := watchdogWake_late sm t recordTime d hr ht
  have hfr := recordEvent_frame sm recordTime ANR "MainThreadBlocked"
    (anrMetadata (t - d.lastPingTimeMs)) d
  have hrun := run_late_wakes ws d hr hlate
  have hmap : (ws.map fun w => RecordArgs.call
      ⟨w.1, w.2.2, ANR, "MainThreadBlocked", anrMetadata (w.2.1 - d.lastPingTimeMs)⟩)
      = (ws.map fun w => (⟨w.1, w.2.2, ANR, "MainThreadBlocked",
        anrMetadata (w.2.1 - d.lastPingTimeMs)⟩ : RecordArgs)).map
          RecordArgs.call := by
    rw [List.map_map]
    rfl
  have hev := run_records_events (ws.map fun w => (⟨w.1, w.2.2, ANR,
    "MainThreadBlocked", anrMetadata (w.2.1 - d.lastPingTimeMs)⟩ : RecordArgs)) d hlen
  have hdl := run_records_deliveries (ws.map fun w => (⟨w.1, w.2.2, ANR,
    "MainThreadBlocked", anrMetadata (w.2.1 - d.lastPingTimeMs)⟩ : RecordArgs)) d
  refine ⟨?_, ?_, ?_, ?_, ?_⟩
  · rw [hwake, hfr]
    exact ⟨rfl, rfl, rfl⟩
  · intro w hw
    have hr' : (watchdogWake sm t recordTime d).1.watchdogRunning = true := by
      rw [hwake, hfr]; exact hr
    have hl' : w.2.1 - (watchdogWake sm t recordTime d).1.lastPingTimeMs
        > (watchdogWake sm t recordTime d).1.anrThresholdMs := by
      rw [hwake, hfr]; exact hlate w hw
    rw [watchdogWake_late w.1 w.2.1 w.2.2 _ hr' hl', recordEvent_getLast]
    exact ⟨_, rfl, rfl⟩
  · rw [hrun, hmap, hev]
    simp only [List.map_map, List.length_map]
    rfl
  · intro sink hs
    rw [hrun, hmap, hdl, hs]
    simp only [List.map_map]
    rfl
  · intro sink hs
    rw [hrun, hmap, hdl, hs]
    simp

/-- C35 at a concrete input: the watchdog started at time 0 on the initial
detector with the callback of handle 7 stored, never pinged; after a late wake
at 6000 the wakes at 6500 and 7000 record two events and invoke the callback
twice. -/
theorem stalled_heartbeat_witness :
    (run (setEventCallback (some 7) (startWatchdog 0 init))
      [.watchdogWake SessionManager.init 6500 6501,
        .watchdogWake SessionManager.init 7000 7001]).2.length = 2 ∧
    (run (setEventCallback (some 7) (startWatchdog 0 init))
      [.watchdogWake SessionManager.init 6500 6501,
        .watchdogWake SessionManager.init 7000 7001]).1.events.length = 2 := by
  have h := stalled_heartbeat
    [(SessionManager.init, 6500, 6501), (SessionManager.init, 7000, 7001)]
    (setEventCallback (some 7) (startWatchdog 0 init)) SessionManager.init 6000 6001 rfl
    (by decide) (by decide)
    (by
      intro w hw
      simp only [List.mem_cons, List.mem_singleton, List.not_mem_nil, or_false] at hw
      rcases hw with rfl | rfl <;> decide)
  refine ⟨h.2.2.2.2 7 rfl, ?_⟩
  have he := h.2.2.1
  simp only [List.map_cons, List.map_nil] at he
  rw [he]
  rfl

end EventDetector
end metrics

/-! ## The two entry points of the image processor -/

namespace metrics
namespace ImageProcessor

/-- A `uint32_t` below `2 ^ 31` converts to the same `int`. -/
theorem toInt32_small (v : Nat) (h : v < 2 ^ 31) : toInt32 v = (v : Int) := by
  have h1 : v % 2 ^ 32 = v := Nat.mod_eq_of_lt (by omega)
  simp only [toInt32, h1, if_pos h]

/-- A store keeps the size of the buffer. -/
theorem storeByte_length (buf : List (Fin 256)) (index : Int) (v : Fin 256) :
    (storeByte buf index v).length = buf.length := by
  unfold storeByte
  split_ifs <;> simp

/-- A loop whose body keeps the size of the buffer keeps it. -/
theorem foldl_length_keep {α : Type} (f : List (Fin 256) → α → List (Fin 256))
    (hf : ∀ b a, (f b a).length = b.length) (l : List α) (buf : List (Fin 256)) :
    (l.foldl f buf).length = buf.length := by
  induction l generalizing buf with
  | nil => rfl
  | cons a rest ih => rw [List.foldl_cons, ih, hf]

/-- A successful `downscalePixels` on the buffer of a vector of `size` bytes
returns a buffer of that size. -/
theorem downscalePixels_length (nullOnEmpty : Bool) (src : Int → Fin 256)
    (width height stride size tw th : Int)
    (hok : (downscalePixels (some src) width height stride (vectorData nullOnEmpty size)
      tw th).1 = true) :
    ∃ out, (downscalePixels (some src) width height stride (vectorData nullOnEmpty size)
        tw th).2 = some out ∧ out.length = size.toNat := by
  unfold vectorData at hok ⊢
  simp only [] at hok ⊢
  split_ifs at hok ⊢ with hnull
  · simp [downscalePixels] at hok
  · refine ⟨_, rfl, ?_⟩
    rw [foldl_length_keep _ (fun b y => foldl_length_keep _ (fun b x =>
      foldl_length_keep _ (fun b c => storeByte_length _ _ _) _ _) _ _)]
    simp

/-- The artifact is twelve header bytes followed by at most `pixelDataSize`
bytes of the buffer. -/
theorem artifact_length (pixels : List (Fin 256)) (width height quality : Int) :
    (artifact pixels width height quality).length
      = 12 + min (toSizeT (wrapInt (width * height * 4))) pixels.length := by
  simp only [artifact, List.length_append, encodeInt_length, List.length_take]

/-- The bitmap entry point on a bitmap whose info and pixels are obtained, in
terms of the buffer entry point on the same data: the same processor and file
system, and the same result but for `processedSizeBytes` on success. -/
theorem processAndSaveBitmap_buffer (startTime endTime : Int) (nullOnEmpty readOpens : Bool)
    (src : Int → Fin 256) (b : Bitmap) (outputPath : String)
    (p : ImageProcessor) (fs : FileSystem)
    (hinfo : b.infoOk = true) (hlock : b.lockOk = true) (hpix : b.pixels = some src)
    (hw0 : 0 < b.width) (hw : b.width < 2 ^ 31) (hh0 : 0 < b.height) (hh : b.height < 2 ^ 31)
    (hs : b.stride < 2 ^ 31) (hsz : b.stride * b.height < 2 ^ 31) :
    processAndSaveBitmap startTime endTime nullOnEmpty readOpens true (some b) outputPath p fs
      = match processAndSaveBitmapBuffer startTime endTime nullOnEmpty (some src)
          (b.width : Int) (b.height : Int) (b.stride : Int) outputPath p fs with
        | (some r, p1, fs1) =>
          if r.success = true then
            match readOpens, fs1.files outputPath with
            | true, some content => (some { r with processedSizeBytes := content.length }, p1, fs1)
            | _, _ => (some r, p1, fs1)
          else (some r, p1, fs1)
        | (none, p1, fs1) => (none, p1, fs1) := by
  have hwI : (0 : Int) < (b.width : Int) := by exact_mod_cast hw0
  have hhI : (0 : Int) < (b.height : Int) := by exact_mod_cast hh0
  have hsize : (b.stride * b.height) % 2 ^ 32
      = toSizeT (wrapInt ((b.stride : Int) * (b.height : Int))) := by
    have h1 : ((b.stride : Int) * (b.height : Int)) = ((b.stride * b.height : Nat) : Int) := by
      push_cast; rfl
    have h2 : ((b.stride * b.height : Nat) : Int) < 2 ^ 31 := by exact_mod_cast hsz
    rw [h1, wrapInt_eq _ (by omega) h2, toSizeT, Int.emod_eq_of_lt (by positivity) (by
      have : ((b.stride * b.height : Nat) : Int) < 2 ^ 31 := by exact_mod_cast hsz
      omega), Int.toNat_ofNat, Nat.mod_eq_of_lt (by omega)]
  rw [processAndSave_valid startTime endTime nullOnEmpty src _ _ _ outputPath p fs hwI hhI]
  simp only [processAndSaveBitmap, hinfo, hlock, hpix, toInt32_small _ hw, toInt32_small _ hh,
    toInt32_small _ hs, hsize, getDefaultConfig, writeJpeg, Bool.not_true, Bool.false_eq_true,
    if_false]
  by_cases h1 : wrapInt ((targetDimensions p.defaultConfig (b.width : Int) (b.height : Int)).1
        * (targetDimensions p.defaultConfig (b.width : Int) (b.height : Int)).2 * 4) < 0
  · simp only [if_pos h1]
  · simp only [if_neg h1]
    by_cases h2 : (downscalePixels (some src) (b.width : Int) (b.height : Int) (b.stride : Int)
        (vectorData nullOnEmpty
          (wrapInt ((targetDimensions p.defaultConfig (b.width : Int) (b.height : Int)).1
            * (targetDimensions p.defaultConfig (b.width : Int) (b.height : Int)).2 * 4)))
        (targetDimensions p.defaultConfig (b.width : Int) (b.height : Int)).1
        (targetDimensions p.defaultConfig (b.width : Int) (b.height : Int)).2).1 = false
    · simp [h2, ProcessingResult.zero]
    · have h2' := Bool.eq_true_of_not_eq_false h2
      simp only [h2, h2', if_false, Bool.not_true, Bool.false_eq_true]
      by_cases h3 : fs.writable outputPath = false
      · simp [h3, ProcessingResult.zero]
      · have h3' := Bool.eq_true_of_not_eq_false h3
        simp only [h3, h3', if_false, Bool.not_true, Bool.false_eq_true, if_true]
        cases readOpens <;> simp [store]

end ImageProcessor
end metrics

namespace metrics
namespace ImageProcessor

/-- The buffer entry point never assigns `processedSizeBytes`. -/
theorem processAndSave_size_zero (startTime endTime : Int) (nullOnEmpty : Bool)
    (pixelBuffer : Option (Int → Fin 256)) (width height stride : Int) (outputPath : String)
    (p : ImageProcessor) (fs : FileSystem) (r : ProcessingResult)
    (hr : (processAndSaveBitmapBuffer startTime endTime nullOnEmpty pixelBuffer width height
      stride outputPath p fs).1 = some r) :
    r.processedSizeBytes = 0 := by
  by_cases hinv : pixelBuffer = none ∨ width ≤ 0 ∨ height ≤ 0
  · rw [processAndSave_invalid startTime endTime nullOnEmpty pixelBuffer width height
      stride outputPath p fs hinv] at hr
    simp only [Option.some.injEq] at hr
    rw [← hr]
    rfl
  · push_neg at hinv
    obtain ⟨hsrc, hw, hh⟩ := hinv
    obtain ⟨src, rfl⟩ := Option.ne_none_iff_exists'.mp hsrc
    rw [processAndSave_valid startTime endTime nullOnEmpty src width height stride outputPath
      p fs (by omega) (by omega)] at hr
    split_ifs at hr
    all_goals
      simp only [Option.some.injEq] at hr
      rw [← hr]
      rfl

/-- C36 (the code on matching inputs): the two entry points do not agree on
`processedSizeBytes`.  For a bitmap whose info and pixels are obtained (sizes
that are positive values of an `int`) and the buffer call on the same pixels,
dimensions, stride, configuration and path, with the same clock readings: the
processor and the file system end the same, every result of the buffer entry
point has `processedSizeBytes = 0`, and the bitmap entry point returns the same
result except that, on success, its `processedSizeBytes` is the size of the
file written, `12 + 4 * processedWidth * processedHeight`. -/
theorem entry_points_size (startTime endTime : Int) (nullOnEmpty : Bool)
    (src : Int → Fin 256) (b : Bitmap) (outputPath : String)
    (p : ImageProcessor) (fs : FileSystem) (r : ProcessingResult)
    (hinfo : b.infoOk = true) (hlock : b.lockOk = true) (hpix : b.pixels = some src)
    (hw0 : 0 < b.width) (hw : b.width < 2 ^ 31) (hh0 : 0 < b.height) (hh : b.height < 2 ^ 31)
    (hs : b.stride < 2 ^ 31) (hsz : b.stride * b.height < 2 ^ 31)
    (hr : (processAndSaveBitmapBuffer startTime endTime nullOnEmpty (some src)
      (b.width : Int) (b.height : Int) (b.stride : Int) outputPath p fs).1 = some r) :
    (processAndSaveBitmap startTime endTime nullOnEmpty true true (some b) outputPath p fs).2
      = (processAndSaveBitmapBuffer startTime endTime nullOnEmpty (some src)
          (b.width : Int) (b.height : Int) (b.stride : Int) outputPath p fs).2 ∧
    r.processedSizeBytes = 0 ∧
    ∃ r1, (processAndSaveBitmap startTime endTime nullOnEmpty true true (some b) outputPath
          p fs).1 = some r1 ∧
      r = { r1 with processedSizeBytes := 0 } ∧
      (r.success = false → r1 = r) ∧
      (r.success = true →
        (∃ content, (processAndSaveBitmapBuffer startTime endTime nullOnEmpty (some src)
            (b.width : Int) (b.height : Int) (b.stride : Int) outputPath p fs).2.2.files
              outputPath = some content ∧
          r1.processedSizeBytes = content.length ∧ 12 ≤ content.length) ∧
        r1.processedSizeBytes ≠ r.processedSizeBytes ∧
        (r.processedWidth * r.processedHeight * 4 < 2 ^ 31 →
          r1.processedSizeBytes = 12 + (r.processedWidth * r.processedHeight * 4).toNat)) := by
  have hrel := processAndSaveBitmap_buffer startTime endTime nullOnEmpty true src b outputPath
    p fs hinfo hlock hpix hw0 hw hh0 hh hs hsz
  have hzero := processAndSave_size_zero startTime endTime nullOnEmpty (some src) _ _ _
    outputPath p fs r hr
  cases hX : processAndSaveBitmapBuffer startTime endTime nullOnEmpty (some src)
      (b.width : Int) (b.height : Int) (b.stride : Int) outputPath p fs with
  | mk o rest =>
    cases rest with
    | mk p1 fs1 =>
      rw [hX] at hr hrel
      simp only at hr
      subst hr
      by_cases hsucc : r.success = true
      · obtain ⟨src', hsrc', _, _, _, _, _, hP, _, hok, hfs⟩ := processAndSave_success startTime
          endTime nullOnEmpty (some src) _ _ _ outputPath p fs r (by rw [hX]) hsucc
        have hs' : src' = src := by
          simp only [Option.some.injEq] at hsrc'
          exact hsrc'.symm
        subst hs'
        rw [hX] at hfs
        simp only at hfs
        obtain ⟨out, hout, hlen⟩ := downscalePixels_length nullOnEmpty src' _ _ _ _
          r.processedWidth r.processedHeight hok
        have hfile : fs1.files outputPath = some (artifact out r.processedWidth
            r.processedHeight p.defaultConfig.quality) := by
          rw [hfs, hout]
          simp [store]
        simp only [hsucc, if_true, hfile] at hrel
        rw [hrel]
        refine ⟨rfl, hzero, _, rfl, ?_, fun h => absurd hsucc (by simp [h]), fun _ => ?_⟩
        · cases r
          simp only at hzero hsucc
          subst hzero hsucc
          rfl
        · have hlen12 := artifact_length out r.processedWidth r.processedHeight
            p.defaultConfig.quality
          refine ⟨⟨_, hfile, rfl, by omega⟩, ?_, ?_⟩
          · simp only [hzero]
            omega
          · intro hsize
            simp only
            rw [hlen12, hlen, wrapInt_eq _ (by omega) hsize, toSizeT_of_nonneg _ hP hsize,
              Nat.min_self]
      · have hf : r.success = false := by simpa using hsucc
        simp only [hf, Bool.false_eq_true, if_false] at hrel
        rw [hrel]
        refine ⟨rfl, hzero, r, rfl, ?_, fun _ => rfl, fun h => absurd h hsucc⟩
        cases r
        simp only at hzero
        subst hzero
        rfl

/-- C36 at the failing input: a 1000x500 bitmap (stride 4000) under the
initial configuration, every path writable: the buffer entry point succeeds
with `processedSizeBytes = 0`, the bitmap entry point with
`processedSizeBytes = 259212`. -/
theorem entry_points_size_witness :
    ∃ r r1, (processAndSaveBitmapBuffer 0 5 false (some fun _ => 7) 1000 500 4000 "out.bin"
          init { files := fun _ => none, writable := fun _ => true }).1 = some r ∧
      (processAndSaveBitmap 0 5 false true true
          (some { infoOk := true, width := 1000, height := 500, stride := 4000, lockOk := true,
                  pixels := some fun _ => 7 }) "out.bin"
          init { files := fun _ => none, writable := fun _ => true }).1 = some r1 ∧
      r.success = true ∧ r.processedSizeBytes = 0 ∧ r1.processedSizeBytes = 259212 := by
  have hr := processAndSave_1000_500 0 5 (fun _ => 7) 4000 "out.bin"
    { files := fun _ => none, writable := fun _ => true } rfl
  obtain ⟨_, hz, r1, hr1, _, _, hsucc⟩ := entry_points_size 0 5 false (fun _ => 7)
    { infoOk := true, width := 1000, height := 500, stride := 4000, lockOk := true,
      pixels := some fun _ => 7 } "out.bin" init
    { files := fun _ => none, writable := fun _ => true } _ rfl rfl rfl (by decide) (by decide)
    (by decide) (by decide) (by decide) (by decide) hr
  exact ⟨_, r1, hr, hr1, rfl, hz, (hsucc rfl).2.2 (by decide)⟩

end ImageProcessor
end metrics

/-! ## Resampling at the source size -/

/-- A concatenation of `n` blocks of `s` values of `f` is the first `n * s`
values of `f`. -/
theorem flatMap_range_map {α : Type} (f : Nat → α) (s n : Nat) :
    ((List.range n).flatMap fun i => (List.range s).map fun j => f (i * s + j))
      = (List.range (n * s)).map f := by
  induction n with
  | zero => simp
  | succ m ih =>
    rw [List.range_succ, List.flatMap_append, ih, Nat.succ_mul, List.range_add, List.map_append]
    simp [List.map_map, Function.comp_def]

namespace metrics
namespace F32

/-- The value 2 ^ 24 is a `float`. -/
theorem ofRat_16777216 : ofRat 16777216 = fin 16777216 := by
  rw [ofRat_pos_eval 16777216 16777216 1 8388608 1 (by norm_num) (by norm_num) (by norm_num)
    (by decide) (by norm_num)]
  norm_num

/-- The conversion of 2 ^ 24 + 1 rounds down to 2 ^ 24. -/
theorem ofRat_16777217 : ofRat 16777217 = fin 16777216 := by
  rw [ofRat_pos_eval 16777217 16777217 1 8388608 1 (by norm_num) (by norm_num) (by norm_num)
    (by decide) (by norm_num)]
  norm_num

/-- The value 2 ^ 24 + 2 is a `float`. -/
theorem ofRat_16777218 : ofRat 16777218 = fin 16777218 := by
  rw [ofRat_pos_eval 16777218 16777218 1 8388609 1 (by norm_num) (by norm_num) (by norm_num)
    (by decide) (by norm_num)]
  norm_num

/-- Integers from 0 to 2 ^ 24 convert exactly. -/
theorem ofInt_exact_le (n : Int) (h0 : 0 ≤ n) (h : n ≤ 2 ^ 24) : ofInt n = fin n := by
  rcases lt_or_eq_of_le h with hlt | heq
  · exact ofInt_exact n h0 hlt
  · subst heq
    rw [ofInt]
    have : (((2 : Int) ^ 24 : Int) : ℚ) = 16777216 := by norm_num
    rw [this, ofRat_16777216]

end F32

namespace ImageProcessor

/-- The ratio of a size from 1 to 2 ^ 24 to itself is 1. -/
theorem ratio_self (w : Int) (h1 : 1 ≤ w) (h2 : w ≤ 2 ^ 24) :
    F32.div (F32.ofInt w) (F32.ofInt w) = F32.fin 1 := by
  have hw : ((w : Int) : ℚ) ≠ 0 := by
    have : (1 : ℚ) ≤ (w : ℚ) := by exact_mod_cast h1
    linarith
  rw [F32.ofInt_exact_le w (by omega) h2, F32.div_fin_fin _ _ hw, div_self hw, F32.ofRat_one]

/-- With ratio 1 the source coordinate of an index below 2 ^ 24 is the index
and the weight is 0. -/
theorem coords_self (w x : Int) (h1 : 1 ≤ w) (h2 : w ≤ 2 ^ 24) (hx0 : 0 ≤ x)
    (hx : x < 2 ^ 24) :
    coord0 w w x = x ∧ coordFrac w w x = F32.fin 0 := by
  have hs : srcCoord w w x = F32.fin (x : ℚ) := by
    rw [srcCoord, ratio_self w h1 h2, F32.ofInt_exact x hx0 hx, F32.mul_fin_fin, mul_one]
    exact F32.ofInt_exact x hx0 hx
  have h0 : coord0 w w x = x := by
    rw [coord0, hs, F32.toInt_fin_nonneg _ (by exact_mod_cast hx0), Int.floor_intCast]
  refine ⟨h0, ?_⟩
  rw [coordFrac, hs, h0, F32.ofInt_exact x hx0 hx, F32.sub_fin_fin, sub_self, F32.ofRat_zero]

/-- At the source size every destination byte is the source byte at the same
pixel and channel. -/
theorem pixelValue_self (src : Int → Fin 256) (w h stride x y c : Int)
    (hw1 : 1 ≤ w) (hw2 : w ≤ 2 ^ 24) (hh1 : 1 ≤ h) (hh2 : h ≤ 2 ^ 24)
    (hx0 : 0 ≤ x) (hx : x < w) (hy0 : 0 ≤ y) (hy : y < h) :
    pixelValue src w h stride w h x y c = src (readIndex stride x y c) := by
  obtain ⟨hx0', hxf⟩ := coords_self w x hw1 hw2 hx0 (by omega)
  obtain ⟨hy0', hyf⟩ := coords_self h y hh1 hh2 hy0 (by omega)
  simp only [pixelValue, hx0', hxf, hy0', hyf, ofInt_byte, blend_origin, F32.clamp_byte]

/-- C34 (amended): resampling at the source size is the identity for sizes up
to `2 ^ 24` whose byte count fits an `int`.  For `1 ≤ srcWidth, srcHeight ≤
2 ^ 24` with `4 * srcWidth * srcHeight < 2 ^ 31`, every source buffer with
`srcStride = 4 * srcWidth` and every destination buffer of
`4 * srcWidth * srcHeight` bytes, `downscalePixels` with `dstWidth = srcWidth`
and `dstHeight = srcHeight` returns `true` and leaves in the destination the
first `4 * srcWidth * srcHeight` bytes of the source, byte for byte; every
fractional weight is 0 and every sampled coordinate is the destination's. -/
theorem resample_identity (src : Int → Fin 256) (w h : Nat) (dst : List (Fin 256))
    (hw1 : 1 ≤ w) (hw2 : w ≤ 2 ^ 24) (hh1 : 1 ≤ h) (hh2 : h ≤ 2 ^ 24)
    (hsz : h * (w * 4) < 2 ^ 31) (hlen : dst.length = h * (w * 4)) :
    downscalePixels (some src) (w : Int) (h : Int) (4 * (w : Int)) (some dst) (w : Int) (h : Int)
      = (true, some ((List.range (h * (w * 4))).map fun (i : Nat) => src (i : Int))) ∧
    (∀ x y : Nat, x < w → y < h →
      coord0 (w : Int) (w : Int) (x : Int) = x ∧
      coordFrac (w : Int) (w : Int) (x : Int) = F32.fin 0 ∧
      coord0 (h : Int) (h : Int) (y : Int) = y ∧
      coordFrac (h : Int) (h : Int) (y : Int) = F32.fin 0) := by
  have hwI1 : (1 : Int) ≤ (w : Int) := by exact_mod_cast hw1
  have hwI2 : (w : Int) ≤ 2 ^ 24 := by exact_mod_cast hw2
  have hhI1 : (1 : Int) ≤ (h : Int) := by exact_mod_cast hh1
  have hhI2 : (h : Int) ≤ 2 ^ 24 := by exact_mod_cast hh2
  constructor
  · rw [downscalePixels_buffer src (w : Int) (h : Int) (4 * (w : Int)) w h dst hlen hsz]
    congr 2
    rw [← flatMap_range_map (fun (i : Nat) => src (i : Int)) (w * 4) h]
    apply List.flatMap_congr
    intro y hy
    have hy' : y < h := List.mem_range.mp hy
    rw [← flatMap_range_map (fun (j : Nat) => src ((y * (w * 4) + j : Nat) : Int)) 4 w]
    apply List.flatMap_congr
    intro x hx
    have hx' : x < w := List.mem_range.mp hx
    apply List.map_congr_left
    intro c hc
    have hc' : c < 4 := List.mem_range.mp hc
    rw [pixelValue_self src (w : Int) (h : Int) (4 * (w : Int)) (x : Int) (y : Int) (c : Int)
      hwI1 hwI2 hhI1 hhI2 (by positivity) (by exact_mod_cast hx') (by positivity)
      (by exact_mod_cast hy')]
    refine congrArg src ?_
    have e : (y : Int) * (4 * (w : Int)) + (x : Int) * 4 + (c : Int)
        = ((y * (w * 4) + (x * 4 + c) : Nat) : Int) := by
      push_cast
      ring
    have h1 : (y + 1) * (w * 4) ≤ h * (w * 4) := Nat.mul_le_mul_right _ hy'
    have h2 : (y + 1) * (w * 4) = y * (w * 4) + w * 4 := by ring
    have hb : y * (w * 4) + (x * 4 + c) < 2 ^ 31 := by omega
    rw [readIndex, e, wrapInt_eq _ (by omega) (by exact_mod_cast hb)]
  · intro x y hx hy
    obtain ⟨a, b⟩ := coords_self (w : Int) (x : Int) hwI1 hwI2 (by positivity)
      (by have : (x : Int) < (w : Int) := by exact_mod_cast hx
          omega)
    obtain ⟨c, d⟩ := coords_self (h : Int) (y : Int) hhI1 hhI2 (by positivity)
      (by have : (y : Int) < (h : Int) := by exact_mod_cast hy
          omega)
    exact ⟨a, b, c, d⟩

/-- C34 at a concrete input: a 2x1 source of eight bytes is copied. -/
theorem resample_identity_witness :
    downscalePixels (some fun i => Fin.ofNat i.toNat) ((2 : Nat) : Int) ((1 : Nat) : Int)
        (4 * ((2 : Nat) : Int)) (some (List.replicate 8 0)) ((2 : Nat) : Int) ((1 : Nat) : Int)
      = (true, some ((List.range (1 * (2 * 4))).map fun (i : Nat) =>
          (fun (i : Int) => (Fin.ofNat i.toNat : Fin 256)) (i : Int))) :=
  (resample_identity (fun i => Fin.ofNat i.toNat) 2 1 (List.replicate 8 0) (by decide)
    (by decide) (by decide) (by decide) (by decide) rfl).1

end ImageProcessor
end metrics

/-! ## Targets with a zero dimension -/

namespace metrics
namespace F32

end F32

namespace ImageProcessor

/-- For a 1x1 source under targets 23171x23171 the target is 23171x23171 and
the byte count `23171 * 23171 * 4 = 2147580964` does not fit an `int`: the
product wraps to a negative size, the `std::vector` constructor throws, no
result is returned and no file is touched; the last index written by a
23171x23171 resampling, 2147580963, does not fit either. -/
theorem processAndSave_23171 (startTime endTime : Int) (nullOnEmpty : Bool)
    (src : Int → Fin 256) (stride : Int) (outputPath : String) (fs : FileSystem) :
    targetDimensions (setDefaultConfig
        { targetWidth := 23171, targetHeight := 23171, quality := 40, useWebP := false }
        init).defaultConfig 1 1 = (23171, 23171) ∧
    wrapInt (23171 * 23171 * 4) = -2147386332 ∧
    processAndSaveBitmapBuffer startTime endTime nullOnEmpty (some src) 1 1 stride outputPath
      (setDefaultConfig
        { targetWidth := 23171, targetHeight := 23171, quality := 40, useWebP := false } init)
      fs = (none, setDefaultConfig
        { targetWidth := 23171, targetHeight := 23171, quality := 40, useWebP := false } init,
        fs) ∧
    writeIndex 23171 23170 23170 3 = -2147386333 := by
  have e1 := F32.ofInt_lit 1 (by norm_num)
  have e2 := F32.ofInt_lit 23171 (by norm_num)
  simp only [Nat.cast_ofNat, Nat.cast_one] at e1 e2
  have h1 : F32.div (F32.fin 1) (F32.fin 1) = F32.fin 1 := by
    rw [F32.div_fin_fin _ _ (by norm_num), div_one, F32.ofRat_one]
  have h2 : F32.div (F32.fin 23171) (F32.fin 1) = F32.fin 23171 := by
    rw [F32.div_fin_fin _ _ (by norm_num), div_one]
    have := F32.ofRat_natCast 23171 (by norm_num)
    simpa using this
  have h3 : F32.toInt (F32.fin 23171) = 23171 := by
    rw [F32.toInt_fin_nonneg _ (by norm_num)]
    have : ((23171 : ℚ)) = ((23171 : Int) : ℚ) := by norm_num
    rw [this, Int.floor_intCast]
  have hT : targetDimensions (setDefaultConfig
        { targetWidth := 23171, targetHeight := 23171, quality := 40, useWebP := false }
        init).defaultConfig 1 1 = (23171, 23171) := by
    simp only [targetDimensions, setDefaultConfig, e1, e2, h1, h2, h3]
    decide
  refine ⟨hT, by decide, ?_, by decide⟩
  rw [processAndSave_valid startTime endTime nullOnEmpty src 1 1 stride outputPath _ fs
    (by decide) (by decide), hT]
  have hneg : wrapInt ((23171 : Int) * 23171 * 4) < 0 := by decide
  rw [if_pos hneg]

/-- The claim C34 as written fails beyond `2 ^ 24`: for a 16777218x1 source
(stride 67108872) whose only non-zero byte is channel 0 of the pixel
(16777217, 0), resampling at the source size samples the column 16777216 for
the destination column 16777217, so the destination byte at offset 67108868 is
0 where the source has 255. -/
theorem resample_identity_counterexample :
    coord0 16777218 16777218 16777217 = 16777216 ∧
    ∃ out, downscalePixels (some fun i => if i = 67108868 then 255 else 0) 16777218 1 67108872
        (vectorData false (16777218 * 1 * 4)) 16777218 1 = (true, some out) ∧
      out[67108868]? = some 0 ∧
      (fun i : Int => if i = 67108868 then (255 : Fin 256) else 0) 67108868 = 255 := by
  have e18 : F32.ofInt 16777218 = F32.fin 16777218 := by
    rw [F32.ofInt]
    have : ((16777218 : Int) : ℚ) = 16777218 := by norm_num
    rw [this, F32.ofRat_16777218]
  have e17 : F32.ofInt 16777217 = F32.fin 16777216 := by
    rw [F32.ofInt]
    have : ((16777217 : Int) : ℚ) = 16777217 := by norm_num
    rw [this, F32.ofRat_16777217]
  have e16 : F32.ofInt 16777216 = F32.fin 16777216 := by
    rw [F32.ofInt]
    have : ((16777216 : Int) : ℚ) = 16777216 := by norm_num
    rw [this, F32.ofRat_16777216]
  have e1 := F32.ofInt_lit 1 (by norm_num)
  simp only [Nat.cast_one] at e1
  have hrx : F32.div (F32.ofInt 16777218) (F32.ofInt 16777218) = F32.fin 1 := by
    rw [e18, F32.div_fin_fin _ _ (by norm_num), div_self (by norm_num), F32.ofRat_one]
  have hry : F32.div (F32.ofInt 1) (F32.ofInt 1) = F32.fin 1 := by
    rw [e1, F32.div_fin_fin _ _ (by norm_num), div_one, F32.ofRat_one]
  have hs : srcCoord 16777218 16777218 16777217 = F32.fin 16777216 := by
    rw [srcCoord, hrx, e17, F32.mul_fin_fin, mul_one, F32.ofRat_16777216]
  have hx0 : coord0 16777218 16777218 16777217 = 16777216 := by
    rw [coord0, hs, F32.toInt_fin_nonneg _ (by norm_num)]
    have : ((16777216 : ℚ)) = ((16777216 : Int) : ℚ) := by norm_num
    rw [this, Int.floor_intCast]
  have hxf : coordFrac 16777218 16777218 16777217 = F32.fin 0 := by
    rw [coordFrac, hs, hx0, e16, F32.sub_fin_fin, sub_self, F32.ofRat_zero]
  obtain ⟨_, hy0, hyf⟩ := srcCoord_zero 1 1 _ hry
  refine ⟨hx0, ?_⟩
  have hok := downscalePixels_true (fun i => if i = 67108868 then 255 else 0) 16777218 1
    67108872 (16777218 * 1 * 4) 16777218 1
  obtain ⟨out, hout, _, hpt⟩ := downscale_out false
    (fun i => if i = 67108868 then 255 else 0) 16777218 1 67108872 16777218 1 (by norm_num)
    (by norm_num) hok
  refine ⟨out, Prod.ext hok hout, ?_, by simp⟩
  have h := hpt 16777217 0 0 (by norm_num) (by norm_num) (by norm_num)
  have hidx : (0 * (16777218 : Int).toNat + 16777217) * 4 + 0 = 67108868 := by
    simp
  rw [hidx] at h
  rw [h]
  have hx0' : coord0 16777218 16777218 ((16777217 : Nat) : Int) = 16777216 := hx0
  have hxf' : coordFrac 16777218 16777218 ((16777217 : Nat) : Int) = F32.fin 0 := hxf
  have hy0' : coord0 1 1 ((0 : Nat) : Int) = 0 := hy0
  have hyf' : coordFrac 1 1 ((0 : Nat) : Int) = F32.fin 0 := hyf
  have hread : (fun i : Int => if i = 67108868 then (255 : Fin 256) else 0)
      (readIndex 67108872 16777216 0 ((0 : Nat) : Int)) = 0 := by
    decide
  simp only [pixelValue, hx0', hxf', hy0', hyf', ofInt_byte, blend_origin, F32.clamp_byte]
  exact congrArg some hread

end ImageProcessor
end metrics
